import Mathlib

/-!
# AFP validator: structured-field framing, classification and nesting

A shallow embedding of `afpvalidator.c`.

* The file being analysed is a finite list of bytes (`List Nat`) together with
  a read offset; `fread` and `fseek` act on that offset.  A short `fread` can
  only mean end of file (device errors are outside the model), and `malloc`
  always succeeds.
* `int`/`long` counters are unbounded naturals; `uint16_t length` is reduced
  modulo `2^16`.
* Every access to the array of the component stack is checked: an index outside
  the array makes the operation return `none`.
* The text written by `printf` is kept as a list of `Message` values, one per
  error line of the source.
-/

namespace AfpValidator

/-! ## Data model -/

/-- The introducer byte of a structured field (`#define SF_INTRODUCER 0x5A`). -/
def SF_INTRODUCER : Nat := 0x5A

/-- AFP architecture components (`enum AFPComponent`). -/
inductive AFPComponent where
  | COMPONENT_UNKNOWN
  | COMPONENT_DOCUMENT
  | COMPONENT_PAGE_GROUP
  | COMPONENT_PAGE
  | COMPONENT_OBJECT
  | COMPONENT_RESOURCE_GROUP
  | COMPONENT_OVERLAY
  | COMPONENT_RESOURCE
  deriving DecidableEq

/-- AFP data object types (`enum AFPObjectType`). -/
inductive AFPObjectType where
  | OBJ_UNKNOWN
  | OBJ_PRESENTATIONTEXT
  | OBJ_IMAGE
  | OBJ_GRAPHICS
  | OBJ_BARCODE
  | OBJ_FONT
  | OBJ_PAGSEG
  | OBJ_FORMDEF
  | OBJ_RESLIB
  deriving DecidableEq

open AFPComponent AFPObjectType

/-- The C struct `StructuredField`.  `data` is `none` for a NULL pointer.  A cell
of `name` is `none` when it was copied from an address outside the payload
buffer. -/
structure StructuredField where
  length : Nat
  type : Nat × Nat × Nat
  flags : Nat
  data : Option (List Nat)
  component : AFPComponent
  obj_type : AFPObjectType
  name : List (Option Nat)
  deriving DecidableEq

/-- Capacity of the component stack (`#define MAX_STACK_SIZE 100`). -/
def MAX_STACK_SIZE : Nat := 100

/-- The C struct `ComponentStack`: the array `components` and the index `top`
of the most recently opened component (`-1` when nothing is open). -/
structure ComponentStack where
  components : List AFPComponent
  top : Int
  deriving DecidableEq

/-- Checked read of `cells[i]`: `none` when `i` is outside the array. -/
def array_read {α : Type} (cells : List α) (i : Int) : Option α :=
  if 0 ≤ i then cells.get? i.toNat else none

/-- Checked write `cells[i] = v`: `none` when `i` is outside the array. -/
def array_write {α : Type} (cells : List α) (i : Int) (v : α) : Option (List α) :=
  if 0 ≤ i ∧ i.toNat < cells.length then some (cells.set i.toNat v) else none

/-! ## Component stack (`stack_init` .. `stack_empty`) -/

/-- `stack_init`: only the index is reset. -/
def stack_init (stack : ComponentStack) : ComponentStack :=
  { stack with top := -1 }

/-- `stack_push`: returns the `bool` result and the updated stack. -/
def stack_push (stack : ComponentStack) (component : AFPComponent) :
    Option (Bool × ComponentStack) :=
  if stack.top ≥ (MAX_STACK_SIZE : Int) - 1 then
    some (false, stack)
  else
    match array_write stack.components (stack.top + 1) component with
    | some cells => some (true, { components := cells, top := stack.top + 1 })
    | none => none

/-- `stack_pop`: returns the popped component and the updated stack. -/
def stack_pop (stack : ComponentStack) : Option (AFPComponent × ComponentStack) :=
  if stack.top < 0 then
    some (COMPONENT_UNKNOWN, stack)
  else
    match array_read stack.components stack.top with
    | some c => some (c, { stack with top := stack.top - 1 })
    | none => none

/-- `stack_peek`. -/
def stack_peek (stack : ComponentStack) : Option AFPComponent :=
  if stack.top < 0 then
    some COMPONENT_UNKNOWN
  else
    array_read stack.components stack.top

/-- `stack_empty`. -/
def stack_empty (stack : ComponentStack) : Bool :=
  decide (stack.top < 0)

/-! ## Field classification (`identify_field_type`) -/

/-- The bytes `memcpy(field->name, field->data + 2, 8)` copies, followed by the
terminating zero written to `name[8]`. -/
def copy_name (data : List Nat) : List (Option Nat) :=
  (List.range 8).map (fun i => data.get? (2 + i)) ++ [some 0]

/-- `identify_field_type`, branch for branch (the three `else if` arms that
repeat the test `type[0] == 0xD3` are kept as written). -/
def identify_field_type (field : StructuredField) : StructuredField :=
  let t0 := field.type.1
  let t1 := field.type.2.1
  let t2 := field.type.2.2
  -- Initialize with defaults
  let field := { field with component := COMPONENT_UNKNOWN, obj_type := OBJ_UNKNOWN }
  let field :=
    -- Begin/End structures
    if t0 = 0xD3 then
      if t1 = 0xA8 then
        if t2 = 0xC6 then { field with component := COMPONENT_DOCUMENT }
        else if t2 = 0xC8 then { field with component := COMPONENT_DOCUMENT }
        else if t2 = 0xAF then { field with component := COMPONENT_PAGE }
        else if t2 = 0xD8 then { field with component := COMPONENT_PAGE }
        else if t2 = 0xD6 then { field with component := COMPONENT_PAGE_GROUP }
        else if t2 = 0xD9 then { field with component := COMPONENT_PAGE_GROUP }
        else if t2 = 0xA8 then { field with component := COMPONENT_OBJECT }
        else if t2 = 0xA9 then { field with component := COMPONENT_OBJECT }
        else if t2 = 0xDF then { field with component := COMPONENT_RESOURCE_GROUP }
        else if t2 = 0xE3 then { field with component := COMPONENT_RESOURCE_GROUP }
        else if t2 = 0xBB then { field with component := COMPONENT_OVERLAY }
        else if t2 = 0xEB then { field with component := COMPONENT_OVERLAY }
        else field
      else field
    -- Data objects and resources
    else if t0 = 0xD3 then
      if t1 = 0xEE ∧ t2 = 0xBB then { field with obj_type := OBJ_PRESENTATIONTEXT }
      else if (t1 = 0x87 ∧ t2 = 0x8A) ∨ (t1 = 0xA7 ∧ t2 = 0xAB) then
        { field with obj_type := OBJ_IMAGE }
      else if t1 = 0xAF ∧ t2 = 0xA8 then { field with obj_type := OBJ_GRAPHICS }
      else if t1 = 0xEB ∧ t2 = 0xBB then { field with obj_type := OBJ_BARCODE }
      else field
    -- Font resources
    else if t0 = 0xD3 ∧ ((t1 = 0x8A ∧ t2 = 0x8B) ∨ (t1 = 0x8C ∧ t2 = 0x8A)) then
      { field with obj_type := OBJ_FONT, component := COMPONENT_RESOURCE }
    -- Form definitions
    else if t0 = 0xD3 ∧ t1 = 0xA6 ∧ t2 = 0xAF then
      { field with obj_type := OBJ_FORMDEF, component := COMPONENT_RESOURCE }
    else field
  -- Resource naming fields
  if t0 = 0xD3 ∧ t1 = 0xA6 ∧ t2 = 0x89 then
    let field := { field with component := COMPONENT_RESOURCE }
    match field.data with
    | some data =>
      if field.length > 9 then { field with name := copy_name data } else field
    | none => field
  else field

/-- `ebcdic_to_ascii`. -/
def ebcdic_to_ascii (ebcdic : Nat) : Char :=
  if ebcdic ≥ 0xC1 ∧ ebcdic ≤ 0xC9 then Char.ofNat ('A'.toNat + (ebcdic - 0xC1))
  else if ebcdic ≥ 0xD1 ∧ ebcdic ≤ 0xD9 then Char.ofNat ('J'.toNat + (ebcdic - 0xD1))
  else if ebcdic ≥ 0xE2 ∧ ebcdic ≤ 0xE9 then Char.ofNat ('S'.toNat + (ebcdic - 0xE2))
  else if ebcdic ≥ 0xF0 ∧ ebcdic ≤ 0xF9 then Char.ofNat ('0'.toNat + (ebcdic - 0xF0))
  else '.'

/-! ## Statistics (`AFPStatistics`, `update_statistics`) -/

/-- The C struct `AFPStatistics`. -/
structure AFPStatistics where
  documents : Nat
  page_groups : Nat
  pages : Nat
  overlays : Nat
  resource_groups : Nat
  presentation_text : Nat
  images : Nat
  graphics : Nat
  barcodes : Nat
  fonts : Nat
  form_defs : Nat
  page_segments : Nat
  deriving DecidableEq

/-- `update_statistics`. -/
def update_statistics (stats : AFPStatistics) (field : StructuredField) : AFPStatistics :=
  let t2 := field.type.2.2
  -- Check Begin structured fields to count objects
  let stats :=
    if field.type.1 = 0xD3 ∧ field.type.2.1 = 0xA8 then
      if t2 = 0xC6 then { stats with documents := stats.documents + 1 }
      else if t2 = 0xD6 then { stats with page_groups := stats.page_groups + 1 }
      else if t2 = 0xCE then { stats with pages := stats.pages + 1 }
      else if t2 = 0xBB then { stats with overlays := stats.overlays + 1 }
      else if t2 = 0xDF then { stats with resource_groups := stats.resource_groups + 1 }
      else stats
    else stats
  -- Count data objects
  if field.obj_type = OBJ_PRESENTATIONTEXT then
    { stats with presentation_text := stats.presentation_text + 1 }
  else if field.obj_type = OBJ_IMAGE then { stats with images := stats.images + 1 }
  else if field.obj_type = OBJ_GRAPHICS then { stats with graphics := stats.graphics + 1 }
  else if field.obj_type = OBJ_BARCODE then { stats with barcodes := stats.barcodes + 1 }
  else if field.obj_type = OBJ_FONT then { stats with fonts := stats.fonts + 1 }
  else if field.obj_type = OBJ_FORMDEF then { stats with form_defs := stats.form_defs + 1 }
  else if field.obj_type = OBJ_PAGSEG then
    { stats with page_segments := stats.page_segments + 1 }
  else stats

/-! ## The validation pass (`validate_afp_file`) -/

/-- One value per error line that `validate_afp_file` prints; the numeric
arguments are those given to `printf`. -/
inductive Message where
  /-- Line "Invalid structured field introducer (0x..) at position ..". -/
  | invalid_introducer (byte : Nat) (position : Nat)
  /-- Line "Too many errors, stopping analysis". -/
  | too_many_errors
  /-- Line "Failed to read length at position ..". -/
  | failed_length (position : Nat)
  /-- Line "Invalid length (..) at position .. - too short". -/
  | length_too_short (length : Nat) (position : Nat)
  /-- Line "Invalid length (..) at position .. - exceeds file size". -/
  | length_exceeds (length : Nat) (position : Nat)
  /-- Line "Failed to read type at position ..". -/
  | failed_type (position : Nat)
  /-- Line "Failed to read flag byte at position ..". -/
  | failed_flag (position : Nat)
  /-- Line "Failed to read data at position ..". -/
  | failed_data (position : Nat)
  /-- Lines "Document structure mismatch at position .." and "Expected to end .. but
  found End ..": `popped` is the component popped, `found` the one the End code names. -/
  | structure_mismatch (position : Nat) (popped : AFPComponent) (found : AFPComponent)
  deriving DecidableEq

/-- The local variables of `validate_afp_file` while its main loop runs.
`cursor` is the read offset of the `FILE`; `output` holds the error lines
printed so far and `fields` the structured fields prepared so far, in order. -/
structure State where
  cursor : Nat
  is_valid : Bool
  field_count : Nat
  error_count : Nat
  component_stack : ComponentStack
  page_count : Nat
  object_count : Nat
  resource_count : Nat
  stats : AFPStatistics
  position : Nat
  has_begin_document : Bool
  has_end_document : Bool
  output : List Message
  fields : List StructuredField
  deriving DecidableEq

/-- How one pass through the body of the `while` loop ends: `cont` for falling
through or `continue`, `brk` for `break`. -/
inductive Flow where
  | cont (s : State)
  | brk (s : State)
  deriving DecidableEq

/-- `fread(buffer, 1, n, file)`: the bytes obtained (fewer than `n` at end of
file) and the new read offset. -/
def fread (bytes : List Nat) (cursor : Nat) (n : Nat) : List Nat × Nat :=
  let got := (bytes.drop cursor).take n
  (got, cursor + got.length)

/-- A Begin branch of lines 654-674: `stack_push(&component_stack, c)`, the
result of the push being ignored. -/
def begin_component (s : State) (c : AFPComponent) : Option State :=
  match stack_push s.component_stack c with
  | some (_, stack) => some { s with component_stack := stack }
  | none => none

/-- An End branch of lines 676-730: pop, and on a popped component other
than `expected` print the mismatch and clear `is_valid`. -/
def end_component (s : State) (expected : AFPComponent) : Option State :=
  match stack_pop s.component_stack with
  | some (popped, stack) =>
    let s := { s with component_stack := stack }
    if popped ≠ expected then
      some { s with
        output := s.output ++ [Message.structure_mismatch s.position popped expected],
        is_valid := false }
    else some s
  | none => none

/-- Lines 651-732: the Begin/End dispatch on the type code. -/
def check_begin_end (s : State) (type : Nat × Nat × Nat) : Option State :=
  if type.1 = 0xD3 then
    if type.2.1 = 0xA8 then
      if type.2.2 = 0xA8 then
        begin_component { s with has_begin_document := true } COMPONENT_DOCUMENT
      else if type.2.2 = 0xAD then
        begin_component s COMPONENT_PAGE_GROUP
      else if type.2.2 = 0xAF then
        (begin_component s COMPONENT_PAGE).map
          (fun s => { s with page_count := s.page_count + 1 })
      else if type.2.2 = 0xC9 then
        (begin_component s COMPONENT_OBJECT).map
          (fun s => { s with object_count := s.object_count + 1 })
      else if type.2.2 = 0xC6 then
        begin_component s COMPONENT_RESOURCE_GROUP
      else if type.2.2 = 0xDF then
        begin_component s COMPONENT_OVERLAY
      else some s
    else if type.2.1 = 0xA9 then
      if type.2.2 = 0xA8 then
        end_component { s with has_end_document := true } COMPONENT_DOCUMENT
      else if type.2.2 = 0xAD then
        end_component s COMPONENT_PAGE_GROUP
      else if type.2.2 = 0xAF then
        end_component s COMPONENT_PAGE
      else if type.2.2 = 0xC9 then
        end_component s COMPONENT_OBJECT
      else if type.2.2 = 0xC6 then
        end_component s COMPONENT_RESOURCE_GROUP
      else if type.2.2 = 0xDF then
        end_component s COMPONENT_OVERLAY
      else some s
    else some s
  else some s

/-- Lines 640-787: what is done with a field once all its bytes are read. -/
def process_field (s : State) (length : Nat) (type : Nat × Nat × Nat) (flag : Nat)
    (data : Option (List Nat)) : Option State :=
  -- Prepare structured field
  let field : StructuredField :=
    { length := length, type := type, flags := flag, data := data,
      component := COMPONENT_UNKNOWN, obj_type := OBJ_UNKNOWN,
      name := List.replicate 9 (some 0) }
  -- Identify field type and component
  let field := identify_field_type field
  -- Check for Begin Document and End Document
  match check_begin_end s type with
  | none => none
  | some s =>
    -- Count resource
    let s :=
      if field.component = COMPONENT_RESOURCE then
        { s with resource_count := s.resource_count + 1 }
      else s
    -- Update statistics
    let s := { s with stats := update_statistics s.stats field }
    some { s with
      fields := s.fields ++ [field],
      field_count := s.field_count + 1,
      position := s.position + length }

/-- Lines 550-788: one pass through the body of the main loop. -/
def iteration (bytes : List Nat) (s : State) : Option Flow :=
  let file_size := bytes.length
  -- Read introducer
  let r := fread bytes s.cursor 1
  let s := { s with cursor := r.2 }
  if r.1.length ≠ 1 then
    some (Flow.brk s)
  else if r.1.getD 0 0 ≠ SF_INTRODUCER then
    let s := { s with
      output := s.output ++ [Message.invalid_introducer (r.1.getD 0 0) s.position],
      is_valid := false,
      position := s.position + 1,
      cursor := s.position + 1,
      error_count := s.error_count + 1 }
    if s.error_count > 10 then
      some (Flow.brk { s with output := s.output ++ [Message.too_many_errors] })
    else some (Flow.cont s)
  else
    -- Read length (2 bytes)
    let r := fread bytes s.cursor 2
    let s := { s with cursor := r.2 }
    if r.1.length ≠ 2 then
      some (Flow.brk { s with
        output := s.output ++ [Message.failed_length (s.position + 1)],
        is_valid := false })
    else
      let length := ((r.1.getD 0 0 <<< 8) ||| r.1.getD 1 0) % 65536
      -- Validate length
      if length < 5 then
        some (Flow.cont { s with
          output := s.output ++ [Message.length_too_short length (s.position + 1)],
          is_valid := false,
          position := s.position + 3,
          cursor := s.position + 3,
          error_count := s.error_count + 1 })
      else if s.position + length > file_size then
        some (Flow.cont { s with
          output := s.output ++ [Message.length_exceeds length (s.position + 1)],
          is_valid := false,
          position := s.position + 3,
          cursor := s.position + 3,
          error_count := s.error_count + 1 })
      else
        -- Read type (3 bytes)
        let r := fread bytes s.cursor 3
        let s := { s with cursor := r.2 }
        if r.1.length ≠ 3 then
          some (Flow.brk { s with
            output := s.output ++ [Message.failed_type (s.position + 3)],
            is_valid := false })
        else
          let type := (r.1.getD 0 0, r.1.getD 1 0, r.1.getD 2 0)
          -- Read flag byte
          let r := fread bytes s.cursor 1
          let s := { s with cursor := r.2 }
          if r.1.length ≠ 1 then
            some (Flow.brk { s with
              output := s.output ++ [Message.failed_flag (s.position + 6)],
              is_valid := false })
          else
            let flag := r.1.getD 0 0
            let data_length : Int := (length : Int) - 6
            if data_length > 0 then
              let r := fread bytes s.cursor data_length.toNat
              let s := { s with cursor := r.2 }
              if r.1.length ≠ data_length.toNat then
                some (Flow.brk { s with
                  output := s.output ++ [Message.failed_data (s.position + 7)],
                  is_valid := false })
              else
                (process_field s length type flag (some r.1)).map Flow.cont
            else
              (process_field s length type flag none).map Flow.cont

/-- The `while (position < file_size)` loop, run for at most `fuel` passes;
`none` when the fuel runs out or an array access is out of range. -/
def loop (bytes : List Nat) : Nat → State → Option State
  | 0, _ => none
  | fuel + 1, s =>
    if s.position < bytes.length then
      match iteration bytes s with
      | some (Flow.cont s') => loop bytes fuel s'
      | some (Flow.brk s') => some s'
      | none => none
    else some s

/-- The locals of `validate_afp_file` when the main loop is entered.  The cells
of the stack array are uninitialised in C; none is read before it is written. -/
def initial_state : State :=
  { cursor := 0
    is_valid := true
    field_count := 0
    error_count := 0
    component_stack :=
      stack_init { components := List.replicate MAX_STACK_SIZE COMPONENT_UNKNOWN, top := 0 }
    page_count := 0
    object_count := 0
    resource_count := 0
    stats := ⟨0, 0, 0, 0, 0, 0, 0, 0, 0, 0, 0, 0⟩
    position := 0
    has_begin_document := false
    has_end_document := false
    output := []
    fields := [] }

/-- The `while (!stack_empty(stack))` loop of `print_structure_summary`: the
components popped, in the order they are printed, and the stack left. -/
def pop_all : Nat → ComponentStack → Option (List AFPComponent × ComponentStack)
  | 0, stack => if stack_empty stack then some ([], stack) else none
  | fuel + 1, stack =>
    if stack_empty stack then some ([], stack)
    else
      match stack_pop stack with
      | some (comp, stack') =>
        (pop_all fuel stack').map (fun r => (comp :: r.1, r.2))
      | none => none

/-- `print_structure_summary`: the unclosed components it lists and the stack
it leaves. -/
def print_structure_summary (stack : ComponentStack) :
    Option (List AFPComponent × ComponentStack) :=
  pop_all (stack.top + 1).toNat stack

/-- What a call of `validate_afp_file` yields: the value returned, the locals
at the exit of the main loop, and the result of `print_structure_summary`. -/
structure Report where
  result : Bool
  state : State
  unclosed : List AFPComponent
  stack_after_summary : ComponentStack
  deriving DecidableEq

/-- `validate_afp_file` on an opened file with contents `bytes` (the `verbose`
flag only adds per-field text and is left out). -/
def validate_afp_file (bytes : List Nat) : Option Report :=
  match loop bytes (bytes.length + 1) initial_state with
  | none => none
  | some s =>
    match print_structure_summary s.component_stack with
    | none => none
    | some (unclosed, stack) =>
      some { result := s.is_valid, state := s, unclosed := unclosed,
             stack_after_summary := stack }

/-! ## The name line of verbose mode (`print_ebcdic_string`, lines 759-762) -/

/-- `strlen` on the `name` array: the number of cells before the first zero;
`none` when a cell copied from outside the payload is read, or when no zero is
found in the array. -/
def strlen : List (Option Nat) → Option Nat
  | [] => none
  | none :: _ => none
  | some b :: rest => if b = 0 then some 0 else (strlen rest).map (fun n => n + 1)

/-- `print_ebcdic_string(data, length)`: the characters printed after
"EBCDIC: ", one `ebcdic_to_ascii(data[i])` for each `i < length`; `none` when a
cell outside the array or copied from outside the payload is read. -/
def print_ebcdic_string : List (Option Nat) → Nat → Option (List Char)
  | _, 0 => some []
  | some b :: rest, n + 1 => (print_ebcdic_string rest n).map (fun cs => ebcdic_to_ascii b :: cs)
  | _, _ + 1 => none

/-- Lines 759-762 of `validate_afp_file`, run in verbose mode: `some none` when
`name[0]` is zero and no "Resource Name" line is printed, `some (some cs)` when
the line is printed with the characters `cs`, and `none` when a cell copied
from outside the payload is read. -/
def resource_name_line (field : StructuredField) : Option (Option (List Char)) :=
  match field.name.head? with
  | some (some b) =>
    if b ≠ 0 then
      match strlen field.name with
      | some n => (print_ebcdic_string field.name n).map some
      | none => none
    else some none
  | _ => none

/-! ## Notions used to state the properties -/

/-- The stack invariant: the array has its `MAX_STACK_SIZE` cells and `top`
points at one of them or is `-1`. -/
def StackOK (stack : ComponentStack) : Prop :=
  stack.components.length = MAX_STACK_SIZE ∧ -1 ≤ stack.top ∧ stack.top < (MAX_STACK_SIZE : Int)

/-- The open components held by a stack, oldest first: `open_list` describes
`stack` when the cells `0 .. top` of the array are exactly `open_list`. -/
def Holds (stack : ComponentStack) (open_list : List AFPComponent) : Prop :=
  stack.components.length = MAX_STACK_SIZE ∧
  stack.top + 1 = (open_list.length : Int) ∧
  open_list.length ≤ MAX_STACK_SIZE ∧
  ∀ i, i < open_list.length → stack.components[i]? = open_list[i]?

/-- The state carried by a `Flow`. -/
def Flow.state : Flow → State
  | Flow.cont s => s
  | Flow.brk s => s

/-- What the Begin/End dispatch may change: only the stack, the two document
flags, the page and object counts, and, on a mismatch, `output` and `is_valid`. -/
def NestingOnly (s s' : State) : Prop :=
  s'.cursor = s.cursor ∧ s'.position = s.position ∧ s'.error_count = s.error_count ∧
  s'.field_count = s.field_count ∧ s'.fields = s.fields ∧ s'.stats = s.stats ∧
  s'.resource_count = s.resource_count ∧
  ((s'.output = s.output ∧ s'.is_valid = s.is_valid) ∨
   (∃ p c, s'.output = s.output ++ [Message.structure_mismatch s.position p c] ∧
      s'.is_valid = false))

/-- The ways one pass through the loop body can end, branch by branch. -/
inductive Pass (bytes : List Nat) (s : State) : Flow → Prop
  | eof (c : Nat) (hc : bytes.length ≤ c) (hs : s.cursor ≤ c) :
      Pass bytes s (Flow.brk { s with cursor := c })
  | desync (b : Nat) (hb : b ≠ SF_INTRODUCER) (he : ¬ s.error_count + 1 > 10) :
      Pass bytes s (Flow.cont { s with
        output := s.output ++ [Message.invalid_introducer b s.position]
        is_valid := false
        position := s.position + 1
        cursor := s.position + 1
        error_count := s.error_count + 1 })
  | desync_cap (b : Nat) (hb : b ≠ SF_INTRODUCER) (he : s.error_count + 1 > 10) :
      Pass bytes s (Flow.brk { s with
        output := (s.output ++ [Message.invalid_introducer b s.position]) ++
          [Message.too_many_errors]
        is_valid := false
        position := s.position + 1
        cursor := s.position + 1
        error_count := s.error_count + 1 })
  | short_length (c : Nat) (hc : bytes.length ≤ c) (hs : s.cursor ≤ c) :
      Pass bytes s (Flow.brk { s with
        cursor := c
        output := s.output ++ [Message.failed_length (s.position + 1)]
        is_valid := false })
  | too_short (L : Nat) (hL : L < 5) :
      Pass bytes s (Flow.cont { s with
        output := s.output ++ [Message.length_too_short L (s.position + 1)]
        is_valid := false
        position := s.position + 3
        cursor := s.position + 3
        error_count := s.error_count + 1 })
  | exceeds (L : Nat) (hL : ¬ L < 5) (hx : s.position + L > bytes.length) :
      Pass bytes s (Flow.cont { s with
        output := s.output ++ [Message.length_exceeds L (s.position + 1)]
        is_valid := false
        position := s.position + 3
        cursor := s.position + 3
        error_count := s.error_count + 1 })
  | short_type (c : Nat) (hc : bytes.length ≤ c) (hs : s.cursor ≤ c) :
      Pass bytes s (Flow.brk { s with
        cursor := c
        output := s.output ++ [Message.failed_type (s.position + 3)]
        is_valid := false })
  | short_flag (c : Nat) (hc : bytes.length ≤ c) (hs : s.cursor ≤ c) :
      Pass bytes s (Flow.brk { s with
        cursor := c
        output := s.output ++ [Message.failed_flag (s.position + 6)]
        is_valid := false })
  | short_data (c : Nat) (hc : bytes.length ≤ c) (hs : s.cursor ≤ c) :
      Pass bytes s (Flow.brk { s with
        cursor := c
        output := s.output ++ [Message.failed_data (s.position + 7)]
        is_valid := false })
  | field (L : Nat) (type : Nat × Nat × Nat) (flag : Nat) (data : Option (List Nat)) (c : Nat)
      (s' : State) (hL : ¬ L < 5) (hfit : ¬ s.position + L > bytes.length)
      (hc : s.cursor + L + 1 ≤ c)
      (hp : process_field { s with cursor := c } L type flag data = some s') :
      Pass bytes s (Flow.cont s')

/-- A well-framed record: a 3-byte type code, a flag byte and a payload, to be
written as the introducer, the 2-byte big-endian length `payload length + 6`,
the type code, the flag byte and the payload. -/
structure Record where
  type : Nat × Nat × Nat
  flag : Nat
  payload : List Nat
  deriving DecidableEq

/-- The length field `L` of a well-framed record. -/
def Record.length (r : Record) : Nat := r.payload.length + 6

/-- The bytes of a well-framed record. -/
def Record.bytes (r : Record) : List Nat :=
  [SF_INTRODUCER, r.length / 256, r.length % 256, r.type.1, r.type.2.1, r.type.2.2, r.flag] ++
    r.payload

/-- The payload pointer of the field framed from a record: NULL when the
payload is empty. -/
def Record.data (r : Record) : Option (List Nat) :=
  if r.payload = [] then none else some r.payload

/-- A concatenation of well-framed records. -/
def stream (rs : List Record) : List Nat :=
  (rs.map Record.bytes).flatten

/-- The third bytes of the Begin codes `D3 A8 x` and End codes `D3 A9 x`. -/
def bracket_codes : List Nat := [0xA8, 0xAD, 0xAF, 0xC9, 0xC6, 0xDF]

/-- The component named by the third byte `x` of a Begin or End code, as in
the comments of lines 654-730. -/
def bracket_component (x : Nat) : AFPComponent :=
  if x = 0xA8 then COMPONENT_DOCUMENT
  else if x = 0xAD then COMPONENT_PAGE_GROUP
  else if x = 0xAF then COMPONENT_PAGE
  else if x = 0xC9 then COMPONENT_OBJECT
  else if x = 0xC6 then COMPONENT_RESOURCE_GROUP
  else if x = 0xDF then COMPONENT_OVERLAY
  else COMPONENT_UNKNOWN

/-- A record with a Begin code `D3 A8 x`. -/
def Record.is_begin (r : Record) : Prop :=
  r.type.1 = 0xD3 ∧ r.type.2.1 = 0xA8 ∧ r.type.2.2 ∈ bracket_codes

/-- A record with an End code `D3 A9 x`. -/
def Record.is_end (r : Record) : Prop :=
  r.type.1 = 0xD3 ∧ r.type.2.1 = 0xA9 ∧ r.type.2.2 ∈ bracket_codes

instance (r : Record) : Decidable r.is_begin := by unfold Record.is_begin; infer_instance

instance (r : Record) : Decidable r.is_end := by unfold Record.is_end; infer_instance

/-- Correct bracket matching, read left to right: `open_codes` are the third
bytes of the Begin records still open, innermost first.  A Begin record may
  open a component only below depth 100 (so the depth never exceeds 100), an End
  record must close the innermost one still open, no other record may occur,
  and at the end nothing is left open. -/
def well_nested : List Nat → List Record → Bool
  | open_codes, [] => open_codes.isEmpty
  | open_codes, r :: rs =>
    if r.is_begin then
      decide (open_codes.length < 100) && well_nested (r.type.2.2 :: open_codes) rs
    else if r.is_end then
      match open_codes with
      | x :: rest => decide (x = r.type.2.2) && well_nested rest rs
      | [] => false
    else false

/-- The kinds of error the run reports. -/
inductive ErrorKind where
  | desync
  | framing
  | mismatch
  | fatal
  deriving DecidableEq

/-- The kind of error a printed line reports; the line "Too many errors" reports
the abort, not a further error. -/
def Message.kind : Message → Option ErrorKind
  | Message.invalid_introducer _ _ => some ErrorKind.desync
  | Message.too_many_errors => none
  | Message.failed_length _ => some ErrorKind.fatal
  | Message.length_too_short _ _ => some ErrorKind.framing
  | Message.length_exceeds _ _ => some ErrorKind.framing
  | Message.failed_type _ => some ErrorKind.fatal
  | Message.failed_flag _ => some ErrorKind.fatal
  | Message.failed_data _ => some ErrorKind.fatal
  | Message.structure_mismatch _ _ _ => some ErrorKind.mismatch

/-- The number of errors of kind `k` among the printed lines. -/
def count_errors (k : ErrorKind) (output : List Message) : Nat :=
  output.countP (fun m => decide (m.kind = some k))

/-- A state of the run in which one component, a Document, is open. -/
def state_document_open : State :=
  { initial_state with
    component_stack :=
      { components := (List.replicate MAX_STACK_SIZE COMPONENT_UNKNOWN).set 0 COMPONENT_DOCUMENT,
        top := 0 } }

/-- The number of errors of all four kinds among the printed lines. -/
def total_errors (output : List Message) : Nat :=
  count_errors ErrorKind.desync output + count_errors ErrorKind.framing output +
    count_errors ErrorKind.mismatch output + count_errors ErrorKind.fatal output

/-- Two states agree on what the Begin/End dispatch, the resource count and
the statistics work on, and on the fields prepared so far. -/
def SameNesting (s t : State) : Prop :=
  s.component_stack = t.component_stack ∧ s.has_begin_document = t.has_begin_document ∧
  s.has_end_document = t.has_end_document ∧ s.page_count = t.page_count ∧
  s.object_count = t.object_count ∧ s.resource_count = t.resource_count ∧
  s.stats = t.stats ∧ s.fields = t.fields

/-- The lines printed for a run of bad introducer bytes `bad` read one after
the other while `position` starts at `p`. -/
def desync_messages (p : Nat) : List Nat → List Message
  | [] => []
  | b :: bs => Message.invalid_introducer b p :: desync_messages (p + 1) bs

/-- Ten records cut short by a length field of 0 (ten framing errors), one bad
introducer byte, then a well-framed Begin-Document record. -/
def ten_framing_errors_then_stray : List Nat :=
  (List.replicate 10 [SF_INTRODUCER, 0, 0]).flatten ++ [0] ++
    Record.bytes ⟨(0xD3, 0xA8, 0xA8), 0, []⟩

/-- The Begin records left open after the records `rs`, innermost first, when
reading starts with `open_codes` open: a Begin record opens a component (only
below depth 100), an End record must close the innermost one still open, and
a record with any other type code changes nothing.  The result is `none` when
an End record does not close the innermost component or the depth would
exceed 100. -/
def open_after : List Nat → List Record → Option (List Nat)
  | open_codes, [] => some open_codes
  | open_codes, r :: rs =>
    if r.is_begin then
      if open_codes.length < 100 then open_after (r.type.2.2 :: open_codes) rs else none
    else if r.is_end then
      match open_codes with
      | x :: rest => if x = r.type.2.2 then open_after rest rs else none
      | [] => none
    else open_after open_codes rs

/-- The type code of Begin-Document. -/
def BDT : Nat × Nat × Nat := (0xD3, 0xA8, 0xA8)

/-- The type code of End-Document. -/
def EDT : Nat × Nat × Nat := (0xD3, 0xA9, 0xA8)

/-- The first part of `identify_field_type` (lines 89-166, the Begin/End table
and the three arms after it), as a function of the type code and of the field
with its defaults set. -/
def bracket_stage (type : Nat × Nat × Nat) (field : StructuredField) : StructuredField :=
  if type.1 = 0xD3 then
    if type.2.1 = 0xA8 then
      if type.2.2 = 0xC6 then { field with component := COMPONENT_DOCUMENT }
      else if type.2.2 = 0xC8 then { field with component := COMPONENT_DOCUMENT }
      else if type.2.2 = 0xAF then { field with component := COMPONENT_PAGE }
      else if type.2.2 = 0xD8 then { field with component := COMPONENT_PAGE }
      else if type.2.2 = 0xD6 then { field with component := COMPONENT_PAGE_GROUP }
      else if type.2.2 = 0xD9 then { field with component := COMPONENT_PAGE_GROUP }
      else if type.2.2 = 0xA8 then { field with component := COMPONENT_OBJECT }
      else if type.2.2 = 0xA9 then { field with component := COMPONENT_OBJECT }
      else if type.2.2 = 0xDF then { field with component := COMPONENT_RESOURCE_GROUP }
      else if type.2.2 = 0xE3 then { field with component := COMPONENT_RESOURCE_GROUP }
      else if type.2.2 = 0xBB then { field with component := COMPONENT_OVERLAY }
      else if type.2.2 = 0xEB then { field with component := COMPONENT_OVERLAY }
      else field
    else field
  else if type.1 = 0xD3 then
    if type.2.1 = 0xEE ∧ type.2.2 = 0xBB then { field with obj_type := OBJ_PRESENTATIONTEXT }
    else if (type.2.1 = 0x87 ∧ type.2.2 = 0x8A) ∨ (type.2.1 = 0xA7 ∧ type.2.2 = 0xAB) then
      { field with obj_type := OBJ_IMAGE }
    else if type.2.1 = 0xAF ∧ type.2.2 = 0xA8 then { field with obj_type := OBJ_GRAPHICS }
    else if type.2.1 = 0xEB ∧ type.2.2 = 0xBB then { field with obj_type := OBJ_BARCODE }
    else field
  else if type.1 = 0xD3 ∧
      ((type.2.1 = 0x8A ∧ type.2.2 = 0x8B) ∨ (type.2.1 = 0x8C ∧ type.2.2 = 0x8A)) then
    { field with obj_type := OBJ_FONT, component := COMPONENT_RESOURCE }
  else if type.1 = 0xD3 ∧ type.2.1 = 0xA6 ∧ type.2.2 = 0xAF then
    { field with obj_type := OBJ_FORMDEF, component := COMPONENT_RESOURCE }
  else field

/-- The last part of `identify_field_type` (lines 168-177, the naming field),
as a function of the type code and of the field classified so far. -/
def name_stage (type : Nat × Nat × Nat) (field : StructuredField) : StructuredField :=
  if type.1 = 0xD3 ∧ type.2.1 = 0xA6 ∧ type.2.2 = 0x89 then
    let field := { field with component := COMPONENT_RESOURCE }
    match field.data with
    | some data =>
      if field.length > 9 then { field with name := copy_name data } else field
    | none => field
  else field

/-- A state of the run in which the component stack holds 100 entries, all
Pages. -/
def state_stack_full : State :=
  { initial_state with
    component_stack :=
      { components := List.replicate MAX_STACK_SIZE COMPONENT_PAGE, top := 99 } }

/-- A field as `validate_afp_file` prepares it (lines 641-646) before the call
of `identify_field_type`. -/
def prepared_field (length : Nat) (type : Nat × Nat × Nat) (flag : Nat)
    (data : Option (List Nat)) : StructuredField :=
  { length := length, type := type, flags := flag, data := data,
    component := COMPONENT_UNKNOWN, obj_type := OBJ_UNKNOWN,
    name := List.replicate 9 (some 0) }

/-- The 36 bytes `ebcdic_to_ascii` has an arm for: `C1..C9`, `D1..D9`, `E2..E9`
and `F0..F9`. -/
def mapped_bytes : List Nat :=
  List.range' 0xC1 9 ++ List.range' 0xD1 9 ++ List.range' 0xE2 8 ++ List.range' 0xF0 10

/-- The 36 characters `A`-`Z` and `0`-`9`. -/
def letters_and_digits : List Char :=
  "ABCDEFGHIJKLMNOPQRSTUVWXYZ0123456789".toList

/-- A call of one of the four stack operations. -/
inductive StackCall where
  | push (component : AFPComponent)
  | pop
  | peek
  | empty
  deriving DecidableEq

/-- The stack a call leaves behind, `none` when the call reads or writes a
cell outside the array.  `stack_peek` and `stack_empty` only read through
their pointer, so they leave the stack they were given. -/
def StackCall.run (stack : ComponentStack) : StackCall → Option ComponentStack
  | StackCall.push component => (stack_push stack component).map (fun r => r.2)
  | StackCall.pop => (stack_pop stack).map (fun r => r.2)
  | StackCall.peek => (stack_peek stack).map (fun _ => stack)
  | StackCall.empty => (some (stack_empty stack)).map (fun _ => stack)

/-- A sequence of calls, one after the other. -/
def run_calls (stack : ComponentStack) : List StackCall → Option ComponentStack
  | [] => some stack
  | call :: rest => (call.run stack).bind (fun stack' => run_calls stack' rest)

/-- The name copy of `identify_field_type` (line 174) stays inside the payload:
the field is not a naming field that passes the guard `length > 9` with a
payload of fewer than 10 bytes. -/
def name_copy_in_payload (f : StructuredField) : Prop :=
  match f.data with
  | some d =>
    f.type.1 = 0xD3 ∧ f.type.2.1 = 0xA6 ∧ f.type.2.2 = 0x89 ∧ f.length > 9 → 10 ≤ d.length
  | none => True

/-! ## Reading bytes -/

theorem fread_of_drop (bytes pre mid post : List Nat) (c : Nat)
    (h : bytes.drop c = pre ++ (mid ++ post)) :
    fread bytes (c + pre.length) mid.length = (mid, c + pre.length + mid.length) := by
  have h2 : bytes.drop (c + pre.length) = mid ++ post := by
    rw [← List.drop_drop, h]; simp
  simp [fread, h2]

theorem fread_short (bytes : List Nat) (c n : Nat) (h : (fread bytes c n).1.length ≠ n) :
    bytes.length ≤ (fread bytes c n).2 := by
  simp only [fread, List.length_take, List.length_drop] at h ⊢
  omega

theorem fread_cursor_le (bytes : List Nat) (c n : Nat) : c ≤ (fread bytes c n).2 := by
  simp [fread]

theorem fread_full (bytes : List Nat) (c n : Nat) (h : (fread bytes c n).1.length = n) :
    (fread bytes c n).2 = c + n := by
  simp only [fread] at h ⊢
  omega

theorem decode_length (L : Nat) (h : L < 65536) :
    (((L / 256) <<< 8) ||| (L % 256)) % 65536 = L := by
  have h1 : (L / 256) <<< 8 = 2 ^ 8 * (L / 256) := by rw [Nat.shiftLeft_eq, Nat.mul_comm]
  rw [h1, ← Nat.mul_add_lt_is_or (by omega)]
  omega

theorem decode_length_bytes (b1 b2 : Nat) (h1 : b1 < 256) (h2 : b2 < 256) :
    ((b1 <<< 8) ||| b2) % 65536 = 256 * b1 + b2 := by
  have h3 : b1 <<< 8 = 2 ^ 8 * b1 := by rw [Nat.shiftLeft_eq, Nat.mul_comm]
  rw [h3, ← Nat.mul_add_lt_is_or (by omega)]
  omega

/-! ## The component stack -/

theorem stackOK_of_holds {stack : ComponentStack} {l : List AFPComponent}
    (h : Holds stack l) : StackOK stack := by
  obtain ⟨h1, h2, h3, _⟩ := h
  refine ⟨h1, by omega, ?_⟩
  have : (l.length : Int) ≤ (MAX_STACK_SIZE : Int) := by exact_mod_cast h3
  omega

theorem stack_push_total (stack : ComponentStack) (c : AFPComponent) (h : StackOK stack) :
    ∃ b stack', stack_push stack c = some (b, stack') ∧ StackOK stack' := by
  obtain ⟨h1, h2, h3⟩ := h
  simp only [MAX_STACK_SIZE] at h1 h3
  unfold stack_push array_write
  simp only [MAX_STACK_SIZE]
  by_cases hfull : stack.top ≥ ((100 : Nat) : Int) - 1
  · rw [if_pos hfull]
    exact ⟨false, stack, rfl, h1, h2, h3⟩
  · rw [if_neg hfull]
    have hr : 0 ≤ stack.top + 1 ∧ (stack.top + 1).toNat < stack.components.length := by
      constructor <;> omega
    rw [if_pos hr]
    refine ⟨true, _, rfl, ?_, ?_, ?_⟩
    · simp [MAX_STACK_SIZE, h1]
    · simp only; omega
    · simp only [MAX_STACK_SIZE]; omega

theorem stack_pop_total (stack : ComponentStack) (h : StackOK stack) :
    ∃ c stack', stack_pop stack = some (c, stack') ∧ StackOK stack' := by
  obtain ⟨h1, h2, h3⟩ := h
  simp only [MAX_STACK_SIZE] at h1 h3
  unfold stack_pop array_read
  by_cases hneg : stack.top < 0
  · rw [if_pos hneg]
    exact ⟨_, stack, rfl, h1, h2, h3⟩
  · rw [if_neg hneg, if_pos (by omega)]
    have hlt : stack.top.toNat < stack.components.length := by omega
    rw [List.get?_eq_get hlt]
    refine ⟨_, _, rfl, h1, ?_, ?_⟩
    · simp only; omega
    · simp only [MAX_STACK_SIZE]; omega

theorem stack_push_holds (stack : ComponentStack) (c : AFPComponent) (l : List AFPComponent)
    (h : Holds stack l) (hl : l.length < MAX_STACK_SIZE) :
    ∃ stack', stack_push stack c = some (true, stack') ∧ Holds stack' (l ++ [c]) := by
  obtain ⟨h1, h2, h3, h4⟩ := h
  simp only [MAX_STACK_SIZE] at h1 h3 hl
  unfold stack_push array_write
  simp only [MAX_STACK_SIZE]
  have hfull : ¬ stack.top ≥ ((100 : Nat) : Int) - 1 := by omega
  have hr : 0 ≤ stack.top + 1 ∧ (stack.top + 1).toNat < stack.components.length := by
    constructor <;> omega
  rw [if_neg hfull, if_pos hr]
  refine ⟨_, rfl, ?_, ?_, ?_, ?_⟩
  · simp [MAX_STACK_SIZE, h1]
  · simp only [List.length_append, List.length_singleton]; push_cast; omega
  · simp only [List.length_append, List.length_singleton, MAX_STACK_SIZE]; omega
  · intro i hi
    have htop : (stack.top + 1).toNat = l.length := by omega
    simp only [List.length_append, List.length_singleton] at hi
    simp only [htop, List.getElem?_set]
    by_cases hil : l.length = i
    · subst hil
      simp [h1, hl]
    · have hi2 : i < l.length := by omega
      rw [if_neg hil, h4 i hi2, List.getElem?_append_left hi2]

theorem stack_pop_holds (stack : ComponentStack) (c : AFPComponent) (l : List AFPComponent)
    (h : Holds stack (l ++ [c])) :
    ∃ stack', stack_pop stack = some (c, stack') ∧ Holds stack' l ∧
      stack' = { stack with top := stack.top - 1 } := by
  obtain ⟨h1, h2, h3, h4⟩ := h
  simp only [List.length_append, List.length_singleton] at h2 h3 h4
  push_cast at h2
  unfold stack_pop array_read
  have hneg : ¬ stack.top < 0 := by omega
  rw [if_neg hneg, if_pos (by omega)]
  have htop : stack.top.toNat = l.length := by omega
  have hc : stack.components.get? stack.top.toNat = some c := by
    rw [List.get?_eq_getElem?, htop, h4 l.length (by omega)]
    simp
  rw [hc]
  refine ⟨_, rfl, ⟨h1, ?_, ?_, ?_⟩, rfl⟩
  · simp only; omega
  · omega
  · intro i hi
    rw [h4 i (by omega), List.getElem?_append_left hi]

/-! ## One field -/

theorem begin_component_eq (s s' : State) (c : AFPComponent)
    (h : begin_component s c = some s') :
    ∃ b stk, stack_push s.component_stack c = some (b, stk) ∧
      s' = { s with component_stack := stk } := by
  unfold begin_component at h
  split at h
  · next b stk hp =>
    simp only [Option.some.injEq] at h
    exact ⟨b, stk, hp, h.symm⟩
  · simp at h

theorem end_component_eq (s s' : State) (e : AFPComponent)
    (h : end_component s e = some s') :
    ∃ p stk, stack_pop s.component_stack = some (p, stk) ∧
      ((p = e ∧ s' = { s with component_stack := stk }) ∨
       (p ≠ e ∧ s' = { s with
          component_stack := stk
          output := s.output ++ [Message.structure_mismatch s.position p e]
          is_valid := false })) := by
  unfold end_component at h
  split at h
  · next p stk hp =>
    refine ⟨p, stk, hp, ?_⟩
    by_cases hpe : p = e
    · left
      simp only [hpe, ne_eq, not_true_eq_false, if_false, Option.some.injEq] at h
      exact ⟨hpe, h.symm⟩
    · right
      simp only [ne_eq, hpe, not_false_eq_true, if_true, Option.some.injEq] at h
      exact ⟨hpe, h.symm⟩
  · simp at h

theorem begin_component_nesting (s s' : State) (c : AFPComponent)
    (h : begin_component s c = some s') : NestingOnly s s' := by
  obtain ⟨b, stk, _, rfl⟩ := begin_component_eq s s' c h
  simp [NestingOnly]

theorem end_component_nesting (s s' : State) (e : AFPComponent)
    (h : end_component s e = some s') : NestingOnly s s' := by
  obtain ⟨p, stk, _, h2⟩ := end_component_eq s s' e h
  rcases h2 with ⟨_, rfl⟩ | ⟨_, rfl⟩
  · simp [NestingOnly]
  · refine ⟨rfl, rfl, rfl, rfl, rfl, rfl, rfl, Or.inr ⟨p, e, rfl, rfl⟩⟩

theorem check_begin_end_nesting (s s' : State) (type : Nat × Nat × Nat)
    (h : check_begin_end s type = some s') : NestingOnly s s' := by
  unfold check_begin_end at h
  split_ifs at h
  · simpa [NestingOnly] using begin_component_nesting _ _ _ h
  · exact begin_component_nesting _ _ _ h
  · obtain ⟨s1, h1, rfl⟩ := Option.map_eq_some'.mp h
    simpa [NestingOnly] using begin_component_nesting _ _ _ h1
  · obtain ⟨s1, h1, rfl⟩ := Option.map_eq_some'.mp h
    simpa [NestingOnly] using begin_component_nesting _ _ _ h1
  · exact begin_component_nesting _ _ _ h
  · exact begin_component_nesting _ _ _ h
  · simp only [Option.some.injEq] at h; subst h; simp [NestingOnly]
  · simpa [NestingOnly] using end_component_nesting _ _ _ h
  · exact end_component_nesting _ _ _ h
  · exact end_component_nesting _ _ _ h
  · exact end_component_nesting _ _ _ h
  · exact end_component_nesting _ _ _ h
  · exact end_component_nesting _ _ _ h
  · simp only [Option.some.injEq] at h; subst h; simp [NestingOnly]
  · simp only [Option.some.injEq] at h; subst h; simp [NestingOnly]
  · simp only [Option.some.injEq] at h; subst h; simp [NestingOnly]

theorem begin_component_total (s : State) (c : AFPComponent) (h : StackOK s.component_stack) :
    ∃ s', begin_component s c = some s' ∧ StackOK s'.component_stack := by
  obtain ⟨b, stk, hp, hok⟩ := stack_push_total s.component_stack c h
  refine ⟨{ s with component_stack := stk }, ?_, hok⟩
  simp [begin_component, hp]

theorem end_component_total (s : State) (e : AFPComponent) (h : StackOK s.component_stack) :
    ∃ s', end_component s e = some s' ∧ StackOK s'.component_stack := by
  obtain ⟨p, stk, hp, hok⟩ := stack_pop_total s.component_stack h
  unfold end_component
  simp only [hp]
  split_ifs
  · exact ⟨_, rfl, hok⟩
  · exact ⟨_, rfl, hok⟩

theorem check_begin_end_total (s : State) (type : Nat × Nat × Nat)
    (h : StackOK s.component_stack) :
    ∃ s', check_begin_end s type = some s' ∧ StackOK s'.component_stack := by
  unfold check_begin_end
  split_ifs
  · exact begin_component_total _ _ h
  · exact begin_component_total _ _ h
  · obtain ⟨s1, h1, h2⟩ := begin_component_total s COMPONENT_PAGE h
    rw [h1]
    exact ⟨_, rfl, h2⟩
  · obtain ⟨s1, h1, h2⟩ := begin_component_total s COMPONENT_OBJECT h
    rw [h1]
    exact ⟨_, rfl, h2⟩
  · exact begin_component_total _ _ h
  · exact begin_component_total _ _ h
  · exact ⟨s, rfl, h⟩
  · exact end_component_total _ _ h
  · exact end_component_total _ _ h
  · exact end_component_total _ _ h
  · exact end_component_total _ _ h
  · exact end_component_total _ _ h
  · exact end_component_total _ _ h
  · exact ⟨s, rfl, h⟩
  · exact ⟨s, rfl, h⟩
  · exact ⟨s, rfl, h⟩

/-- What `process_field` does to the framing variables. -/
theorem process_field_spec (s s' : State) (length : Nat) (type : Nat × Nat × Nat) (flag : Nat)
    (data : Option (List Nat)) (h : process_field s length type flag data = some s') :
    s'.cursor = s.cursor ∧ s'.position = s.position + length ∧
    s'.error_count = s.error_count ∧ s'.field_count = s.field_count + 1 ∧
    ((s'.output = s.output ∧ s'.is_valid = s.is_valid) ∨
     (∃ p c, s'.output = s.output ++ [Message.structure_mismatch s.position p c] ∧
        s'.is_valid = false)) := by
  unfold process_field at h
  split at h
  · simp at h
  · next s1 h1 =>
    have hn := check_begin_end_nesting s s1 type h1
    obtain ⟨n1, n2, n3, n4, -, -, -, n8⟩ := hn
    simp only [Option.some.injEq] at h
    subst h
    split_ifs <;> exact ⟨n1, by simp [n2], n3, by simp [n4], n8⟩

theorem process_field_total (s : State) (length : Nat) (type : Nat × Nat × Nat) (flag : Nat)
    (data : Option (List Nat)) (h : StackOK s.component_stack) :
    ∃ s', process_field s length type flag data = some s' ∧ StackOK s'.component_stack := by
  obtain ⟨s1, h1, h2⟩ := check_begin_end_total s type h
  unfold process_field
  simp only [h1]
  refine ⟨_, rfl, ?_⟩
  split_ifs <;> exact h2

/-! ## One pass through the loop body -/

theorem iteration_spec (bytes : List Nat) (s : State) (out : Flow)
    (h : iteration bytes s = some out) : Pass bytes s out := by
  unfold iteration at h
  dsimp only at h
  generalize hr1 : fread bytes s.cursor 1 = r1 at h
  by_cases h1 : r1.1.length ≠ 1
  · rw [if_pos h1] at h
    cases h
    exact Pass.eof _ (by rw [← hr1] at h1 ⊢; exact fread_short _ _ _ h1)
      (by rw [← hr1]; exact fread_cursor_le _ _ _)
  rw [if_neg h1] at h
  have e1 : r1.2 = s.cursor + 1 := by
    rw [← hr1] at h1 ⊢; exact fread_full _ _ _ (not_not.mp h1)
  by_cases h2 : r1.1.getD 0 0 ≠ SF_INTRODUCER
  · rw [if_pos h2] at h
    by_cases h3 : s.error_count + 1 > 10
    · rw [if_pos h3] at h
      cases h
      exact Pass.desync_cap _ h2 h3
    · rw [if_neg h3] at h
      cases h
      exact Pass.desync _ h2 h3
  rw [if_neg h2] at h
  generalize hr2 : fread bytes r1.2 2 = r2 at h
  by_cases h4 : r2.1.length ≠ 2
  · rw [if_pos h4] at h
    cases h
    have c2 : r1.2 ≤ r2.2 := by rw [← hr2]; exact fread_cursor_le _ _ _
    exact Pass.short_length _ (by rw [← hr2] at h4 ⊢; exact fread_short _ _ _ h4) (by omega)
  rw [if_neg h4] at h
  have e2 : r2.2 = r1.2 + 2 := by
    rw [← hr2] at h4 ⊢; exact fread_full _ _ _ (not_not.mp h4)
  generalize hlen : ((r2.1.getD 0 0 <<< 8) ||| r2.1.getD 1 0) % 65536 = L at h
  by_cases h5 : L < 5
  · rw [if_pos h5] at h
    cases h
    exact Pass.too_short _ h5
  rw [if_neg h5] at h
  by_cases h6 : s.position + L > bytes.length
  · rw [if_pos h6] at h
    cases h
    exact Pass.exceeds _ h5 h6
  rw [if_neg h6] at h
  generalize hr3 : fread bytes r2.2 3 = r3 at h
  by_cases h7 : r3.1.length ≠ 3
  · rw [if_pos h7] at h
    cases h
    have c3 : r2.2 ≤ r3.2 := by rw [← hr3]; exact fread_cursor_le _ _ _
    exact Pass.short_type _ (by rw [← hr3] at h7 ⊢; exact fread_short _ _ _ h7) (by omega)
  rw [if_neg h7] at h
  have e3 : r3.2 = r2.2 + 3 := by
    rw [← hr3] at h7 ⊢; exact fread_full _ _ _ (not_not.mp h7)
  generalize hr4 : fread bytes r3.2 1 = r4 at h
  by_cases h8 : r4.1.length ≠ 1
  · rw [if_pos h8] at h
    cases h
    have c4 : r3.2 ≤ r4.2 := by rw [← hr4]; exact fread_cursor_le _ _ _
    exact Pass.short_flag _ (by rw [← hr4] at h8 ⊢; exact fread_short _ _ _ h8) (by omega)
  rw [if_neg h8] at h
  have e4 : r4.2 = r3.2 + 1 := by
    rw [← hr4] at h8 ⊢; exact fread_full _ _ _ (not_not.mp h8)
  by_cases h9 : (L : Int) - 6 > 0
  · rw [if_pos h9] at h
    generalize hr5 : fread bytes r4.2 ((L : Int) - 6).toNat = r5 at h
    by_cases h10 : r5.1.length ≠ ((L : Int) - 6).toNat
    · rw [if_pos h10] at h
      cases h
      have c5 : r4.2 ≤ r5.2 := by rw [← hr5]; exact fread_cursor_le _ _ _
      exact Pass.short_data _ (by rw [← hr5] at h10 ⊢; exact fread_short _ _ _ h10) (by omega)
    · rw [if_neg h10] at h
      have e5 : r5.2 = r4.2 + ((L : Int) - 6).toNat := by
        rw [← hr5] at h10 ⊢; exact fread_full _ _ _ (not_not.mp h10)
      obtain ⟨s1, hs1, rfl⟩ := Option.map_eq_some'.mp h
      refine Pass.field _ _ _ _ _ s1 h5 h6 ?_ hs1
      omega
  · rw [if_neg h9] at h
    obtain ⟨s1, hs1, rfl⟩ := Option.map_eq_some'.mp h
    refine Pass.field _ _ _ _ _ s1 h5 h6 ?_ hs1
    omega

theorem iteration_some (bytes : List Nat) (s : State) (h : StackOK s.component_stack) :
    ∃ out, iteration bytes s = some out := by
  unfold iteration
  dsimp only
  generalize fread bytes s.cursor 1 = r1
  by_cases h1 : r1.1.length ≠ 1
  · rw [if_pos h1]; exact ⟨_, rfl⟩
  rw [if_neg h1]
  by_cases h2 : r1.1.getD 0 0 ≠ SF_INTRODUCER
  · rw [if_pos h2]
    by_cases h3 : s.error_count + 1 > 10
    · rw [if_pos h3]; exact ⟨_, rfl⟩
    · rw [if_neg h3]; exact ⟨_, rfl⟩
  rw [if_neg h2]
  generalize fread bytes r1.2 2 = r2
  by_cases h4 : r2.1.length ≠ 2
  · rw [if_pos h4]; exact ⟨_, rfl⟩
  rw [if_neg h4]
  generalize ((r2.1.getD 0 0 <<< 8) ||| r2.1.getD 1 0) % 65536 = L
  by_cases h5 : L < 5
  · rw [if_pos h5]; exact ⟨_, rfl⟩
  rw [if_neg h5]
  by_cases h6 : s.position + L > bytes.length
  · rw [if_pos h6]; exact ⟨_, rfl⟩
  rw [if_neg h6]
  generalize fread bytes r2.2 3 = r3
  by_cases h7 : r3.1.length ≠ 3
  · rw [if_pos h7]; exact ⟨_, rfl⟩
  rw [if_neg h7]
  generalize fread bytes r3.2 1 = r4
  by_cases h8 : r4.1.length ≠ 1
  · rw [if_pos h8]; exact ⟨_, rfl⟩
  rw [if_neg h8]
  by_cases h9 : (L : Int) - 6 > 0
  · rw [if_pos h9]
    generalize fread bytes r4.2 ((L : Int) - 6).toNat = r5
    by_cases h10 : r5.1.length ≠ ((L : Int) - 6).toNat
    · rw [if_pos h10]; exact ⟨_, rfl⟩
    · rw [if_neg h10]
      obtain ⟨s', hs', -⟩ := process_field_total { s with cursor := r5.2 } L
        (r3.1.getD 0 0, r3.1.getD 1 0, r3.1.getD 2 0) (r4.1.getD 0 0) (some r5.1) h
      rw [hs']; exact ⟨_, rfl⟩
  · rw [if_neg h9]
    obtain ⟨s', hs', -⟩ := process_field_total { s with cursor := r4.2 } L
      (r3.1.getD 0 0, r3.1.getD 1 0, r3.1.getD 2 0) (r4.1.getD 0 0) none h
    rw [hs']; exact ⟨_, rfl⟩

theorem pass_stackOK (bytes : List Nat) (s : State) (out : Flow) (hp : Pass bytes s out)
    (h : StackOK s.component_stack) : StackOK out.state.component_stack := by
  cases hp with
  | field L type flag data c s' hL hfit hc hpf =>
    obtain ⟨s'', hs'', hok⟩ := process_field_total { s with cursor := c } L type flag data h
    rw [hpf] at hs''
    cases hs''
    exact hok
  | _ => exact h

theorem pass_progress (bytes : List Nat) (s s' : State) (hp : Pass bytes s (Flow.cont s')) :
    s.position < s'.position := by
  cases hp with
  | desync b hb he => simp
  | too_short L hL => simp
  | exceeds L hL hx => simp
  | field L type flag data c s' hL hfit hc hpf =>
    have := (process_field_spec _ _ _ _ _ _ hpf).2.1
    simp only at this
    omega

theorem pass_cursor (bytes : List Nat) (s : State) (out : Flow) (hp : Pass bytes s out)
    (h : s.position ≤ s.cursor) : out.state.position ≤ out.state.cursor := by
  cases hp with
  | field L type flag data c s' hL hfit hc hpf =>
    have h1 := (process_field_spec _ _ _ _ _ _ hpf).1
    have h2 := (process_field_spec _ _ _ _ _ _ hpf).2.1
    simp only [Flow.state] at h1 h2 ⊢
    omega
  | eof c hc hs => simp only [Flow.state]; omega
  | short_length c hc hs => simp only [Flow.state]; omega
  | short_type c hc hs => simp only [Flow.state]; omega
  | short_flag c hc hs => simp only [Flow.state]; omega
  | short_data c hc hs => simp only [Flow.state]; omega
  | _ => simp [Flow.state]

/-! ## The main loop -/

theorem loop_fuel_mono (bytes : List Nat) (fuel : Nat) :
    ∀ (s r : State) (k : Nat), loop bytes fuel s = some r → loop bytes (fuel + k) s = some r := by
  induction fuel with
  | zero => intro s r k h; simp [loop] at h
  | succ n ih =>
    intro s r k h
    rw [Nat.add_right_comm]
    unfold loop at h ⊢
    split_ifs at h ⊢ with hpos
    · cases hit : iteration bytes s with
      | none => rw [hit] at h; simp at h
      | some out =>
        rw [hit] at h
        cases out with
        | cont s' => exact ih s' r k h
        | brk s' => exact h
    · exact h

theorem loop_total (bytes : List Nat) (fuel : Nat) :
    ∀ s : State, StackOK s.component_stack → bytes.length - s.position < fuel →
      ∃ r, loop bytes fuel s = some r := by
  induction fuel with
  | zero => intro s _ h; omega
  | succ n ih =>
    intro s hok hfuel
    unfold loop
    split_ifs with hpos
    · obtain ⟨out, hit⟩ := iteration_some bytes s hok
      have hp := iteration_spec bytes s out hit
      rw [hit]
      cases out with
      | cont s' =>
        have h1 := pass_progress bytes s s' hp
        exact ih s' (pass_stackOK bytes s _ hp hok) (by omega)
      | brk s' => exact ⟨s', rfl⟩
    · exact ⟨s, rfl⟩

/-- Invariant rule for the main loop: `I` holds while the loop runs, `Q` when
it is left. -/
theorem loop_rule (bytes : List Nat) (I Q : State → Prop)
    (hcont : ∀ s s', I s → s.position < bytes.length → Pass bytes s (Flow.cont s') → I s')
    (hbrk : ∀ s s', I s → s.position < bytes.length → Pass bytes s (Flow.brk s') → Q s')
    (hexit : ∀ s, I s → ¬ s.position < bytes.length → Q s) (fuel : Nat) :
    ∀ s r : State, I s → loop bytes fuel s = some r → Q r := by
  induction fuel with
  | zero => intro s r _ h; simp [loop] at h
  | succ n ih =>
    intro s r hI h
    unfold loop at h
    split_ifs at h with hpos
    · cases hit : iteration bytes s with
      | none => rw [hit] at h; simp at h
      | some out =>
        have hp := iteration_spec bytes s out hit
        rw [hit] at h
        cases out with
        | cont s' => exact ih s' r (hcont s s' hI hpos hp) h
        | brk s' =>
          simp only [Option.some.injEq] at h
          subst h
          exact hbrk s s' hI hpos hp
    · simp only [Option.some.injEq] at h
      subst h
      exact hexit s hI hpos

/-! ## Framing a well-framed record -/

theorem fread_at (bytes pre mid post : List Nat) (c n k : Nat)
    (h : bytes.drop c = pre ++ (mid ++ post)) (hn : n = c + pre.length) (hk : k = mid.length) :
    fread bytes n k = (mid, n + k) := by
  subst hn hk
  exact fread_of_drop bytes pre mid post c h

theorem iteration_at_record (bytes post : List Nat) (s : State) (r : Record)
    (h : bytes.drop s.cursor = r.bytes ++ post) (hwf : r.length < 65536)
    (hfit : s.position + r.length ≤ bytes.length) :
    iteration bytes s =
      (process_field { s with cursor := s.cursor + r.length + 1 } r.length r.type r.flag
        r.data).map Flow.cont := by
  obtain ⟨⟨t0, t1, t2⟩, flag, payload⟩ := r
  simp only [Record.bytes, Record.length, Record.data] at h hwf hfit ⊢
  have f1 : fread bytes s.cursor 1 = ([SF_INTRODUCER], s.cursor + 1) :=
    fread_at bytes [] [SF_INTRODUCER] _ s.cursor _ _ h rfl rfl
  have f2 : fread bytes (s.cursor + 1) 2 =
      ([(payload.length + 6) / 256, (payload.length + 6) % 256], s.cursor + 1 + 2) :=
    fread_at bytes [SF_INTRODUCER] [_, _] _ s.cursor _ _ h rfl rfl
  have f3 : fread bytes (s.cursor + 1 + 2) 3 = ([t0, t1, t2], s.cursor + 1 + 2 + 3) :=
    fread_at bytes [SF_INTRODUCER, _, _] [_, _, _] _ s.cursor _ _ h rfl rfl
  have f4 : fread bytes (s.cursor + 1 + 2 + 3) 1 = ([flag], s.cursor + 1 + 2 + 3 + 1) :=
    fread_at bytes [SF_INTRODUCER, _, _, _, _, _] [_] _ s.cursor _ _ h rfl rfl
  have f5 : fread bytes (s.cursor + 1 + 2 + 3 + 1) payload.length =
      (payload, s.cursor + 1 + 2 + 3 + 1 + payload.length) :=
    fread_at bytes [SF_INTRODUCER, _, _, _, _, _, _] payload post s.cursor _ _
      (by simpa using h) rfl rfl
  have hdec := decode_length (payload.length + 6) hwf
  unfold iteration
  dsimp only
  rw [f1]
  dsimp only [List.length_singleton, List.getD_cons_zero]
  rw [if_neg (by simp), if_neg (by simp), f2]
  dsimp only [List.length_cons, List.length_nil, List.getD_cons_zero, List.getD_cons_succ]
  rw [if_neg (by simp), hdec, if_neg (by omega), if_neg (by omega), f3]
  dsimp only [List.length_cons, List.length_nil, List.getD_cons_zero, List.getD_cons_succ]
  rw [if_neg (by simp), f4]
  dsimp only [List.length_cons, List.length_nil, List.getD_cons_zero, List.getD_cons_succ]
  rw [if_neg (by simp)]
  have htn : (((payload.length + 6 : Nat) : Int) - 6).toNat = payload.length := by omega
  by_cases hp : payload = []
  · subst hp
    rw [if_neg (by simp)]
    simp
  · have hpos : 0 < payload.length := List.length_pos.mpr hp
    rw [if_pos (by omega), htn, f5]
    dsimp only
    rw [if_neg (by simp), if_neg hp]
    congr 3
    omega

/-! ## Begin and End fields -/

theorem process_field_of_check (s s1 : State) (length : Nat) (type : Nat × Nat × Nat)
    (flag : Nat) (data : Option (List Nat)) (h : check_begin_end s type = some s1) :
    ∃ s', process_field s length type flag data = some s' ∧
      s'.component_stack = s1.component_stack ∧ s'.is_valid = s1.is_valid ∧
      s'.output = s1.output ∧ s'.has_begin_document = s1.has_begin_document ∧
      s'.has_end_document = s1.has_end_document ∧ s'.page_count = s1.page_count ∧
      s'.object_count = s1.object_count := by
  unfold process_field
  simp only [h]
  refine ⟨_, rfl, ?_⟩
  split_ifs <;> simp

theorem begin_component_push (s : State) (c : AFPComponent) (l : List AFPComponent)
    (hh : Holds s.component_stack l) (hl : l.length < MAX_STACK_SIZE) :
    ∃ s', begin_component s c = some s' ∧ Holds s'.component_stack (l ++ [c]) ∧
      s'.is_valid = s.is_valid ∧ s'.output = s.output := by
  obtain ⟨stk, hp, hh'⟩ := stack_push_holds s.component_stack c l hh hl
  unfold begin_component
  simp only [hp]
  exact ⟨_, rfl, hh', rfl, rfl⟩

theorem check_begin_end_begin (s : State) (x : Nat) (l : List AFPComponent)
    (hx : x ∈ bracket_codes) (hh : Holds s.component_stack l) (hl : l.length < MAX_STACK_SIZE) :
    ∃ s', check_begin_end s (0xD3, 0xA8, x) = some s' ∧
      Holds s'.component_stack (l ++ [bracket_component x]) ∧
      s'.is_valid = s.is_valid ∧ s'.output = s.output := by
  simp only [bracket_codes, List.mem_cons, List.mem_singleton, List.not_mem_nil, or_false] at hx
  rcases hx with rfl | rfl | rfl | rfl | rfl | rfl
  · simpa [check_begin_end, bracket_component] using
      begin_component_push { s with has_begin_document := true } COMPONENT_DOCUMENT l hh hl
  · simpa [check_begin_end, bracket_component] using
      begin_component_push s COMPONENT_PAGE_GROUP l hh hl
  · obtain ⟨s1, h1, h2, h3, h4⟩ := begin_component_push s COMPONENT_PAGE l hh hl
    refine ⟨{ s1 with page_count := s1.page_count + 1 }, ?_, ?_, h3, h4⟩
    · simp [check_begin_end, h1]
    · simpa [bracket_component] using h2
  · obtain ⟨s1, h1, h2, h3, h4⟩ := begin_component_push s COMPONENT_OBJECT l hh hl
    refine ⟨{ s1 with object_count := s1.object_count + 1 }, ?_, ?_, h3, h4⟩
    · simp [check_begin_end, h1]
    · simpa [bracket_component] using h2
  · simpa [check_begin_end, bracket_component] using
      begin_component_push s COMPONENT_RESOURCE_GROUP l hh hl
  · simpa [check_begin_end, bracket_component] using
      begin_component_push s COMPONENT_OVERLAY l hh hl

theorem end_component_pop (s : State) (e p : AFPComponent) (stk : ComponentStack)
    (hp : stack_pop s.component_stack = some (p, stk)) :
    ∃ s', end_component s e = some s' ∧ s'.component_stack = stk ∧
      s'.is_valid = (s.is_valid && decide (p = e)) ∧
      s'.output = (if p = e then s.output
        else s.output ++ [Message.structure_mismatch s.position p e]) := by
  unfold end_component
  simp only [hp]
  by_cases hpe : p = e
  · simp [hpe]
  · simp [hpe]

theorem check_begin_end_end (s : State) (x : Nat) (p : AFPComponent) (stk : ComponentStack)
    (hx : x ∈ bracket_codes) (hp : stack_pop s.component_stack = some (p, stk)) :
    ∃ s', check_begin_end s (0xD3, 0xA9, x) = some s' ∧ s'.component_stack = stk ∧
      s'.is_valid = (s.is_valid && decide (p = bracket_component x)) ∧
      s'.output = (if p = bracket_component x then s.output
        else s.output ++ [Message.structure_mismatch s.position p (bracket_component x)]) := by
  simp only [bracket_codes, List.mem_cons, List.mem_singleton, List.not_mem_nil, or_false] at hx
  rcases hx with rfl | rfl | rfl | rfl | rfl | rfl
  · simpa [check_begin_end, bracket_component] using
      end_component_pop { s with has_end_document := true } COMPONENT_DOCUMENT p stk hp
  · simpa [check_begin_end, bracket_component] using
      end_component_pop s COMPONENT_PAGE_GROUP p stk hp
  · simpa [check_begin_end, bracket_component] using
      end_component_pop s COMPONENT_PAGE p stk hp
  · simpa [check_begin_end, bracket_component] using
      end_component_pop s COMPONENT_OBJECT p stk hp
  · simpa [check_begin_end, bracket_component] using
      end_component_pop s COMPONENT_RESOURCE_GROUP p stk hp
  · simpa [check_begin_end, bracket_component] using
      end_component_pop s COMPONENT_OVERLAY p stk hp

/-! ## Streams of matched Begin and End records -/

theorem record_bytes_length (r : Record) : r.bytes.length = r.length + 1 := by
  simp [Record.bytes, Record.length]

theorem stream_cons (r : Record) (rs : List Record) : stream (r :: rs) = r.bytes ++ stream rs := by
  simp [stream]

theorem stream_length_ge (rs : List Record) : rs.length ≤ (stream rs).length := by
  induction rs with
  | nil => simp
  | cons r rs ih =>
    rw [stream_cons, List.length_append, record_bytes_length, List.length_cons]
    omega

theorem iteration_at_eof (bytes : List Nat) (s : State) (h : bytes.length ≤ s.cursor) :
    iteration bytes s = some (Flow.brk s) := by
  have hd : bytes.drop s.cursor = [] := List.drop_eq_nil_of_le h
  unfold iteration
  simp [fread, hd]

theorem drop_nonempty_lt {α : Type} (l : List α) (c : Nat) (a : α) (t : List α)
    (h : l.drop c = a :: t) : c < l.length := by
  by_contra hc
  rw [List.drop_eq_nil_of_le (by omega)] at h
  cases h

theorem drop_length_ge {α : Type} (l pre post : List α) (c : Nat) (a : α) (t : List α)
    (hpre : pre = a :: t) (h : l.drop c = pre ++ post) : c + pre.length ≤ l.length := by
  subst hpre
  have hc := drop_nonempty_lt l c a (t ++ post) (by simpa using h)
  have := congrArg List.length h
  simp only [List.length_drop, List.length_append] at this
  omega

theorem loop_matched (bytes : List Nat) (rs : List Record) :
    ∀ (open_codes : List Nat) (s : State) (fuel : Nat),
      (∀ r ∈ rs, r.length < 65536) →
      well_nested open_codes rs = true →
      bytes.drop s.cursor = stream rs →
      s.position ≤ s.cursor →
      Holds s.component_stack (open_codes.map bracket_component).reverse →
      rs.length < fuel →
      ∃ r, loop bytes fuel s = some r ∧ r.is_valid = s.is_valid ∧
        r.error_count = s.error_count ∧ r.field_count = s.field_count + rs.length ∧
        Holds r.component_stack [] ∧ r.output = s.output := by
  induction rs with
  | nil =>
    intro oc s fuel _ hn hd hpc hh hf
    have hoc : oc = [] := by simpa [well_nested] using hn
    subst hoc
    have hlen : bytes.length ≤ s.cursor := by
      simpa [stream] using hd
    obtain ⟨n, rfl⟩ : ∃ n, fuel = n + 1 := ⟨fuel - 1, by omega⟩
    unfold loop
    split_ifs
    · rw [iteration_at_eof bytes s hlen]
      exact ⟨s, rfl, rfl, rfl, by simp, by simpa using hh, rfl⟩
    · exact ⟨s, rfl, rfl, rfl, by simp, by simpa using hh, rfl⟩
  | cons r rs ih =>
    intro oc s fuel hwf hn hd hpc hh hf
    rw [stream_cons] at hd
    have hrl := record_bytes_length r
    have hge := drop_length_ge bytes r.bytes (stream rs) s.cursor SF_INTRODUCER _ rfl hd
    obtain ⟨n, rfl⟩ : ∃ n, fuel = n + 1 := ⟨fuel - 1, by omega⟩
    have hfit : s.position + r.length ≤ bytes.length := by omega
    have hit := iteration_at_record bytes (stream rs) s r hd (hwf r (by simp)) hfit
    have hdrop : bytes.drop (s.cursor + r.length + 1) = stream rs := by
      rw [show s.cursor + r.length + 1 = s.cursor + r.bytes.length by omega, ← List.drop_drop, hd]
      simp
    have hpos : s.position < bytes.length := by omega
    have hwf' : ∀ r' ∈ rs, r'.length < 65536 := fun r' hr => hwf r' (by simp [hr])
    simp only [List.length_cons] at hf
    unfold well_nested at hn
    rw [loop, if_pos hpos, hit]
    by_cases hb : r.is_begin
    · rw [if_pos hb] at hn
      simp only [Bool.and_eq_true, decide_eq_true_eq] at hn
      have hty : r.type = (0xD3, 0xA8, r.type.2.2) := by
        obtain ⟨h1, h2, -⟩ := hb
        ext <;> simp [h1, h2]
      obtain ⟨s2, hc2, hh2, hv2, ho2⟩ := check_begin_end_begin
        { s with cursor := s.cursor + r.length + 1 } r.type.2.2 _ hb.2.2 hh
        (by simp [MAX_STACK_SIZE]; omega)
      rw [← hty] at hc2
      obtain ⟨s3, hp3, e1, e2, e3, -⟩ :=
        process_field_of_check _ s2 r.length r.type r.flag r.data hc2
      have sp := process_field_spec _ _ _ _ _ _ hp3
      rw [hp3]
      simp only [Option.map_some']
      obtain ⟨res, hres, r1, r2, r3, r4, r5⟩ := ih (r.type.2.2 :: oc) s3 n hwf' hn.2
        (by rw [sp.1]; exact hdrop) (by rw [sp.1, sp.2.1]; simp only; omega)
        (by rw [e1]; simpa using hh2) (by omega)
      refine ⟨res, hres, ?_, ?_, ?_, r4, ?_⟩
      · rw [r1, e2, hv2]
      · rw [r2, sp.2.2.1]
      · rw [r3, sp.2.2.2.1]; simp only [List.length_cons]; omega
      · rw [r5, e3, ho2]
    · rw [if_neg hb] at hn
      by_cases he : r.is_end
      · rw [if_pos he] at hn
        cases oc with
        | nil => simp at hn
        | cons x rest =>
          simp only [Bool.and_eq_true, decide_eq_true_eq] at hn
          obtain ⟨hx, hn'⟩ := hn
          subst hx
          have hty : r.type = (0xD3, 0xA9, r.type.2.2) := by
            obtain ⟨h1, h2, -⟩ := he
            ext <;> simp [h1, h2]
          obtain ⟨stk, hpop, hh', -⟩ := stack_pop_holds s.component_stack
            (bracket_component r.type.2.2) (rest.map bracket_component).reverse
            (by simpa using hh)
          obtain ⟨s2, hc2, hs2, hv2, ho2⟩ := check_begin_end_end
            { s with cursor := s.cursor + r.length + 1 } r.type.2.2 _ stk he.2.2 hpop
          rw [← hty] at hc2
          obtain ⟨s3, hp3, e1, e2, e3, -⟩ :=
            process_field_of_check _ s2 r.length r.type r.flag r.data hc2
          have sp := process_field_spec _ _ _ _ _ _ hp3
          rw [hp3]
          simp only [Option.map_some']
          obtain ⟨res, hres, r1, r2, r3, r4, r5⟩ := ih rest s3 n hwf' hn'
            (by rw [sp.1]; exact hdrop) (by rw [sp.1, sp.2.1]; simp only; omega)
            (by rw [e1, hs2]; exact hh') (by omega)
          refine ⟨res, hres, ?_, ?_, ?_, r4, ?_⟩
          · rw [r1, e2, hv2]; simp
          · rw [r2, sp.2.2.1]
          · rw [r3, sp.2.2.2.1]; simp only [List.length_cons]; omega
          · rw [r5, e3, ho2]; simp
      · rw [if_neg he] at hn
        cases hn

theorem print_structure_summary_empty (stack : ComponentStack) (h : Holds stack []) :
    print_structure_summary stack = some ([], stack) := by
  obtain ⟨-, h2, -, -⟩ := h
  simp only [List.length_nil, Nat.cast_zero] at h2
  have htop : stack.top = -1 := by omega
  simp [print_structure_summary, htop, pop_all, stack_empty]

theorem holds_initial : Holds initial_state.component_stack [] := by
  refine ⟨by simp [initial_state, stack_init, MAX_STACK_SIZE], by simp [initial_state, stack_init],
    by simp, ?_⟩
  intro i hi
  simp at hi

theorem stack_pop_nonempty (stack : ComponentStack) (h : StackOK stack) (hne : 0 ≤ stack.top) :
    ∃ c, stack_pop stack = some (c, { stack with top := stack.top - 1 }) := by
  obtain ⟨h1, h2, h3⟩ := h
  simp only [MAX_STACK_SIZE] at h1 h3
  unfold stack_pop array_read
  rw [if_neg (by omega), if_pos hne]
  have hlt : stack.top.toNat < stack.components.length := by omega
  rw [List.get?_eq_get hlt]
  exact ⟨_, rfl⟩

theorem pop_all_total (fuel : Nat) :
    ∀ stack : ComponentStack, StackOK stack → (stack.top + 1).toNat ≤ fuel →
      ∃ r, pop_all fuel stack = some r := by
  induction fuel with
  | zero =>
    intro stack hok hf
    have : stack.top < 0 := by omega
    refine ⟨([], stack), ?_⟩
    simp [pop_all, stack_empty, this]
  | succ n ih =>
    intro stack hok hf
    unfold pop_all
    by_cases he : stack_empty stack = true
    · rw [if_pos he]; exact ⟨_, rfl⟩
    · rw [if_neg he]
      simp only [stack_empty, decide_eq_true_eq, not_lt] at he
      obtain ⟨c, hpop⟩ := stack_pop_nonempty stack hok he
      rw [hpop]
      have hok' : StackOK { stack with top := stack.top - 1 } := by
        obtain ⟨h1, h2, h3⟩ := hok
        exact ⟨h1, by simp only; omega, by simp only; omega⟩
      obtain ⟨r, hr⟩ := ih { stack with top := stack.top - 1 } hok' (by simp only; omega)
      simp only [hr]
      exact ⟨_, rfl⟩

theorem stackOK_initial : StackOK initial_state.component_stack :=
  stackOK_of_holds holds_initial

/-- The run always returns, and any property kept by every pass holds of the
locals at the exit of the main loop. -/
theorem validate_rule (bytes : List Nat) (I Q : State → Prop)
    (hinit : I initial_state)
    (hcont : ∀ s s', I s → s.position < bytes.length → Pass bytes s (Flow.cont s') → I s')
    (hbrk : ∀ s s', I s → s.position < bytes.length → Pass bytes s (Flow.brk s') → Q s')
    (hexit : ∀ s, I s → ¬ s.position < bytes.length → Q s) :
    ∃ rep, validate_afp_file bytes = some rep ∧ rep.result = rep.state.is_valid ∧
      loop bytes (bytes.length + 1) initial_state = some rep.state ∧ Q rep.state := by
  obtain ⟨r, hr⟩ := loop_total bytes (bytes.length + 1) initial_state stackOK_initial
    (by simp [initial_state])
  have hok : StackOK r.component_stack :=
    loop_rule bytes (fun s => StackOK s.component_stack) (fun s => StackOK s.component_stack)
      (fun s s' h _ hp => pass_stackOK bytes s _ hp h)
      (fun s s' h _ hp => pass_stackOK bytes s _ hp h)
      (fun s h _ => h) _ initial_state r stackOK_initial hr
  have hQ : Q r := loop_rule bytes I Q hcont hbrk hexit _ initial_state r hinit hr
  obtain ⟨u, hu⟩ := pop_all_total (r.component_stack.top + 1).toNat r.component_stack hok
    (le_refl _)
  refine ⟨{ result := r.is_valid, state := r, unclosed := u.1, stack_after_summary := u.2 },
    ?_, rfl, hr, hQ⟩
  simp [validate_afp_file, hr, print_structure_summary, hu]

theorem count_errors_append (k : ErrorKind) (out : List Message) (m : Message) :
    count_errors k (out ++ [m]) = count_errors k out + (if m.kind = some k then 1 else 0) := by
  simp [count_errors, List.countP_append, List.countP_cons]

theorem total_errors_append (out : List Message) (m : Message) :
    total_errors (out ++ [m]) = total_errors out + (if m.kind = none then 0 else 1) := by
  simp only [total_errors, count_errors_append]
  cases m <;> simp [Message.kind] <;> omega

theorem pass_valid_mono (bytes : List Nat) (s : State) (out : Flow) (hp : Pass bytes s out)
    (h : s.is_valid = false) : out.state.is_valid = false := by
  cases hp with
  | field L type flag data c s' hL hfit hc hpf =>
    rcases (process_field_spec _ _ _ _ _ _ hpf).2.2.2.2 with ⟨-, h2⟩ | ⟨p, e, -, h2⟩
    · simp only [Flow.state]; rw [h2]; exact h
    · exact h2
  | eof c hc hs => exact h
  | _ => rfl

/-! ## A field has the same nesting effect wherever it is framed -/

theorem begin_component_congr (s t s' : State) (c : AFPComponent) (hst : SameNesting s t)
    (h : begin_component s c = some s') :
    ∃ t', begin_component t c = some t' ∧ SameNesting s' t' := by
  obtain ⟨b, stk, hp, rfl⟩ := begin_component_eq s s' c h
  obtain ⟨h1, h2, h3, h4, h5, h6, h7, h8⟩ := hst
  refine ⟨{ t with component_stack := stk }, ?_, ⟨rfl, h2, h3, h4, h5, h6, h7, h8⟩⟩
  unfold begin_component
  rw [← h1, hp]

theorem end_component_congr (s t s' : State) (e : AFPComponent) (hst : SameNesting s t)
    (h : end_component s e = some s') :
    ∃ t', end_component t e = some t' ∧ SameNesting s' t' := by
  obtain ⟨p, stk, hp, hcase⟩ := end_component_eq s s' e h
  obtain ⟨h1, h2, h3, h4, h5, h6, h7, h8⟩ := hst
  unfold end_component
  rw [← h1, hp]
  rcases hcase with ⟨hpe, rfl⟩ | ⟨hpe, rfl⟩
  · refine ⟨{ t with component_stack := stk }, ?_, ⟨rfl, h2, h3, h4, h5, h6, h7, h8⟩⟩
    simp [hpe]
  · refine ⟨{ t with
        component_stack := stk
        output := t.output ++ [Message.structure_mismatch t.position p e]
        is_valid := false }, ?_, ⟨rfl, h2, h3, h4, h5, h6, h7, h8⟩⟩
    simp [hpe]

theorem sameNesting_begin_flag (s t : State) (h : SameNesting s t) :
    SameNesting { s with has_begin_document := true } { t with has_begin_document := true } := by
  obtain ⟨h1, h2, h3, h4, h5, h6, h7, h8⟩ := h
  exact ⟨h1, rfl, h3, h4, h5, h6, h7, h8⟩

theorem sameNesting_end_flag (s t : State) (h : SameNesting s t) :
    SameNesting { s with has_end_document := true } { t with has_end_document := true } := by
  obtain ⟨h1, h2, h3, h4, h5, h6, h7, h8⟩ := h
  exact ⟨h1, h2, rfl, h4, h5, h6, h7, h8⟩

theorem check_begin_end_congr (s t s' : State) (type : Nat × Nat × Nat) (hst : SameNesting s t)
    (h : check_begin_end s type = some s') :
    ∃ t', check_begin_end t type = some t' ∧ SameNesting s' t' := by
  have hmap : ∀ (c : AFPComponent) (f g : State → State),
      (∀ a b, SameNesting a b → SameNesting (f a) (g b)) →
      (begin_component s c).map f = some s' →
      ∃ t', (begin_component t c).map g = some t' ∧ SameNesting s' t' := by
    intro c f g hfg hm
    obtain ⟨s1, h1, rfl⟩ := Option.map_eq_some'.mp hm
    obtain ⟨t1, ht1, hs⟩ := begin_component_congr _ _ _ _ hst h1
    rw [ht1]
    exact ⟨_, rfl, hfg _ _ hs⟩
  unfold check_begin_end at h
  split_ifs at h with c1 c2 c3 c4 c5 c6 c7 c8 c9 c10 c11 c12 c13 c14 c15
  · rw [check_begin_end, if_pos c1, if_pos c2, if_pos c3]
    exact begin_component_congr _ _ _ _ (sameNesting_begin_flag s t hst) h
  · rw [check_begin_end, if_pos c1, if_pos c2, if_neg c3, if_pos c4]
    exact begin_component_congr _ _ _ _ hst h
  · rw [check_begin_end, if_pos c1, if_pos c2, if_neg c3, if_neg c4, if_pos c5]
    refine hmap _ _ _ ?_ h
    rintro a b ⟨h1, h2, h3, h4, h5, h6, h7, h8⟩
    exact ⟨h1, h2, h3, by simp [h4], h5, h6, h7, h8⟩
  · rw [check_begin_end, if_pos c1, if_pos c2, if_neg c3, if_neg c4, if_neg c5, if_pos c6]
    refine hmap _ _ _ ?_ h
    rintro a b ⟨h1, h2, h3, h4, h5, h6, h7, h8⟩
    exact ⟨h1, h2, h3, h4, by simp [h5], h6, h7, h8⟩
  · rw [check_begin_end, if_pos c1, if_pos c2, if_neg c3, if_neg c4, if_neg c5, if_neg c6,
      if_pos c7]
    exact begin_component_congr _ _ _ _ hst h
  · rw [check_begin_end, if_pos c1, if_pos c2, if_neg c3, if_neg c4, if_neg c5, if_neg c6,
      if_neg c7, if_pos c8]
    exact begin_component_congr _ _ _ _ hst h
  · rw [check_begin_end, if_pos c1, if_pos c2, if_neg c3, if_neg c4, if_neg c5, if_neg c6,
      if_neg c7, if_neg c8]
    cases h; exact ⟨t, rfl, hst⟩
  · rw [check_begin_end, if_pos c1, if_neg c2, if_pos c9, if_pos c10]
    exact end_component_congr _ _ _ _ (sameNesting_end_flag s t hst) h
  · rw [check_begin_end, if_pos c1, if_neg c2, if_pos c9, if_neg c10, if_pos c11]
    exact end_component_congr _ _ _ _ hst h
  · rw [check_begin_end, if_pos c1, if_neg c2, if_pos c9, if_neg c10, if_neg c11, if_pos c12]
    exact end_component_congr _ _ _ _ hst h
  · rw [check_begin_end, if_pos c1, if_neg c2, if_pos c9, if_neg c10, if_neg c11, if_neg c12,
      if_pos c13]
    exact end_component_congr _ _ _ _ hst h
  · rw [check_begin_end, if_pos c1, if_neg c2, if_pos c9, if_neg c10, if_neg c11, if_neg c12,
      if_neg c13, if_pos c14]
    exact end_component_congr _ _ _ _ hst h
  · rw [check_begin_end, if_pos c1, if_neg c2, if_pos c9, if_neg c10, if_neg c11, if_neg c12,
      if_neg c13, if_neg c14, if_pos c15]
    exact end_component_congr _ _ _ _ hst h
  · rw [check_begin_end, if_pos c1, if_neg c2, if_pos c9, if_neg c10, if_neg c11, if_neg c12,
      if_neg c13, if_neg c14, if_neg c15]
    cases h; exact ⟨t, rfl, hst⟩
  · rw [check_begin_end, if_pos c1, if_neg c2, if_neg c9]
    cases h; exact ⟨t, rfl, hst⟩
  · rw [check_begin_end, if_neg c1]
    cases h; exact ⟨t, rfl, hst⟩

theorem process_field_congr (s t s' : State) (length : Nat) (type : Nat × Nat × Nat)
    (flag : Nat) (data : Option (List Nat)) (hst : SameNesting s t)
    (h : process_field s length type flag data = some s') :
    ∃ t', process_field t length type flag data = some t' ∧ SameNesting s' t' ∧
      s'.fields = s.fields ++ [identify_field_type
        { length := length, type := type, flags := flag, data := data,
          component := COMPONENT_UNKNOWN, obj_type := OBJ_UNKNOWN,
          name := List.replicate 9 (some 0) }] := by
  unfold process_field at h ⊢
  split at h
  · cases h
  · next s1 h1 =>
    obtain ⟨t1, ht1, hs⟩ := check_begin_end_congr s t s1 type hst h1
    have hn := check_begin_end_nesting s s1 type h1
    simp only [ht1]
    cases h
    obtain ⟨h1, h2, h3, h4, h5, h6, h7, h8⟩ := hs
    refine ⟨_, rfl, ?_, ?_⟩
    · split_ifs <;> exact ⟨h1, h2, h3, h4, h5, by simp [h6], by simp [h7], by simp [h8]⟩
    · split_ifs <;> simp [hn.2.2.2.2.1]

theorem iteration_desync (bytes rest : List Nat) (s : State) (b : Nat)
    (hd : bytes.drop s.cursor = b :: rest) (hb : b ≠ SF_INTRODUCER) :
    iteration bytes s =
      if s.error_count + 1 > 10 then
        some (Flow.brk { s with
          output := (s.output ++ [Message.invalid_introducer b s.position]) ++
            [Message.too_many_errors]
          is_valid := false
          position := s.position + 1
          cursor := s.position + 1
          error_count := s.error_count + 1 })
      else
        some (Flow.cont { s with
          output := s.output ++ [Message.invalid_introducer b s.position]
          is_valid := false
          position := s.position + 1
          cursor := s.position + 1
          error_count := s.error_count + 1 }) := by
  have f1 : fread bytes s.cursor 1 = ([b], s.cursor + 1) :=
    fread_at bytes [] [b] rest s.cursor _ _ hd rfl rfl
  unfold iteration
  dsimp only
  rw [f1]
  dsimp only [List.length_singleton, List.getD_cons_zero]
  rw [if_neg (by simp), if_pos hb]

theorem validate_of_loop (bytes : List Nat) (r : State)
    (h : loop bytes (bytes.length + 1) initial_state = some r)
    (u : List AFPComponent × ComponentStack)
    (hu : print_structure_summary r.component_stack = some u) :
    validate_afp_file bytes =
      some { result := r.is_valid, state := r, unclosed := u.1, stack_after_summary := u.2 } := by
  simp [validate_afp_file, h, hu]

theorem print_structure_summary_total (stack : ComponentStack) (h : StackOK stack) :
    ∃ u, print_structure_summary stack = some u :=
  pop_all_total _ stack h (le_refl _)

/-! ## Runs of bad introducer bytes -/

theorem count_desync_messages (bad : List Nat) :
    ∀ p, count_errors ErrorKind.desync (desync_messages p bad) = bad.length := by
  induction bad with
  | nil => intro p; rfl
  | cons b bs ih =>
    intro p
    simp only [desync_messages, count_errors, List.countP_cons, List.length_cons] at ih ⊢
    rw [ih (p + 1)]
    simp [Message.kind]

theorem loop_desync_run (bytes : List Nat) (bad : List Nat) :
    ∀ (s : State) (rest : List Nat) (fuel : Nat),
      (∀ b ∈ bad, b ≠ SF_INTRODUCER) →
      bytes.drop s.cursor = bad ++ rest →
      s.cursor = s.position →
      s.error_count + bad.length ≤ 10 →
      loop bytes (fuel + bad.length) s =
        loop bytes fuel { s with
          output := s.output ++ desync_messages s.position bad
          is_valid := s.is_valid && bad.isEmpty
          position := s.position + bad.length
          cursor := s.position + bad.length
          error_count := s.error_count + bad.length } := by
  induction bad with
  | nil =>
    intro s rest fuel _ _ hc _
    congr 1
    cases s
    simp only [desync_messages, List.append_nil, List.isEmpty_nil, Bool.and_true,
      List.length_nil, Nat.add_zero] at hc ⊢
    simp [hc]
  | cons b bs ih =>
    intro s rest fuel hbad hd hc he
    simp only [List.length_cons] at he ⊢
    have hlt : s.position < bytes.length := by
      rw [← hc]
      exact drop_nonempty_lt bytes s.cursor b (bs ++ rest) (by simpa using hd)
    have hit := iteration_desync bytes (bs ++ rest) s b (by simpa using hd)
      (hbad b (by simp))
    rw [if_neg (by omega)] at hit
    rw [← Nat.add_assoc, loop, if_pos hlt, hit]
    simp only
    have hd' : bytes.drop (s.position + 1) = bs ++ rest := by
      rw [← hc, ← List.drop_drop, hd]
      simp
    rw [ih _ rest fuel (fun b' hb' => hbad b' (by simp [hb'])) hd' rfl (by simp only; omega)]
    congr 1
    simp only [desync_messages, List.append_assoc, List.singleton_append, Bool.false_and,
      List.isEmpty_cons, Bool.and_false, State.mk.injEq, true_and, and_true]
    omega

/-! ## Short reads -/

theorem fread_at_end (bytes pre mid : List Nat) (c n k : Nat)
    (h : bytes.drop c = pre ++ mid) (hn : n = c + pre.length) (hk : mid.length < k) :
    fread bytes n k = (mid, n + mid.length) := by
  subst hn
  have h2 : bytes.drop (c + pre.length) = mid := by
    rw [← List.drop_drop, h]; simp
  simp only [fread, h2]
  rw [List.take_of_length_le (by omega)]

theorem drop_total_length {α : Type} (l rest : List α) (c : Nat) (a : α)
    (h : l.drop c = a :: rest) : c + 1 + rest.length = l.length := by
  have hc := drop_nonempty_lt l c a rest h
  have := congrArg List.length h
  simp only [List.length_drop, List.length_cons] at this
  omega

theorem iteration_short_length (bytes tail : List Nat) (s : State)
    (hd : bytes.drop s.cursor = SF_INTRODUCER :: tail) (hshort : tail.length < 2) :
    iteration bytes s = some (Flow.brk { s with
      cursor := bytes.length
      output := s.output ++ [Message.failed_length (s.position + 1)]
      is_valid := false }) := by
  have hlen := drop_total_length bytes tail s.cursor SF_INTRODUCER hd
  have f1 : fread bytes s.cursor 1 = ([SF_INTRODUCER], s.cursor + 1) :=
    fread_at bytes [] [SF_INTRODUCER] tail s.cursor _ _ hd rfl rfl
  have f2 : fread bytes (s.cursor + 1) 2 = (tail, s.cursor + 1 + tail.length) :=
    fread_at_end bytes [SF_INTRODUCER] tail s.cursor _ _ hd rfl hshort
  unfold iteration
  dsimp only
  rw [f1]
  dsimp only [List.length_singleton, List.getD_cons_zero]
  rw [if_neg (by simp), if_neg (by simp), f2]
  dsimp only
  rw [if_pos (by omega), hlen]

theorem iteration_short_body (bytes rest : List Nat) (s : State) (b1 b2 : Nat)
    (hd : bytes.drop s.cursor = SF_INTRODUCER :: b1 :: b2 :: rest)
    (h1 : b1 < 256) (h2 : b2 < 256) (hL : 5 ≤ 256 * b1 + b2)
    (hfit : s.position + (256 * b1 + b2) ≤ bytes.length)
    (hshort : rest.length < 3 + 1 + (256 * b1 + b2 - 6)) :
    ∃ m, m.kind = some ErrorKind.fatal ∧
      iteration bytes s = some (Flow.brk { s with
        cursor := bytes.length
        output := s.output ++ [m]
        is_valid := false }) := by
  have hlen := drop_total_length bytes _ s.cursor SF_INTRODUCER hd
  simp only [List.length_cons] at hlen
  have f1 : fread bytes s.cursor 1 = ([SF_INTRODUCER], s.cursor + 1) :=
    fread_at bytes [] [SF_INTRODUCER] _ s.cursor _ _ hd rfl rfl
  have f2 : fread bytes (s.cursor + 1) 2 = ([b1, b2], s.cursor + 1 + 2) :=
    fread_at bytes [SF_INTRODUCER] [b1, b2] rest s.cursor _ _ hd rfl rfl
  have hdec := decode_length_bytes b1 b2 h1 h2
  have start : iteration bytes s =
      (let r := fread bytes (s.cursor + 1 + 2) 3
       if r.1.length ≠ 3 then
         some (Flow.brk { s with
           cursor := r.2
           output := s.output ++ [Message.failed_type (s.position + 3)]
           is_valid := false })
       else
         let type := (r.1.getD 0 0, r.1.getD 1 0, r.1.getD 2 0)
         let r4 := fread bytes r.2 1
         if r4.1.length ≠ 1 then
           some (Flow.brk { s with
             cursor := r4.2
             output := s.output ++ [Message.failed_flag (s.position + 6)]
             is_valid := false })
         else
           let flag := r4.1.getD 0 0
           let data_length : Int := ((256 * b1 + b2 : Nat) : Int) - 6
           if data_length > 0 then
             let r5 := fread bytes r4.2 data_length.toNat
             if r5.1.length ≠ data_length.toNat then
               some (Flow.brk { s with
                 cursor := r5.2
                 output := s.output ++ [Message.failed_data (s.position + 7)]
                 is_valid := false })
             else
               (process_field { s with cursor := r5.2 } (256 * b1 + b2) type flag
                 (some r5.1)).map Flow.cont
           else
             (process_field { s with cursor := r4.2 } (256 * b1 + b2) type flag
               none).map Flow.cont) := by
    unfold iteration
    dsimp only
    rw [f1]
    dsimp only [List.length_singleton, List.getD_cons_zero]
    rw [if_neg (by simp), if_neg (by simp), f2]
    dsimp only [List.length_cons, List.length_nil, List.getD_cons_zero, List.getD_cons_succ]
    rw [if_neg (by simp), hdec, if_neg (by omega), if_neg (by omega)]
  rw [start]
  rcases rest with _ | ⟨t0, _ | ⟨t1, _ | ⟨t2, _ | ⟨fl, pl⟩⟩⟩⟩
  · have f3 : fread bytes (s.cursor + 1 + 2) 3 = ([], s.cursor + 1 + 2 + 0) :=
      fread_at_end bytes [SF_INTRODUCER, b1, b2] [] s.cursor _ _ hd rfl (by simp)
    refine ⟨Message.failed_type (s.position + 3), rfl, ?_⟩
    simp only [f3, List.length_nil]
    rw [if_pos (by simp)]
    simp only [List.length_nil] at hlen
    rw [show s.cursor + 1 + 2 + 0 = bytes.length by omega]
  · have f3 : fread bytes (s.cursor + 1 + 2) 3 = ([t0], s.cursor + 1 + 2 + 1) :=
      fread_at_end bytes [SF_INTRODUCER, b1, b2] [t0] s.cursor _ _ hd rfl (by simp)
    refine ⟨Message.failed_type (s.position + 3), rfl, ?_⟩
    simp only [f3, List.length_singleton]
    rw [if_pos (by simp)]
    simp only [List.length_cons, List.length_nil] at hlen
    rw [show s.cursor + 1 + 2 + 1 = bytes.length by omega]
  · have f3 : fread bytes (s.cursor + 1 + 2) 3 = ([t0, t1], s.cursor + 1 + 2 + 2) :=
      fread_at_end bytes [SF_INTRODUCER, b1, b2] [t0, t1] s.cursor _ _ hd rfl (by simp)
    refine ⟨Message.failed_type (s.position + 3), rfl, ?_⟩
    simp only [f3, List.length_cons, List.length_nil]
    rw [if_pos (by simp)]
    simp only [List.length_cons, List.length_nil] at hlen
    rw [show s.cursor + 1 + 2 + 2 = bytes.length by omega]
  · have f3 : fread bytes (s.cursor + 1 + 2) 3 = ([t0, t1, t2], s.cursor + 1 + 2 + 3) :=
      fread_at bytes [SF_INTRODUCER, b1, b2] [t0, t1, t2] [] s.cursor _ _ hd rfl rfl
    have f4 : fread bytes (s.cursor + 1 + 2 + 3) 1 = ([], s.cursor + 1 + 2 + 3 + 0) :=
      fread_at_end bytes [SF_INTRODUCER, b1, b2, t0, t1, t2] [] s.cursor _ _ hd rfl (by simp)
    refine ⟨Message.failed_flag (s.position + 6), rfl, ?_⟩
    simp only [f3, f4, List.length_cons, List.length_nil]
    rw [if_neg (by simp), if_pos (by simp)]
    simp only [List.length_cons, List.length_nil] at hlen
    rw [show s.cursor + 1 + 2 + 3 + 0 = bytes.length by omega]
  · have f3 : fread bytes (s.cursor + 1 + 2) 3 = ([t0, t1, t2], s.cursor + 1 + 2 + 3) :=
      fread_at bytes [SF_INTRODUCER, b1, b2] [t0, t1, t2] (fl :: pl) s.cursor _ _ hd rfl rfl
    have f4 : fread bytes (s.cursor + 1 + 2 + 3) 1 = ([fl], s.cursor + 1 + 2 + 3 + 1) :=
      fread_at bytes [SF_INTRODUCER, b1, b2, t0, t1, t2] [fl] pl s.cursor _ _ hd rfl rfl
    simp only [List.length_cons] at hshort hlen
    have hdl : (((256 * b1 + b2 : Nat) : Int) - 6).toNat = 256 * b1 + b2 - 6 := by omega
    have f5 : fread bytes (s.cursor + 1 + 2 + 3 + 1) (256 * b1 + b2 - 6) =
        (pl, s.cursor + 1 + 2 + 3 + 1 + pl.length) :=
      fread_at_end bytes [SF_INTRODUCER, b1, b2, t0, t1, t2, fl] pl s.cursor _ _ hd rfl
        (by omega)
    refine ⟨Message.failed_data (s.position + 7), rfl, ?_⟩
    simp only [f3, f4, List.length_cons, List.length_nil]
    rw [if_neg (by simp), if_neg (by simp), if_pos (by omega), hdl]
    simp only [f5]
    rw [if_pos (by omega)]
    rw [show s.cursor + 1 + 2 + 3 + 1 + pl.length = bytes.length by omega]

/-! ## The two document flags -/

theorem check_begin_end_flags (s s' : State) (type : Nat × Nat × Nat)
    (h : check_begin_end s type = some s') :
    s'.has_begin_document = (s.has_begin_document || decide (type = BDT)) ∧
    s'.has_end_document = (s.has_end_document || decide (type = EDT)) := by
  obtain ⟨t0, t1, t2⟩ := type
  unfold check_begin_end at h
  simp only [BDT, EDT, Prod.mk.injEq]
  split_ifs at h with c1 c2 c3 c4 c5 c6 c7 c8 c9 c10 c11 c12 c13 c14 c15
  · obtain ⟨b, stk, -, rfl⟩ := begin_component_eq _ _ _ h
    simp only at c1 c2 c3
    simp [c1, c2, c3]
  · obtain ⟨b, stk, -, rfl⟩ := begin_component_eq _ _ _ h
    simp only at c1 c2 c3
    simp [c1, c2, c3]
  · obtain ⟨s1, h1, rfl⟩ := Option.map_eq_some'.mp h
    obtain ⟨b, stk, -, rfl⟩ := begin_component_eq _ _ _ h1
    simp only at c1 c2 c3
    simp [c1, c2, c3]
  · obtain ⟨s1, h1, rfl⟩ := Option.map_eq_some'.mp h
    obtain ⟨b, stk, -, rfl⟩ := begin_component_eq _ _ _ h1
    simp only at c1 c2 c3
    simp [c1, c2, c3]
  · obtain ⟨b, stk, -, rfl⟩ := begin_component_eq _ _ _ h
    simp only at c1 c2 c3
    simp [c1, c2, c3]
  · obtain ⟨b, stk, -, rfl⟩ := begin_component_eq _ _ _ h
    simp only at c1 c2 c3
    simp [c1, c2, c3]
  · cases h
    simp only at c1 c2 c3
    simp [c1, c2, c3]
  · obtain ⟨p, stk, -, hc⟩ := end_component_eq _ _ _ h
    simp only at c1 c2 c9 c10
    rcases hc with ⟨-, rfl⟩ | ⟨-, rfl⟩ <;> simp [c1, c9, c10]
  · obtain ⟨p, stk, -, hc⟩ := end_component_eq _ _ _ h
    simp only at c1 c2 c9 c10
    rcases hc with ⟨-, rfl⟩ | ⟨-, rfl⟩ <;> simp [c1, c9, c10]
  · obtain ⟨p, stk, -, hc⟩ := end_component_eq _ _ _ h
    simp only at c1 c2 c9 c10
    rcases hc with ⟨-, rfl⟩ | ⟨-, rfl⟩ <;> simp [c1, c9, c10]
  · obtain ⟨p, stk, -, hc⟩ := end_component_eq _ _ _ h
    simp only at c1 c2 c9 c10
    rcases hc with ⟨-, rfl⟩ | ⟨-, rfl⟩ <;> simp [c1, c9, c10]
  · obtain ⟨p, stk, -, hc⟩ := end_component_eq _ _ _ h
    simp only at c1 c2 c9 c10
    rcases hc with ⟨-, rfl⟩ | ⟨-, rfl⟩ <;> simp [c1, c9, c10]
  · obtain ⟨p, stk, -, hc⟩ := end_component_eq _ _ _ h
    simp only at c1 c2 c9 c10
    rcases hc with ⟨-, rfl⟩ | ⟨-, rfl⟩ <;> simp [c1, c9, c10]
  · cases h
    simp only at c1 c2 c9 c10
    simp [c1, c9, c10]
  · cases h
    simp only at c1 c2 c9
    simp [c1, c2, c9]
  · cases h
    simp only at c1
    simp [c1]

theorem identify_field_type_stages (field : StructuredField) :
    identify_field_type field =
      name_stage field.type (bracket_stage field.type
        { field with component := COMPONENT_UNKNOWN, obj_type := OBJ_UNKNOWN }) := rfl

theorem ite_elim {α : Type} (P : α → Prop) (c : Prop) [Decidable c] (a b : α)
    (ha : P a) (hb : P b) : P (if c then a else b) := by
  split <;> assumption

/-- Whatever the type code, `bracket_stage` returns the field as it is or with
another `component`: the arms that would set `obj_type` are never reached. -/
theorem bracket_stage_ind (P : StructuredField → Prop) (type : Nat × Nat × Nat)
    (field : StructuredField) (h0 : P field) (hc : ∀ c, P { field with component := c }) :
    P (bracket_stage type field) := by
  unfold bracket_stage
  by_cases h : type.1 = 0xD3
  · rw [if_pos h]
    repeat (first | exact h0 | exact hc _ | apply ite_elim P)
  · rw [if_neg h, if_neg h, if_neg (fun hc => h hc.1), if_neg (fun hc => h hc.1)]
    exact h0

theorem bracket_stage_eq (type : Nat × Nat × Nat) (field : StructuredField) :
    ∃ c, bracket_stage type field = { field with component := c } :=
  bracket_stage_ind (fun x => ∃ c, x = { field with component := c }) type field
    ⟨field.component, rfl⟩ (fun c => ⟨c, rfl⟩)

theorem name_stage_eq (type : Nat × Nat × Nat) (field : StructuredField) :
    ∃ c n, name_stage type field = { field with component := c, name := n } := by
  unfold name_stage
  by_cases h : type.1 = 0xD3 ∧ type.2.1 = 0xA6 ∧ type.2.2 = 0x89
  · rw [if_pos h]
    dsimp only
    cases field.data with
    | none => exact ⟨_, field.name, rfl⟩
    | some data =>
      dsimp only
      split_ifs
      · exact ⟨_, _, rfl⟩
      · exact ⟨_, field.name, rfl⟩
  · rw [if_neg h]
    exact ⟨field.component, field.name, rfl⟩

theorem identify_field_type_eq (field : StructuredField) :
    ∃ c n, identify_field_type field =
      { field with component := c, obj_type := OBJ_UNKNOWN, name := n } := by
  obtain ⟨c1, h1⟩ := bracket_stage_eq field.type
    { field with component := COMPONENT_UNKNOWN, obj_type := OBJ_UNKNOWN }
  obtain ⟨c2, n, h2⟩ := name_stage_eq field.type (bracket_stage field.type
    { field with component := COMPONENT_UNKNOWN, obj_type := OBJ_UNKNOWN })
  rw [identify_field_type_stages, h2, h1]
  exact ⟨c2, n, rfl⟩

theorem identify_field_type_type (field : StructuredField) :
    (identify_field_type field).type = field.type := by
  obtain ⟨c, n, h⟩ := identify_field_type_eq field
  rw [h]

theorem process_field_flags (s s' : State) (length : Nat) (type : Nat × Nat × Nat)
    (flag : Nat) (data : Option (List Nat))
    (h : process_field s length type flag data = some s') :
    s'.has_begin_document = (s.has_begin_document || decide (type = BDT)) ∧
    s'.has_end_document = (s.has_end_document || decide (type = EDT)) ∧
    s'.fields = s.fields ++ [identify_field_type
      { length := length, type := type, flags := flag, data := data,
        component := COMPONENT_UNKNOWN, obj_type := OBJ_UNKNOWN,
        name := List.replicate 9 (some 0) }] := by
  unfold process_field at h
  split at h
  · cases h
  · next s1 h1 =>
    obtain ⟨f1, f2⟩ := check_begin_end_flags s s1 type h1
    have hn := check_begin_end_nesting s s1 type h1
    cases h
    refine ⟨?_, ?_, ?_⟩
    · split_ifs <;> exact f1
    · split_ifs <;> exact f2
    · split_ifs <;> simp [hn.2.2.2.2.1]

/-! ## Streams of records with open components left -/

theorem check_begin_end_other (s : State) (type : Nat × Nat × Nat)
    (hb : ¬ (type.1 = 0xD3 ∧ type.2.1 = 0xA8 ∧ type.2.2 ∈ bracket_codes))
    (he : ¬ (type.1 = 0xD3 ∧ type.2.1 = 0xA9 ∧ type.2.2 ∈ bracket_codes)) :
    check_begin_end s type = some s := by
  simp only [bracket_codes, List.mem_cons, List.mem_singleton, List.not_mem_nil, or_false,
    not_and, not_or] at hb he
  unfold check_begin_end
  by_cases c1 : type.1 = 0xD3
  · rw [if_pos c1]
    by_cases c2 : type.2.1 = 0xA8
    · obtain ⟨n1, n2, n3, n4, n5, n6⟩ := hb c1 c2
      rw [if_pos c2, if_neg n1, if_neg n2, if_neg n3, if_neg n4, if_neg n5, if_neg n6]
    · rw [if_neg c2]
      by_cases c9 : type.2.1 = 0xA9
      · obtain ⟨n1, n2, n3, n4, n5, n6⟩ := he c1 c9
        rw [if_pos c9, if_neg n1, if_neg n2, if_neg n3, if_neg n4, if_neg n5, if_neg n6]
      · rw [if_neg c9]
  · rw [if_neg c1]

theorem loop_nested (bytes : List Nat) (rs : List Record) :
    ∀ (open_codes final : List Nat) (s : State) (fuel : Nat),
      (∀ r ∈ rs, r.length < 65536) →
      open_after open_codes rs = some final →
      bytes.drop s.cursor = stream rs →
      s.position ≤ s.cursor →
      Holds s.component_stack (open_codes.map bracket_component).reverse →
      rs.length < fuel →
      ∃ r, loop bytes fuel s = some r ∧ r.is_valid = s.is_valid ∧
        r.error_count = s.error_count ∧ r.field_count = s.field_count + rs.length ∧
        Holds r.component_stack (final.map bracket_component).reverse ∧
        r.output = s.output ∧
        r.has_begin_document =
          (s.has_begin_document || rs.any (fun x => decide (x.type = BDT))) ∧
        r.has_end_document =
          (s.has_end_document || rs.any (fun x => decide (x.type = EDT))) := by
  induction rs with
  | nil =>
    intro oc final s fuel _ hn hd hpc hh hf
    simp only [open_after, Option.some.injEq] at hn
    subst hn
    have hlen : bytes.length ≤ s.cursor := by
      simpa [stream] using hd
    obtain ⟨n, rfl⟩ : ∃ n, fuel = n + 1 := ⟨fuel - 1, by omega⟩
    unfold loop
    split_ifs
    · rw [iteration_at_eof bytes s hlen]
      exact ⟨s, rfl, rfl, rfl, by simp, hh, rfl, by simp, by simp⟩
    · exact ⟨s, rfl, rfl, rfl, by simp, hh, rfl, by simp, by simp⟩
  | cons r rs ih =>
    intro oc final s fuel hwf hn hd hpc hh hf
    rw [stream_cons] at hd
    have hrl := record_bytes_length r
    have hge := drop_length_ge bytes r.bytes (stream rs) s.cursor SF_INTRODUCER _ rfl hd
    obtain ⟨n, rfl⟩ : ∃ n, fuel = n + 1 := ⟨fuel - 1, by omega⟩
    have hfit : s.position + r.length ≤ bytes.length := by omega
    have hit := iteration_at_record bytes (stream rs) s r hd (hwf r (by simp)) hfit
    have hdrop : bytes.drop (s.cursor + r.length + 1) = stream rs := by
      rw [show s.cursor + r.length + 1 = s.cursor + r.bytes.length by omega, ← List.drop_drop, hd]
      simp
    have hpos : s.position < bytes.length := by omega
    have hwf' : ∀ r' ∈ rs, r'.length < 65536 := fun r' hr => hwf r' (by simp [hr])
    simp only [List.length_cons] at hf
    unfold open_after at hn
    rw [loop, if_pos hpos, hit]
    -- what remains once the Begin/End dispatch on `r` is known
    have finish : ∀ (oc' : List Nat) (s2 : State),
        check_begin_end { s with cursor := s.cursor + r.length + 1 } r.type = some s2 →
        Holds s2.component_stack (oc'.map bracket_component).reverse →
        s2.is_valid = s.is_valid → s2.output = s.output →
        open_after oc' rs = some final →
        ∃ res, Option.map Flow.cont (process_field { s with cursor := s.cursor + r.length + 1 }
            r.length r.type r.flag r.data) = some (Flow.cont res) ∧
          ∃ r', loop bytes n res = some r' ∧ r'.is_valid = s.is_valid ∧
            r'.error_count = s.error_count ∧
            r'.field_count = s.field_count + (rs.length + 1) ∧
            Holds r'.component_stack (final.map bracket_component).reverse ∧
            r'.output = s.output ∧
            r'.has_begin_document =
              (s.has_begin_document || (r :: rs).any (fun x => decide (x.type = BDT))) ∧
            r'.has_end_document =
              (s.has_end_document || (r :: rs).any (fun x => decide (x.type = EDT))) := by
      intro oc' s2 hc2 hh2 hv2 ho2 hn'
      obtain ⟨s3, hp3, e1, e2, e3, -⟩ :=
        process_field_of_check _ s2 r.length r.type r.flag r.data hc2
      have sp := process_field_spec _ _ _ _ _ _ hp3
      obtain ⟨fb, fe, -⟩ := process_field_flags _ _ _ _ _ _ hp3
      obtain ⟨res, hres, r1, r2, r3, r4, r5, r6, r7⟩ := ih oc' final s3 n hwf' hn'
        (by rw [sp.1]; exact hdrop) (by rw [sp.1, sp.2.1]; simp only; omega)
        (by rw [e1]; exact hh2) (by omega)
      refine ⟨s3, by rw [hp3]; rfl, res, hres, ?_, ?_, ?_, r4, ?_, ?_, ?_⟩
      · rw [r1, e2, hv2]
      · rw [r2, sp.2.2.1]
      · rw [r3, sp.2.2.2.1]; simp only; omega
      · rw [r5, e3, ho2]
      · rw [r6, fb]; simp only [List.any_cons, Bool.or_assoc]
      · rw [r7, fe]; simp only [List.any_cons, Bool.or_assoc]
    have close : ∀ res : State,
        (Option.map Flow.cont (process_field { s with cursor := s.cursor + r.length + 1 }
            r.length r.type r.flag r.data) = some (Flow.cont res) ∧
          ∃ r', loop bytes n res = some r' ∧ r'.is_valid = s.is_valid ∧
            r'.error_count = s.error_count ∧
            r'.field_count = s.field_count + (rs.length + 1) ∧
            Holds r'.component_stack (final.map bracket_component).reverse ∧
            r'.output = s.output ∧
            r'.has_begin_document =
              (s.has_begin_document || (r :: rs).any (fun x => decide (x.type = BDT))) ∧
            r'.has_end_document =
              (s.has_end_document || (r :: rs).any (fun x => decide (x.type = EDT)))) →
        ∃ r', (match Option.map Flow.cont (process_field
              { s with cursor := s.cursor + r.length + 1 } r.length r.type r.flag r.data) with
            | some (Flow.cont s') => loop bytes n s'
            | some (Flow.brk s') => some s'
            | none => none) = some r' ∧ r'.is_valid = s.is_valid ∧
          r'.error_count = s.error_count ∧
          r'.field_count = s.field_count + (rs.length + 1) ∧
          Holds r'.component_stack (final.map bracket_component).reverse ∧
          r'.output = s.output ∧
          r'.has_begin_document =
            (s.has_begin_document || (r :: rs).any (fun x => decide (x.type = BDT))) ∧
          r'.has_end_document =
            (s.has_end_document || (r :: rs).any (fun x => decide (x.type = EDT))) := by
      rintro res ⟨h1, r', h2, h3⟩
      rw [h1]
      exact ⟨r', h2, h3⟩
    by_cases hb : r.is_begin
    · rw [if_pos hb] at hn
      by_cases hdepth : oc.length < 100
      · rw [if_pos hdepth] at hn
        have hty : r.type = (0xD3, 0xA8, r.type.2.2) := by
          obtain ⟨h1, h2, -⟩ := hb
          ext <;> simp [h1, h2]
        obtain ⟨s2, hc2, hh2, hv2, ho2⟩ := check_begin_end_begin
          { s with cursor := s.cursor + r.length + 1 } r.type.2.2 _ hb.2.2 hh
          (by simp [MAX_STACK_SIZE]; omega)
        rw [← hty] at hc2
        obtain ⟨res, hres⟩ := finish (r.type.2.2 :: oc) s2 hc2 (by simpa using hh2) hv2 ho2 hn
        exact close res hres
      · rw [if_neg hdepth] at hn
        cases hn
    · rw [if_neg hb] at hn
      by_cases he : r.is_end
      · rw [if_pos he] at hn
        cases oc with
        | nil => simp at hn
        | cons x rest =>
          simp only at hn
          by_cases hx : x = r.type.2.2
          · rw [if_pos hx] at hn
            subst hx
            have hty : r.type = (0xD3, 0xA9, r.type.2.2) := by
              obtain ⟨h1, h2, -⟩ := he
              ext <;> simp [h1, h2]
            obtain ⟨stk, hpop, hh', -⟩ := stack_pop_holds s.component_stack
              (bracket_component r.type.2.2) (rest.map bracket_component).reverse
              (by simpa using hh)
            obtain ⟨s2, hc2, hs2, hv2, ho2⟩ := check_begin_end_end
              { s with cursor := s.cursor + r.length + 1 } r.type.2.2 _ stk he.2.2 hpop
            rw [← hty] at hc2
            obtain ⟨res, hres⟩ := finish rest s2 hc2 (by rw [hs2]; exact hh')
              (by rw [hv2]; simp) (by rw [ho2]; simp) hn
            exact close res hres
          · rw [if_neg hx] at hn
            cases hn
      · rw [if_neg he] at hn
        have hc2 := check_begin_end_other { s with cursor := s.cursor + r.length + 1 } r.type
          hb he
        obtain ⟨res, hres⟩ := finish oc _ hc2 hh rfl rfl hn
        exact close res hres

theorem pop_all_holds (l : List AFPComponent) :
    ∀ (stack : ComponentStack) (fuel : Nat), Holds stack l → l.length ≤ fuel →
      pop_all fuel stack = some (l.reverse, { stack with top := -1 }) := by
  induction l using List.reverseRecOn with
  | nil =>
    intro stack fuel h _
    obtain ⟨-, h2, -, -⟩ := h
    simp only [List.length_nil, Nat.cast_zero] at h2
    have htop : stack.top = -1 := by omega
    have hst : ({ stack with top := -1 } : ComponentStack) = stack := by
      cases stack; simp only at htop; subst htop; rfl
    rw [hst]
    cases fuel <;> simp [pop_all, stack_empty, htop]
  | append_singleton l c ih =>
    intro stack fuel h hf
    simp only [List.length_append, List.length_singleton] at hf
    obtain ⟨n, rfl⟩ : ∃ n, fuel = n + 1 := ⟨fuel - 1, by omega⟩
    have hne : ¬ stack.top < 0 := by
      obtain ⟨-, h2, -, -⟩ := h
      simp only [List.length_append, List.length_singleton] at h2
      push_cast at h2
      omega
    obtain ⟨stack', hpop, hh', hs'⟩ := stack_pop_holds stack c l h
    unfold pop_all
    rw [if_neg (by simp [stack_empty, hne]), hpop]
    simp only
    rw [ih stack' n hh' (by omega), hs']
    simp

theorem print_structure_summary_holds (stack : ComponentStack) (l : List AFPComponent)
    (h : Holds stack l) :
    print_structure_summary stack = some (l.reverse, { stack with top := -1 }) := by
  have htop : (stack.top + 1).toNat = l.length := by
    obtain ⟨-, h2, -, -⟩ := h
    omega
  unfold print_structure_summary
  rw [htop]
  exact pop_all_holds l stack l.length h (le_refl _)

/-- The run on a stream of well-framed records whose End records each close
the innermost open component: no error, every record framed, and the unclosed
list is the list of the components left open, innermost first. -/
theorem validate_nested (rs : List Record) (final : List Nat)
    (hwf : ∀ r ∈ rs, r.length < 65536) (hn : open_after [] rs = some final) :
    ∃ rep, validate_afp_file (stream rs) = some rep ∧ rep.result = true ∧
      rep.state.is_valid = true ∧ rep.state.error_count = 0 ∧
      rep.state.field_count = rs.length ∧ rep.state.output = [] ∧
      Holds rep.state.component_stack (final.map bracket_component).reverse ∧
      rep.unclosed = final.map bracket_component ∧
      rep.stack_after_summary = { rep.state.component_stack with top := -1 } ∧
      rep.state.has_begin_document = rs.any (fun x => decide (x.type = BDT)) ∧
      rep.state.has_end_document = rs.any (fun x => decide (x.type = EDT)) := by
  obtain ⟨r, hr, h1, h2, h3, h4, h5, h6, h7⟩ := loop_nested (stream rs) rs [] final
    initial_state (rs.length + 1) hwf hn (by simp [initial_state]) (by simp [initial_state])
    (by simpa using holds_initial) (by omega)
  have hr' : loop (stream rs) ((stream rs).length + 1) initial_state = some r := by
    have := loop_fuel_mono (stream rs) (rs.length + 1) initial_state r
      ((stream rs).length - rs.length) hr
    rwa [show rs.length + 1 + ((stream rs).length - rs.length) = (stream rs).length + 1 by
      have := stream_length_ge rs; omega] at this
  have hu := print_structure_summary_holds _ _ h4
  refine ⟨_, validate_of_loop _ r hr' _ hu, ?_, ?_, ?_, ?_, ?_, h4, ?_, rfl, ?_, ?_⟩
  · simp [h1, initial_state]
  · simp [h1, initial_state]
  · simp [h2, initial_state]
  · simp [h3, initial_state]
  · simp [h5, initial_state]
  · simp
  · simp [h6, initial_state]
  · simp [h7, initial_state]

theorem open_after_all_begin (rs : List Record) :
    ∀ open_codes : List Nat, (∀ r ∈ rs, r.is_begin) → open_codes.length + rs.length ≤ 100 →
      open_after open_codes rs = some ((rs.map (fun r => r.type.2.2)).reverse ++ open_codes) := by
  induction rs with
  | nil => intro oc _ _; simp [open_after]
  | cons r rs ih =>
    intro oc hb hl
    simp only [List.length_cons] at hl
    unfold open_after
    rw [if_pos (hb r (by simp)), if_pos (by omega),
      ih (r.type.2.2 :: oc) (fun r' hr' => hb r' (by simp [hr'])) (by simp only [List.length_cons]; omega)]
    simp

theorem open_after_keeps_document (rs : List Record) :
    ∀ open_codes final : List Nat, open_after open_codes rs = some final →
      (∀ r ∈ rs, r.type ≠ EDT) → (0xA8 ∈ open_codes ∨ ∃ r ∈ rs, r.type = BDT) →
      0xA8 ∈ final := by
  induction rs with
  | nil =>
    intro oc final hn _ h
    simp only [open_after, Option.some.injEq] at hn
    subst hn
    rcases h with h | ⟨r, hr, -⟩
    · exact h
    · cases hr
  | cons r rs ih =>
    intro oc final hn hne h
    have hne' : ∀ r' ∈ rs, r'.type ≠ EDT := fun r' hr' => hne r' (by simp [hr'])
    unfold open_after at hn
    by_cases hb : r.is_begin
    · rw [if_pos hb] at hn
      by_cases hdepth : oc.length < 100
      · rw [if_pos hdepth] at hn
        refine ih _ final hn hne' ?_
        rcases h with h | ⟨r', hr', hty⟩
        · exact Or.inl (by simp [h])
        · rcases List.mem_cons.mp hr' with rfl | hr'
          · left
            rw [hty]
            simp [BDT]
          · exact Or.inr ⟨r', hr', hty⟩
      · rw [if_neg hdepth] at hn
        cases hn
    · rw [if_neg hb] at hn
      have hnotb : r.type ≠ BDT := by
        intro hty
        apply hb
        simp [Record.is_begin, hty, BDT, bracket_codes]
      have h' : 0xA8 ∈ oc ∨ ∃ r' ∈ rs, r'.type = BDT := by
        rcases h with h | ⟨r', hr', hty⟩
        · exact Or.inl h
        · rcases List.mem_cons.mp hr' with rfl | hr'
          · exact absurd hty hnotb
          · exact Or.inr ⟨r', hr', hty⟩
      by_cases he : r.is_end
      · rw [if_pos he] at hn
        cases oc with
        | nil => simp at hn
        | cons x rest =>
          simp only at hn
          by_cases hx : x = r.type.2.2
          · rw [if_pos hx] at hn
            refine ih _ final hn hne' ?_
            rcases h' with h' | h'
            · rcases List.mem_cons.mp h' with h'' | h''
              · exfalso
                apply hne r (by simp)
                obtain ⟨e1, e2, -⟩ := he
                have e3 : r.type.2.2 = 0xA8 := by rw [← hx, ← h'']
                ext <;> simp [EDT, e1, e2, e3]
              · exact Or.inl h''
            · exact Or.inr h'
          · rw [if_neg hx] at hn
            cases hn
      · rw [if_neg he] at hn
        exact ih _ final hn hne' h'

/-! ## The name of a naming field -/

theorem strlen_map_some (l : List Nat) (rest : List (Option Nat)) :
    strlen (l.map some ++ some 0 :: rest) =
      some (l.takeWhile (fun b => decide (b ≠ 0))).length := by
  induction l with
  | nil => simp [strlen]
  | cons b bs ih =>
    by_cases hb : b = 0
    · simp [strlen, hb]
    · simp [strlen, hb, ih, List.takeWhile_cons]

theorem print_map_some (l : List Nat) (rest : List (Option Nat)) :
    print_ebcdic_string (l.map some ++ rest) (l.takeWhile (fun b => decide (b ≠ 0))).length =
      some ((l.takeWhile (fun b => decide (b ≠ 0))).map ebcdic_to_ascii) := by
  induction l with
  | nil => simp [print_ebcdic_string]
  | cons b bs ih =>
    by_cases hb : b = 0
    · simp [print_ebcdic_string, hb]
    · have htw : List.takeWhile (fun b => decide (b ≠ 0)) (b :: bs) =
          b :: List.takeWhile (fun b => decide (b ≠ 0)) bs := by
        simp [List.takeWhile_cons, hb]
      rw [htw]
      simp only [List.map_cons, List.cons_append, List.length_cons, print_ebcdic_string]
      have ih' : print_ebcdic_string ((List.map some bs).append rest)
          (List.takeWhile (fun b => decide (b ≠ 0)) bs).length =
          some (List.map ebcdic_to_ascii (List.takeWhile (fun b => decide (b ≠ 0)) bs)) := ih
      rw [ih']
      rfl

theorem copy_name_of_length (payload : List Nat) (h : 10 ≤ payload.length) :
    copy_name payload = ((payload.drop 2).take 8).map some ++ [some 0] := by
  rcases payload with _ | ⟨p0, _ | ⟨p1, _ | ⟨p2, _ | ⟨p3, _ | ⟨p4, _ | ⟨p5, _ | ⟨p6, _ |
    ⟨p7, _ | ⟨p8, _ | ⟨p9, rest⟩⟩⟩⟩⟩⟩⟩⟩⟩⟩ <;> simp at h
  rfl

/-! ## Classification as a function of the type code -/

theorem bracket_stage_not_d3 (type : Nat × Nat × Nat) (field : StructuredField)
    (h : type.1 ≠ 0xD3) : bracket_stage type field = field := by
  unfold bracket_stage
  rw [if_neg h, if_neg h, if_neg (fun hc => h hc.1), if_neg (fun hc => h hc.1)]

theorem name_stage_not_d3 (type : Nat × Nat × Nat) (field : StructuredField)
    (h : type.1 ≠ 0xD3) : name_stage type field = field := by
  unfold name_stage
  rw [if_neg (fun hc => h hc.1)]

theorem ite_rel {α : Type} (R : α → α → Prop) (c : Prop) [Decidable c] (a b a' b' : α)
    (ha : R a a') (hb : R b b') : R (if c then a else b) (if c then a' else b') := by
  split <;> assumption

/-- The component `bracket_stage` leaves depends on the type code and on the
component it was given, on nothing else of the field. -/
theorem bracket_stage_component (type : Nat × Nat × Nat) (f g : StructuredField)
    (h : f.component = g.component) :
    (bracket_stage type f).component = (bracket_stage type g).component := by
  unfold bracket_stage
  by_cases h0 : type.1 = 0xD3
  · rw [if_pos h0, if_pos h0]
    by_cases h1 : type.2.1 = 0xA8
    · rw [if_pos h1, if_pos h1]
      repeat (first
        | exact h
        | exact rfl
        | apply ite_rel (fun x y : StructuredField => x.component = y.component))
    · rw [if_neg h1, if_neg h1]
      exact h
  · rw [if_neg h0, if_neg h0, if_neg (fun hc => h0 hc.1), if_neg (fun hc => h0 hc.1),
      if_neg h0, if_neg h0, if_neg (fun hc => h0 hc.1), if_neg (fun hc => h0 hc.1)]
    exact h

/-- The component `name_stage` leaves depends on the type code and on the
component it was given. -/
theorem name_stage_component (type : Nat × Nat × Nat) (f g : StructuredField)
    (h : f.component = g.component) :
    (name_stage type f).component = (name_stage type g).component := by
  unfold name_stage
  by_cases h0 : type.1 = 0xD3 ∧ type.2.1 = 0xA6 ∧ type.2.2 = 0x89
  · rw [if_pos h0, if_pos h0]
    dsimp only
    cases f.data <;> cases g.data <;> dsimp only <;> split_ifs <;> rfl
  · rw [if_neg h0, if_neg h0]
    exact h

/-- The name `name_stage` leaves is the copy of the payload or the name it was
given, and which of the two is settled by type code, length and payload. -/
theorem name_stage_name (type : Nat × Nat × Nat) (f : StructuredField) :
    (name_stage type f).name =
      if type.1 = 0xD3 ∧ type.2.1 = 0xA6 ∧ type.2.2 = 0x89 ∧ f.length > 9 then
        match f.data with
        | some data => copy_name data
        | none => f.name
      else f.name := by
  unfold name_stage
  by_cases h0 : type.1 = 0xD3 ∧ type.2.1 = 0xA6 ∧ type.2.2 = 0x89
  · rw [if_pos h0]
    dsimp only
    cases hd : f.data with
    | none => simp
    | some data =>
      dsimp only
      by_cases hl : f.length > 9
      · rw [if_pos hl, if_pos ⟨h0.1, h0.2.1, h0.2.2, hl⟩]
      · rw [if_neg hl, if_neg (fun hc => hl hc.2.2.2)]
  · rw [if_neg h0, if_neg (fun hc => h0 ⟨hc.1, hc.2.1, hc.2.2.1⟩)]

theorem identify_field_type_name (f : StructuredField) :
    (identify_field_type f).name =
      if f.type.1 = 0xD3 ∧ f.type.2.1 = 0xA6 ∧ f.type.2.2 = 0x89 ∧ f.length > 9 then
        match f.data with
        | some data => copy_name data
        | none => f.name
      else f.name := by
  obtain ⟨c, h⟩ := bracket_stage_eq f.type
    { f with component := COMPONENT_UNKNOWN, obj_type := OBJ_UNKNOWN }
  rw [identify_field_type_stages, name_stage_name, h]

theorem identify_field_type_component (f g : StructuredField) (h : f.type = g.type) :
    (identify_field_type f).component = (identify_field_type g).component := by
  rw [identify_field_type_stages, identify_field_type_stages, h]
  exact name_stage_component _ _ _ (bracket_stage_component _ _ _ rfl)

theorem identify_field_type_obj_type (f : StructuredField) :
    (identify_field_type f).obj_type = OBJ_UNKNOWN := by
  obtain ⟨c, n, h⟩ := identify_field_type_eq f
  rw [h]

theorem identify_field_type_rest (f : StructuredField) :
    (identify_field_type f).length = f.length ∧ (identify_field_type f).type = f.type ∧
    (identify_field_type f).flags = f.flags ∧ (identify_field_type f).data = f.data := by
  obtain ⟨c, n, h⟩ := identify_field_type_eq f
  rw [h]
  exact ⟨rfl, rfl, rfl, rfl⟩

theorem structured_field_ext (f g : StructuredField) (h1 : f.length = g.length)
    (h2 : f.type = g.type) (h3 : f.flags = g.flags) (h4 : f.data = g.data)
    (h5 : f.component = g.component) (h6 : f.obj_type = g.obj_type)
    (h7 : f.name = g.name) : f = g := by
  cases f
  cases g
  simp only at h1 h2 h3 h4 h5 h6 h7
  subst h1 h2 h3 h4 h5 h6 h7
  rfl

theorem identify_field_type_idem (f : StructuredField) :
    identify_field_type (identify_field_type f) = identify_field_type f := by
  obtain ⟨r1, r2, r3, r4⟩ := identify_field_type_rest f
  obtain ⟨q1, q2, q3, q4⟩ := identify_field_type_rest (identify_field_type f)
  apply structured_field_ext
  · exact q1
  · exact q2
  · exact q3
  · exact q4
  · exact identify_field_type_component _ _ r2
  · rw [identify_field_type_obj_type, identify_field_type_obj_type]
  · rw [identify_field_type_name (identify_field_type f), r1, r2, r4]
    rw [identify_field_type_name f]
    by_cases hc : f.type.1 = 0xD3 ∧ f.type.2.1 = 0xA6 ∧ f.type.2.2 = 0x89 ∧ f.length > 9
    · simp only [if_pos hc]
      cases f.data <;> simp only [if_pos hc]
    · simp only [if_neg hc]

/-! ## The character table -/

theorem mem_mapped_bytes (e : Nat) :
    e ∈ mapped_bytes ↔
      (e ≥ 0xC1 ∧ e ≤ 0xC9) ∨ (e ≥ 0xD1 ∧ e ≤ 0xD9) ∨ (e ≥ 0xE2 ∧ e ≤ 0xE9) ∨
        (e ≥ 0xF0 ∧ e ≤ 0xF9) := by
  unfold mapped_bytes
  simp only [List.mem_append, List.mem_range'_1]
  omega

theorem ebcdic_to_ascii_unmapped (e : Nat) (h : e ∉ mapped_bytes) :
    ebcdic_to_ascii e = '.' := by
  rw [mem_mapped_bytes] at h
  unfold ebcdic_to_ascii
  rw [if_neg (fun hc => h (Or.inl hc)), if_neg (fun hc => h (Or.inr (Or.inl hc))),
    if_neg (fun hc => h (Or.inr (Or.inr (Or.inl hc)))),
    if_neg (fun hc => h (Or.inr (Or.inr (Or.inr hc))))]

theorem ebcdic_to_ascii_mapped :
    mapped_bytes.map ebcdic_to_ascii = letters_and_digits := by
  decide

/-! ## Sequences of stack calls -/

theorem stack_peek_total (stack : ComponentStack) (h : StackOK stack) :
    ∃ c, stack_peek stack = some c := by
  obtain ⟨h1, h2, h3⟩ := h
  simp only [MAX_STACK_SIZE] at h1 h3
  unfold stack_peek array_read
  by_cases hneg : stack.top < 0
  · rw [if_pos hneg]
    exact ⟨_, rfl⟩
  · rw [if_neg hneg, if_pos (by omega)]
    have hlt : stack.top.toNat < stack.components.length := by omega
    rw [List.get?_eq_get hlt]
    exact ⟨_, rfl⟩

theorem stack_call_total (stack : ComponentStack) (call : StackCall) (h : StackOK stack) :
    ∃ stack', call.run stack = some stack' ∧ StackOK stack' := by
  cases call with
  | push c =>
    obtain ⟨b, s1, hp, hok⟩ := stack_push_total stack c h
    exact ⟨s1, by simp [StackCall.run, hp], hok⟩
  | pop =>
    obtain ⟨c, s1, hp, hok⟩ := stack_pop_total stack h
    exact ⟨s1, by simp [StackCall.run, hp], hok⟩
  | peek =>
    obtain ⟨c, hp⟩ := stack_peek_total stack h
    exact ⟨stack, by simp [StackCall.run, hp], h⟩
  | empty => exact ⟨stack, rfl, h⟩

theorem run_calls_total (calls : List StackCall) :
    ∀ stack, StackOK stack → ∃ stack', run_calls stack calls = some stack' ∧ StackOK stack' := by
  induction calls with
  | nil => exact fun stack h => ⟨stack, rfl, h⟩
  | cons call rest ih =>
    intro stack h
    obtain ⟨s1, h1, hok1⟩ := stack_call_total stack call h
    obtain ⟨s2, h2, hok2⟩ := ih s1 hok1
    exact ⟨s2, by simp [run_calls, h1, h2], hok2⟩

theorem stack_push_false_iff (stack : ComponentStack) (c : AFPComponent)
    (h : StackOK stack) :
    ((∃ s1, stack_push stack c = some (false, s1)) ↔ stack.top + 1 = 100) ∧
    (∀ b s1, stack_push stack c = some (b, s1) → b = false → s1 = stack) := by
  obtain ⟨h1, h2, h3⟩ := h
  simp only [MAX_STACK_SIZE] at h1 h3
  unfold stack_push array_write
  simp only [MAX_STACK_SIZE]
  by_cases hfull : stack.top ≥ ((100 : Nat) : Int) - 1
  · rw [if_pos hfull]
    refine ⟨⟨fun _ => by omega, fun _ => ⟨stack, rfl⟩⟩, ?_⟩
    intro b s1 hb _
    cases hb
    rfl
  · rw [if_neg hfull]
    have hr : 0 ≤ stack.top + 1 ∧ (stack.top + 1).toNat < stack.components.length := by
      constructor <;> omega
    rw [if_pos hr]
    refine ⟨⟨?_, fun hc => absurd hc (by omega)⟩, ?_⟩
    · rintro ⟨s1, hs1⟩
      cases hs1
    · intro b s1 hb hf
      cases hb
      cases hf

/-! ## The stack before and after one field -/

theorem stack_push_room (stack : ComponentStack) (c : AFPComponent) (h : StackOK stack)
    (hd : stack.top + 1 < 100) :
    stack_push stack c =
      some (true, { components := stack.components.set (stack.top + 1).toNat c,
                    top := stack.top + 1 }) := by
  obtain ⟨h1, h2, h3⟩ := h
  simp only [MAX_STACK_SIZE] at h1 h3
  have hfull : ¬ stack.top ≥ ((MAX_STACK_SIZE : Nat) : Int) - 1 := by
    simp only [MAX_STACK_SIZE]
    omega
  have hr : 0 ≤ stack.top + 1 ∧ (stack.top + 1).toNat < stack.components.length := by
    constructor <;> omega
  unfold stack_push array_write
  rw [if_neg hfull, if_pos hr]

theorem stack_push_full (stack : ComponentStack) (c : AFPComponent)
    (hd : stack.top + 1 ≥ 100) : stack_push stack c = some (false, stack) := by
  have hfull : stack.top ≥ ((MAX_STACK_SIZE : Nat) : Int) - 1 := by
    simp only [MAX_STACK_SIZE]
    omega
  unfold stack_push
  rw [if_pos hfull]

theorem stack_pop_some (stack : ComponentStack) (h : StackOK stack) (hd : 0 ≤ stack.top) :
    ∃ p, stack_pop stack = some (p, { stack with top := stack.top - 1 }) := by
  obtain ⟨h1, h2, h3⟩ := h
  simp only [MAX_STACK_SIZE] at h1 h3
  unfold stack_pop array_read
  rw [if_neg (by omega), if_pos hd]
  have hlt : stack.top.toNat < stack.components.length := by omega
  rw [List.get?_eq_get hlt]
  exact ⟨_, rfl⟩

theorem stack_pop_none_open (stack : ComponentStack) (hd : stack.top < 0) :
    stack_pop stack = some (COMPONENT_UNKNOWN, stack) := by
  unfold stack_pop
  rw [if_pos hd]

theorem begin_component_of_push (s : State) (c : AFPComponent) (b : Bool)
    (stk : ComponentStack) (hp : stack_push s.component_stack c = some (b, stk)) :
    ∃ s', begin_component s c = some s' ∧ s'.component_stack = stk := by
  unfold begin_component
  simp only [hp]
  exact ⟨_, rfl, rfl⟩

theorem check_begin_end_push (s : State) (x : Nat) (b : Bool) (stk : ComponentStack)
    (hx : x ∈ bracket_codes)
    (hp : stack_push s.component_stack (bracket_component x) = some (b, stk)) :
    ∃ s', check_begin_end s (0xD3, 0xA8, x) = some s' ∧ s'.component_stack = stk := by
  simp only [bracket_codes, List.mem_cons, List.mem_singleton, List.not_mem_nil, or_false] at hx
  rcases hx with rfl | rfl | rfl | rfl | rfl | rfl
  · simpa [check_begin_end, bracket_component] using
      begin_component_of_push { s with has_begin_document := true } COMPONENT_DOCUMENT b stk hp
  · simpa [check_begin_end, bracket_component] using
      begin_component_of_push s COMPONENT_PAGE_GROUP b stk hp
  · obtain ⟨s1, h1, h2⟩ := begin_component_of_push s COMPONENT_PAGE b stk hp
    exact ⟨{ s1 with page_count := s1.page_count + 1 }, by simp [check_begin_end, h1], h2⟩
  · obtain ⟨s1, h1, h2⟩ := begin_component_of_push s COMPONENT_OBJECT b stk hp
    exact ⟨{ s1 with object_count := s1.object_count + 1 }, by simp [check_begin_end, h1], h2⟩
  · simpa [check_begin_end, bracket_component] using
      begin_component_of_push s COMPONENT_RESOURCE_GROUP b stk hp
  · simpa [check_begin_end, bracket_component] using
      begin_component_of_push s COMPONENT_OVERLAY b stk hp

/-! ## What a pass has read when it goes on -/

theorem fread_full_bound (bytes : List Nat) (c n : Nat) (h : (fread bytes c n).1.length = n)
    (hn : 0 < n) : c + n ≤ bytes.length := by
  simp only [fread, List.length_take, List.length_drop] at h
  omega

theorem fread_getD (bytes : List Nat) (c n i : Nat) (hi : i < n) :
    (fread bytes c n).1.getD i 0 = bytes.getD (c + i) 0 := by
  simp [fread, List.getD_eq_getElem?_getD, List.getElem?_take, hi]

/-- A pass that goes on has read a byte other than the introducer, or an
introducer and a length that is refused, or a whole field: introducer, length
`L >= 5` with `position + L` within the file, type code, flag byte and
`L - 6` payload bytes, `max (L + 1) 7` bytes in all, every one inside the
file. -/
theorem iteration_cont_reads (bytes : List Nat) (s s' : State)
    (h : iteration bytes s = some (Flow.cont s')) :
    s.cursor + 1 ≤ bytes.length ∧
    ((bytes.getD s.cursor 0 ≠ SF_INTRODUCER ∧
      s' = { s with
        output := s.output ++ [Message.invalid_introducer (bytes.getD s.cursor 0) s.position]
        is_valid := false
        position := s.position + 1
        cursor := s.position + 1
        error_count := s.error_count + 1 }) ∨
     (bytes.getD s.cursor 0 = SF_INTRODUCER ∧ s.cursor + 3 ≤ bytes.length ∧
      ∃ L, L = ((bytes.getD (s.cursor + 1) 0 <<< 8) ||| bytes.getD (s.cursor + 2) 0) % 65536 ∧
        ((L < 5 ∧
          s' = { s with
            output := s.output ++ [Message.length_too_short L (s.position + 1)]
            is_valid := false
            position := s.position + 3
            cursor := s.position + 3
            error_count := s.error_count + 1 }) ∨
         (¬ L < 5 ∧ s.position + L > bytes.length ∧
          s' = { s with
            output := s.output ++ [Message.length_exceeds L (s.position + 1)]
            is_valid := false
            position := s.position + 3
            cursor := s.position + 3
            error_count := s.error_count + 1 }) ∨
         (5 ≤ L ∧ s.position + L ≤ bytes.length ∧
          s.cursor + max (L + 1) 7 ≤ bytes.length ∧
          ∃ type flag data,
            ((data = none ∧ L ≤ 6) ∨ ∃ d, data = some d ∧ d.length + 6 = L) ∧
            process_field { s with cursor := s.cursor + max (L + 1) 7 } L type flag data =
              some s')))) := by
  unfold iteration at h
  dsimp only at h
  have g1 := fread_getD bytes s.cursor 1 0 (by omega)
  generalize hr1 : fread bytes s.cursor 1 = r1 at h g1
  by_cases h1 : r1.1.length ≠ 1
  · rw [if_pos h1] at h
    cases h
  rw [if_neg h1] at h
  have e1 : r1.2 = s.cursor + 1 := by
    rw [← hr1] at h1 ⊢; exact fread_full _ _ _ (not_not.mp h1)
  have b1 : s.cursor + 1 ≤ bytes.length := by
    rw [← hr1] at h1; exact fread_full_bound _ _ _ (not_not.mp h1) (by omega)
  refine ⟨b1, ?_⟩
  rw [Nat.add_zero] at g1
  by_cases h2 : r1.1.getD 0 0 ≠ SF_INTRODUCER
  · rw [if_pos h2] at h
    left
    by_cases h3 : s.error_count + 1 > 10
    · rw [if_pos h3] at h
      cases h
    · rw [if_neg h3] at h
      rw [g1] at h h2
      cases h
      exact ⟨h2, rfl⟩
  rw [if_neg h2] at h
  right
  rw [g1] at h2
  have g2 := fread_getD bytes r1.2 2 0 (by omega)
  have g3 := fread_getD bytes r1.2 2 1 (by omega)
  generalize hr2 : fread bytes r1.2 2 = r2 at h g2 g3
  by_cases h4 : r2.1.length ≠ 2
  · rw [if_pos h4] at h
    cases h
  rw [if_neg h4] at h
  have e2 : r2.2 = r1.2 + 2 := by
    rw [← hr2] at h4 ⊢; exact fread_full _ _ _ (not_not.mp h4)
  have b2 : r1.2 + 2 ≤ bytes.length := by
    rw [← hr2] at h4; exact fread_full_bound _ _ _ (not_not.mp h4) (by omega)
  rw [e1, Nat.add_zero] at g2
  rw [e1] at g3
  rw [g2, g3] at h
  refine ⟨not_not.mp h2, by omega, _, rfl, ?_⟩
  generalize hlen :
    ((bytes.getD (s.cursor + 1) 0 <<< 8) ||| bytes.getD (s.cursor + 1 + 1) 0) % 65536 = L at h
  by_cases h5 : L < 5
  · rw [if_pos h5] at h
    cases h
    exact Or.inl ⟨h5, rfl⟩
  rw [if_neg h5] at h
  by_cases h6 : s.position + L > bytes.length
  · rw [if_pos h6] at h
    cases h
    exact Or.inr (Or.inl ⟨h5, h6, rfl⟩)
  rw [if_neg h6] at h
  right
  right
  generalize hr3 : fread bytes r2.2 3 = r3 at h
  by_cases h7 : r3.1.length ≠ 3
  · rw [if_pos h7] at h
    cases h
  rw [if_neg h7] at h
  have e3 : r3.2 = r2.2 + 3 := by
    rw [← hr3] at h7 ⊢; exact fread_full _ _ _ (not_not.mp h7)
  generalize hr4 : fread bytes r3.2 1 = r4 at h
  by_cases h8 : r4.1.length ≠ 1
  · rw [if_pos h8] at h
    cases h
  rw [if_neg h8] at h
  have e4 : r4.2 = r3.2 + 1 := by
    rw [← hr4] at h8 ⊢; exact fread_full _ _ _ (not_not.mp h8)
  have b4 : r3.2 + 1 ≤ bytes.length := by
    rw [← hr4] at h8; exact fread_full_bound _ _ _ (not_not.mp h8) (by omega)
  by_cases h9 : (L : Int) - 6 > 0
  · rw [if_pos h9] at h
    generalize hr5 : fread bytes r4.2 ((L : Int) - 6).toNat = r5 at h
    by_cases h10 : r5.1.length ≠ ((L : Int) - 6).toNat
    · rw [if_pos h10] at h
      cases h
    · rw [if_neg h10] at h
      have e5 : r5.2 = r4.2 + ((L : Int) - 6).toNat := by
        rw [← hr5] at h10 ⊢; exact fread_full _ _ _ (not_not.mp h10)
      have b5 : r4.2 + ((L : Int) - 6).toNat ≤ bytes.length := by
        rw [← hr5] at h10; exact fread_full_bound _ _ _ (not_not.mp h10) (by omega)
      obtain ⟨s1, hs1, hs⟩ := Option.map_eq_some'.mp h
      cases hs
      have hc : r5.2 = s.cursor + max (L + 1) 7 := by omega
      rw [hc] at hs1
      exact ⟨by omega, by omega, by omega, _, _, _,
        Or.inr ⟨r5.1, rfl, by have := not_not.mp h10; omega⟩, hs1⟩
  · rw [if_neg h9] at h
    obtain ⟨s1, hs1, hs⟩ := Option.map_eq_some'.mp h
    cases hs
    have hc : r4.2 = s.cursor + max (L + 1) 7 := by omega
    rw [hc] at hs1
    exact ⟨by omega, by omega, by omega, _, _, _, Or.inl ⟨rfl, by omega⟩, hs1⟩

/-- Invariant rule for the main loop, with the passes given by `iteration`
itself. -/
theorem loop_rule_iteration (bytes : List Nat) (I Q : State → Prop)
    (hcont : ∀ s s', I s → s.position < bytes.length →
      iteration bytes s = some (Flow.cont s') → I s')
    (hbrk : ∀ s s', I s → s.position < bytes.length →
      iteration bytes s = some (Flow.brk s') → Q s')
    (hexit : ∀ s, I s → ¬ s.position < bytes.length → Q s) (fuel : Nat) :
    ∀ s r : State, I s → loop bytes fuel s = some r → Q r := by
  induction fuel with
  | zero => intro s r _ h; simp [loop] at h
  | succ n ih =>
    intro s r hI h
    unfold loop at h
    split_ifs at h with hpos
    · cases hit : iteration bytes s with
      | none => rw [hit] at h; simp at h
      | some out =>
        rw [hit] at h
        cases out with
        | cont s' => exact ih s' r (hcont s s' hI hpos hit) h
        | brk s' =>
          simp only [Option.some.injEq] at h
          subst h
          exact hbrk s s' hI hpos hit
    · simp only [Option.some.injEq] at h
      subst h
      exact hexit s hI hpos

/-! ## Fields counted and lengths refused -/

theorem iteration_bad_length (bytes rest : List Nat) (s : State) (b1 b2 : Nat)
    (h : bytes.drop s.cursor = SF_INTRODUCER :: b1 :: b2 :: rest)
    (hbad : ((b1 <<< 8) ||| b2) % 65536 < 5 ∨
      s.position + ((b1 <<< 8) ||| b2) % 65536 > bytes.length) :
    ∃ m, m.kind = some ErrorKind.framing ∧
      iteration bytes s = some (Flow.cont { s with
        output := s.output ++ [m]
        is_valid := false
        position := s.position + 3
        cursor := s.position + 3
        error_count := s.error_count + 1 }) := by
  have f1 : fread bytes s.cursor 1 = ([SF_INTRODUCER], s.cursor + 1) :=
    fread_at bytes [] [SF_INTRODUCER] (b1 :: b2 :: rest) s.cursor _ _ h rfl rfl
  have f2 : fread bytes (s.cursor + 1) 2 = ([b1, b2], s.cursor + 1 + 2) :=
    fread_at bytes [SF_INTRODUCER] [b1, b2] rest s.cursor _ _ h rfl rfl
  unfold iteration
  dsimp only
  rw [f1]
  dsimp only [List.length_singleton, List.getD_cons_zero]
  rw [if_neg (by simp), if_neg (by simp), f2]
  dsimp only [List.length_cons, List.length_nil, List.getD_cons_zero, List.getD_cons_succ]
  rw [if_neg (by simp)]
  by_cases hshort : ((b1 <<< 8) ||| b2) % 65536 < 5
  · rw [if_pos hshort]
    exact ⟨Message.length_too_short _ _, rfl, rfl⟩
  · rw [if_neg hshort, if_pos (by
      rcases hbad with hb | hb
      · exact absurd hb hshort
      · exact hb)]
    exact ⟨Message.length_exceeds _ _, rfl, rfl⟩

theorem iteration_counted_field (bytes : List Nat) (s s' : State)
    (h : iteration bytes s = some (Flow.cont s')) (hcount : s'.field_count ≠ s.field_count) :
    ∃ f, s'.fields = s.fields ++ [f] ∧ s'.field_count = s.field_count + 1 ∧
      s'.error_count = s.error_count ∧
      bytes.getD s.cursor 0 = SF_INTRODUCER ∧
      f.length =
        ((bytes.getD (s.cursor + 1) 0 <<< 8) ||| bytes.getD (s.cursor + 2) 0) % 65536 ∧
      5 ≤ f.length ∧ s.cursor + f.length ≤ bytes.length ∧
      s.position + f.length ≤ bytes.length ∧
      s'.position = s.position + f.length ∧
      s'.cursor = s.cursor + max (f.length + 1) 7 ∧ s'.cursor ≤ bytes.length ∧
      ((f.data = none ∧ f.length ≤ 6) ∨ ∃ d, f.data = some d ∧ d.length + 6 = f.length) := by
  obtain ⟨-, hd | ⟨hi, -, L, hL, hs | hx | hf⟩⟩ := iteration_cont_reads bytes s s' h
  · obtain ⟨-, rfl⟩ := hd
    exact absurd rfl hcount
  · obtain ⟨-, rfl⟩ := hs
    exact absurd rfl hcount
  · obtain ⟨-, -, rfl⟩ := hx
    exact absurd rfl hcount
  · obtain ⟨h5, hfit, hc, type, flag, data, hdata, hp⟩ := hf
    obtain ⟨p1, p2, p3, p4, -⟩ := process_field_spec _ _ _ _ _ _ hp
    obtain ⟨-, -, q3⟩ := process_field_flags _ _ _ _ _ _ hp
    obtain ⟨hlen, -, -, hdat⟩ := identify_field_type_rest
      { length := L, type := type, flags := flag, data := data,
        component := COMPONENT_UNKNOWN, obj_type := OBJ_UNKNOWN,
        name := List.replicate 9 (some 0) }
    simp only at p1 p2 p3 p4 q3 hlen hdat
    refine ⟨_, q3, p4, p3, hi, ?_, ?_, ?_, ?_, ?_, ?_, ?_, ?_⟩
    · rw [hlen, hL]
    · rw [hlen]; exact h5
    · rw [hlen]; omega
    · rw [hlen]; exact hfit
    · rw [hlen]; exact p2
    · rw [hlen]; exact p1
    · rw [p1]; exact hc
    · rw [hlen, hdat]; exact hdata

/-! ## The claims -/

/-- C1: a stream that is a concatenation of well-framed records carrying only
Begin and End codes, correctly matched and nested at most 100 deep, is accepted:
the run returns `is_valid = true`, with `error_count = 0`, `field_count` equal
to the number of records, and an empty component stack (nothing unclosed). -/
theorem matched_stream_is_valid (rs : List Record) (hwf : ∀ r ∈ rs, r.length < 65536)
    (hn : well_nested [] rs = true) :
    ∃ rep, validate_afp_file (stream rs) = some rep ∧ rep.result = true ∧
      rep.state.is_valid = true ∧ rep.state.error_count = 0 ∧
      rep.state.field_count = rs.length ∧ rep.state.component_stack.top = -1 ∧
      stack_empty rep.state.component_stack = true ∧ rep.unclosed = [] := by
  obtain ⟨r, hr, h1, h2, h3, h4, -⟩ := loop_matched (stream rs) rs [] initial_state
    (rs.length + 1) hwf hn (by simp [initial_state]) (by simp [initial_state])
    (by simpa using holds_initial) (by omega)
  have hr' : loop (stream rs) ((stream rs).length + 1) initial_state = some r := by
    have := loop_fuel_mono (stream rs) (rs.length + 1) initial_state r
      ((stream rs).length - rs.length) hr
    rwa [show rs.length + 1 + ((stream rs).length - rs.length) = (stream rs).length + 1 by
      have := stream_length_ge rs; omega] at this
  have htop : r.component_stack.top = -1 := by
    obtain ⟨-, h, -, -⟩ := h4
    simp only [List.length_nil, Nat.cast_zero] at h
    omega
  refine ⟨{ result := r.is_valid, state := r, unclosed := [],
            stack_after_summary := r.component_stack }, ?_, ?_, ?_, ?_, ?_, htop, ?_, rfl⟩
  · simp [validate_afp_file, hr', print_structure_summary_empty _ h4]
  · simp [h1, initial_state]
  · simp [h1, initial_state]
  · simp [h2, initial_state]
  · simp [h3, initial_state]
  · simp [stack_empty, htop]

/-- Witness for C1: Begin-Document and End-Document, each of length 9 with its
3 payload bytes. -/
theorem matched_stream_is_valid_witness :
    well_nested [] [⟨(0xD3, 0xA8, 0xA8), 0, [0, 0, 0]⟩, ⟨(0xD3, 0xA9, 0xA8), 0, [0, 0, 0]⟩] = true ∧
    ∃ rep, validate_afp_file
        (stream [⟨(0xD3, 0xA8, 0xA8), 0, [0, 0, 0]⟩, ⟨(0xD3, 0xA9, 0xA8), 0, [0, 0, 0]⟩]) = some rep ∧
      rep.result = true ∧ rep.state.is_valid = true ∧ rep.state.error_count = 0 ∧
      rep.state.field_count = 2 ∧ rep.state.component_stack.top = -1 ∧
      stack_empty rep.state.component_stack = true ∧ rep.unclosed = [] :=
  ⟨by decide,
   matched_stream_is_valid
    [⟨(0xD3, 0xA8, 0xA8), 0, [0, 0, 0]⟩, ⟨(0xD3, 0xA9, 0xA8), 0, [0, 0, 0]⟩]
    (by decide) (by decide)⟩

/-- C2: an End-X field met with a non-empty stack whose top is `Y` removes
that top whether or not `Y` is `X` (nothing is pushed back), leaves
`is_valid` as `is_valid before ∧ Y = X`, counts the field, and the loop
goes on with the bytes after the field. -/
theorem end_field_pops_top (bytes post : List Nat) (s : State) (r : Record) (x : Nat)
    (Y : AFPComponent) (hx : x ∈ bracket_codes) (hty : r.type = (0xD3, 0xA9, x))
    (hwf : r.length < 65536) (hd : bytes.drop s.cursor = r.bytes ++ post)
    (hpc : s.position ≤ s.cursor) (hne : stack_empty s.component_stack = false)
    (htop : stack_peek s.component_stack = some Y) :
    ∃ s', iteration bytes s = some (Flow.cont s') ∧
      s'.component_stack = { s.component_stack with top := s.component_stack.top - 1 } ∧
      s'.is_valid = (s.is_valid && decide (Y = bracket_component x)) ∧
      s'.field_count = s.field_count + 1 ∧
      s'.cursor = s.cursor + r.length + 1 ∧ bytes.drop s'.cursor = post := by
  have hrl := record_bytes_length r
  have hge := drop_length_ge bytes r.bytes post s.cursor SF_INTRODUCER _ rfl hd
  have hit := iteration_at_record bytes post s r hd hwf (by omega)
  simp only [stack_empty, decide_eq_false_iff_not, not_lt] at hne
  have hpop : stack_pop s.component_stack =
      some (Y, { s.component_stack with top := s.component_stack.top - 1 }) := by
    unfold stack_peek at htop
    rw [if_neg (by omega)] at htop
    unfold stack_pop
    rw [if_neg (by omega), htop]
  obtain ⟨s2, hc2, hs2, hv2, -⟩ := check_begin_end_end
    { s with cursor := s.cursor + r.length + 1 } x Y _ hx hpop
  rw [← hty] at hc2
  obtain ⟨s3, hp3, e1, e2, -⟩ := process_field_of_check _ s2 r.length r.type r.flag r.data hc2
  have sp := process_field_spec _ _ _ _ _ _ hp3
  refine ⟨s3, by rw [hit, hp3]; rfl, by rw [e1, hs2], by rw [e2, hv2], sp.2.2.2.1, sp.1, ?_⟩
  rw [sp.1]
  show bytes.drop (s.cursor + r.length + 1) = post
  rw [show s.cursor + r.length + 1 = s.cursor + r.bytes.length by omega, ← List.drop_drop, hd]
  simp

/-- Witness for C2: an End-Page field met while a Document is open. -/
theorem end_field_pops_top_witness :
    stack_peek state_document_open.component_stack = some COMPONENT_DOCUMENT ∧
    ∃ s', iteration (Record.bytes ⟨(0xD3, 0xA9, 0xAF), 0, []⟩) state_document_open =
        some (Flow.cont s') ∧
      s'.component_stack = { state_document_open.component_stack with
        top := state_document_open.component_stack.top - 1 } ∧
      s'.is_valid = (state_document_open.is_valid &&
        decide (COMPONENT_DOCUMENT = bracket_component 0xAF)) ∧
      s'.field_count = state_document_open.field_count + 1 ∧
      s'.cursor = state_document_open.cursor + Record.length ⟨(0xD3, 0xA9, 0xAF), 0, []⟩ + 1 ∧
      (Record.bytes ⟨(0xD3, 0xA9, 0xAF), 0, []⟩).drop s'.cursor = [] :=
  ⟨by decide,
   end_field_pops_top (Record.bytes ⟨(0xD3, 0xA9, 0xAF), 0, []⟩) [] state_document_open
    ⟨(0xD3, 0xA9, 0xAF), 0, []⟩ 0xAF COMPONENT_DOCUMENT (by decide) rfl (by decide) (by decide)
    (by decide) (by decide) (by decide)⟩

/-- C3: an End field met with an empty stack: `stack_pop` returns
`COMPONENT_UNKNOWN` without touching the array, that value differs from the
component of each of the six End codes, so the mismatch is reported, the run
is marked invalid and the stack stays empty. -/
theorem end_field_on_empty_stack (bytes post : List Nat) (s : State) (r : Record) (x : Nat)
    (hx : x ∈ bracket_codes) (hty : r.type = (0xD3, 0xA9, x))
    (hwf : r.length < 65536) (hd : bytes.drop s.cursor = r.bytes ++ post)
    (hpc : s.position ≤ s.cursor) (hempty : stack_empty s.component_stack = true) :
    stack_pop s.component_stack = some (COMPONENT_UNKNOWN, s.component_stack) ∧
    COMPONENT_UNKNOWN ≠ bracket_component x ∧
    ∃ s', iteration bytes s = some (Flow.cont s') ∧ s'.is_valid = false ∧
      s'.component_stack = s.component_stack ∧ stack_empty s'.component_stack = true ∧
      s'.output = s.output ++
        [Message.structure_mismatch s.position COMPONENT_UNKNOWN (bracket_component x)] := by
  have hrl := record_bytes_length r
  have hge := drop_length_ge bytes r.bytes post s.cursor SF_INTRODUCER _ rfl hd
  have hit := iteration_at_record bytes post s r hd hwf (by omega)
  simp only [stack_empty, decide_eq_true_eq] at hempty
  have hpop : stack_pop s.component_stack = some (COMPONENT_UNKNOWN, s.component_stack) := by
    unfold stack_pop
    rw [if_pos hempty]
  have hneq : COMPONENT_UNKNOWN ≠ bracket_component x := by
    simp only [bracket_codes, List.mem_cons, List.mem_singleton, List.not_mem_nil,
      or_false] at hx
    rcases hx with rfl | rfl | rfl | rfl | rfl | rfl <;> decide
  obtain ⟨s2, hc2, hs2, hv2, ho2⟩ := check_begin_end_end
    { s with cursor := s.cursor + r.length + 1 } x COMPONENT_UNKNOWN _ hx hpop
  rw [← hty] at hc2
  obtain ⟨s3, hp3, e1, e2, e3, -⟩ :=
    process_field_of_check _ s2 r.length r.type r.flag r.data hc2
  refine ⟨hpop, hneq, s3, by rw [hit, hp3]; rfl, ?_, by rw [e1, hs2], ?_, ?_⟩
  · rw [e2, hv2]; simp [hneq]
  · rw [e1, hs2]; simp [stack_empty, hempty]
  · rw [e3, ho2, if_neg hneq]

/-- Witness for C3: an End-Document field as the first field of a file. -/
theorem end_field_on_empty_stack_witness :
    stack_empty initial_state.component_stack = true ∧
    stack_pop initial_state.component_stack =
      some (COMPONENT_UNKNOWN, initial_state.component_stack) ∧
    COMPONENT_UNKNOWN ≠ bracket_component 0xA8 ∧
    ∃ s', iteration (Record.bytes ⟨(0xD3, 0xA9, 0xA8), 0, [0, 0, 0]⟩) initial_state =
        some (Flow.cont s') ∧ s'.is_valid = false ∧
      s'.component_stack = initial_state.component_stack ∧
      stack_empty s'.component_stack = true ∧
      s'.output = initial_state.output ++
        [Message.structure_mismatch initial_state.position COMPONENT_UNKNOWN
          (bracket_component 0xA8)] :=
  ⟨by decide,
   end_field_on_empty_stack (Record.bytes ⟨(0xD3, 0xA9, 0xA8), 0, [0, 0, 0]⟩) [] initial_state
    ⟨(0xD3, 0xA9, 0xA8), 0, [0, 0, 0]⟩ 0xA8 (by decide) rfl (by decide) (by decide)
    (by decide) (by decide)⟩

/-- C4: the value returned is `false` exactly when at least one desync error,
framing error, structure mismatch or fatal short read was reported during the
run; a positive `error_count` implies `false`; and once `is_valid` is `false`
no pass of the loop, hence no run of the loop, makes it `true` again. -/
theorem is_valid_false_iff_error (bytes : List Nat) :
    ∃ rep, validate_afp_file bytes = some rep ∧
      (rep.result = false ↔
        0 < count_errors ErrorKind.desync rep.state.output +
            count_errors ErrorKind.framing rep.state.output +
            count_errors ErrorKind.mismatch rep.state.output +
            count_errors ErrorKind.fatal rep.state.output) ∧
      (0 < rep.state.error_count → rep.result = false) ∧
      (∀ s out, iteration bytes s = some out → s.is_valid = false →
        out.state.is_valid = false) ∧
      (∀ fuel s r, loop bytes fuel s = some r → s.is_valid = false → r.is_valid = false) := by
  obtain ⟨rep, h1, h2, -, h4, h5⟩ := validate_rule bytes
    (fun s => (s.is_valid = false ↔ 0 < total_errors s.output) ∧
      (0 < s.error_count → s.is_valid = false))
    (fun s => (s.is_valid = false ↔ 0 < total_errors s.output) ∧
      (0 < s.error_count → s.is_valid = false))
    (by simp [initial_state, total_errors, count_errors])
    (by
      intro s s' hI _ hp
      obtain ⟨hI1, hI2⟩ := hI
      cases hp with
      | desync b hb he => simp [total_errors_append, Message.kind]
      | too_short L hL => simp [total_errors_append, Message.kind]
      | exceeds L hL hx => simp [total_errors_append, Message.kind]
      | field L type flag data c s' hL hfit hc hpf =>
        obtain ⟨-, -, e3, -, e5⟩ := process_field_spec _ _ _ _ _ _ hpf
        rcases e5 with ⟨e5, e6⟩ | ⟨p, e, e5, e6⟩
        · rw [e5, e6, e3]; exact ⟨hI1, hI2⟩
        · rw [e5, e6]; simp [total_errors_append, Message.kind])
    (by
      intro s s' hI _ hp
      obtain ⟨hI1, hI2⟩ := hI
      cases hp with
      | eof c hc hs => exact ⟨hI1, hI2⟩
      | desync_cap b hb he =>
        simp only [total_errors_append, Message.kind]
        simp
      | short_length c hc hs => simp [total_errors_append, Message.kind]
      | short_type c hc hs => simp [total_errors_append, Message.kind]
      | short_flag c hc hs => simp [total_errors_append, Message.kind]
      | short_data c hc hs => simp [total_errors_append, Message.kind])
    (fun s hI _ => hI)
  refine ⟨rep, h1, ?_, ?_, ?_, ?_⟩
  · rw [h2]; exact h4
  · rw [h2]; exact h5
  · intro s out hit hv
    exact pass_valid_mono bytes s out (iteration_spec bytes s out hit) hv
  · intro fuel s r hl hv
    exact loop_rule bytes (fun s => s.is_valid = false) (fun s => s.is_valid = false)
      (fun s s' h _ hp => pass_valid_mono bytes s _ hp h)
      (fun s s' h _ hp => pass_valid_mono bytes s _ hp h)
      (fun s h _ => h) fuel s r hv hl

/-- C5, counterexample: on a file holding only an End-Document field
(`5A 00 06 D3 A9 A8 00`) one error, a structure mismatch, is reported, yet
`error_count` ends at 0. -/
theorem error_count_misses_mismatch :
    ∃ rep, validate_afp_file [0x5A, 0, 6, 0xD3, 0xA9, 0xA8, 0] = some rep ∧
      rep.state.error_count = 0 ∧
      count_errors ErrorKind.mismatch rep.state.output = 1 ∧
      rep.state.error_count ≠
        count_errors ErrorKind.desync rep.state.output +
        count_errors ErrorKind.framing rep.state.output +
        count_errors ErrorKind.mismatch rep.state.output +
        count_errors ErrorKind.fatal rep.state.output := by
  refine ⟨_, rfl, ?_⟩
  decide

/-- C5, amended: `error_count` at the end of the run is the number of desync
errors plus the number of framing errors reported. -/
theorem error_count_is_desync_plus_framing (bytes : List Nat) :
    ∃ rep, validate_afp_file bytes = some rep ∧
      rep.state.error_count =
        count_errors ErrorKind.desync rep.state.output +
        count_errors ErrorKind.framing rep.state.output := by
  obtain ⟨rep, h1, -, -, h4⟩ := validate_rule bytes
    (fun s => s.error_count =
      count_errors ErrorKind.desync s.output + count_errors ErrorKind.framing s.output)
    (fun s => s.error_count =
      count_errors ErrorKind.desync s.output + count_errors ErrorKind.framing s.output)
    (by simp [initial_state, count_errors])
    (by
      intro s s' hI _ hp
      cases hp with
      | desync b hb he => simp only [count_errors_append, Message.kind, hI]; simp; omega
      | too_short L hL => simp only [count_errors_append, Message.kind, hI]; simp; omega
      | exceeds L hL hx => simp only [count_errors_append, Message.kind, hI]; simp; omega
      | field L type flag data c s' hL hfit hc hpf =>
        obtain ⟨-, -, e3, -, e5⟩ := process_field_spec _ _ _ _ _ _ hpf
        rcases e5 with ⟨e5, -⟩ | ⟨p, e, e5, -⟩
        · rw [e5, e3]; exact hI
        · rw [e5, e3]; simp only [count_errors_append, Message.kind]; simpa using hI)
    (by
      intro s s' hI _ hp
      cases hp with
      | eof c hc hs => exact hI
      | desync_cap b hb he => simp only [count_errors_append, Message.kind, hI]; simp; omega
      | short_length c hc hs => simp only [count_errors_append, Message.kind]; simpa using hI
      | short_type c hc hs => simp only [count_errors_append, Message.kind]; simpa using hI
      | short_flag c hc hs => simp only [count_errors_append, Message.kind]; simpa using hI
      | short_data c hc hs => simp only [count_errors_append, Message.kind]; simpa using hI)
    (fun s hI _ => hI)
  exact ⟨rep, h1, h4⟩

/-- C6: a file made of one non-introducer byte followed by a well-framed
record: the first pass reports one desync error and resumes at offset 1; the
run ends with `error_count = 1`, `is_valid = false` and `field_count = 1`, and
the field prepared from the record, the stack, the document flags, the counts
and the statistics are those of the run on the record alone. -/
theorem stray_byte_before_record (b : Nat) (r : Record) (hb : b ≠ SF_INTRODUCER)
    (hwf : r.length < 65536) :
    ∃ rep rep0 s1,
      validate_afp_file (b :: r.bytes) = some rep ∧ validate_afp_file r.bytes = some rep0 ∧
      iteration (b :: r.bytes) initial_state = some (Flow.cont s1) ∧
      s1.cursor = 1 ∧ s1.position = 1 ∧ s1.output = [Message.invalid_introducer b 0] ∧
      rep.state.error_count = 1 ∧ rep.result = false ∧ rep.state.field_count = 1 ∧
      count_errors ErrorKind.desync rep.state.output = 1 ∧
      rep0.state.error_count = 0 ∧ rep0.state.field_count = 1 ∧
      rep.state.fields = [identify_field_type
        { length := r.length, type := r.type, flags := r.flag, data := r.data,
          component := COMPONENT_UNKNOWN, obj_type := OBJ_UNKNOWN,
          name := List.replicate 9 (some 0) }] ∧
      SameNesting rep.state rep0.state ∧ rep.unclosed = rep0.unclosed := by
  have hrl := record_bytes_length r
  -- the run on the record alone
  have hitB := iteration_at_record r.bytes [] initial_state r (by simp [initial_state]) hwf
    (by simp only [initial_state]; omega)
  obtain ⟨t2, ht2, hokt⟩ := process_field_total
    { initial_state with cursor := initial_state.cursor + r.length + 1 } r.length r.type r.flag
    r.data stackOK_initial
  have spB := process_field_spec _ _ _ _ _ _ ht2
  have hloopB : loop r.bytes (r.bytes.length + 1) initial_state = some t2 := by
    rw [hrl, loop, if_pos (by simp only [initial_state]; omega), hitB, ht2]
    simp only [Option.map_some']
    rw [loop, if_pos (by rw [spB.2.1]; simp only [initial_state]; omega),
      iteration_at_eof _ _ (by rw [spB.1]; simp only [initial_state]; omega)]
  -- the run on the stray byte followed by the record
  have hit1 := iteration_desync (b :: r.bytes) r.bytes initial_state b
    (by simp [initial_state]) hb
  rw [if_neg (by simp [initial_state])] at hit1
  generalize hs1 : ({ initial_state with
      output := initial_state.output ++ [Message.invalid_introducer b initial_state.position]
      is_valid := false
      position := initial_state.position + 1
      cursor := initial_state.position + 1
      error_count := initial_state.error_count + 1 } : State) = s1 at hit1
  have hs1c : s1.cursor = 1 := by rw [← hs1]; rfl
  have hs1p : s1.position = 1 := by rw [← hs1]; rfl
  have hs1e : s1.error_count = 1 := by rw [← hs1]; rfl
  have hs1v : s1.is_valid = false := by rw [← hs1]
  have hs1f : s1.field_count = 0 := by rw [← hs1]; rfl
  have hs1o : s1.output = [Message.invalid_introducer b 0] := by rw [← hs1]; rfl
  have hs1k : StackOK s1.component_stack := by rw [← hs1]; exact stackOK_initial
  have hitA := iteration_at_record (b :: r.bytes) [] s1 r (by rw [hs1c]; simp) hwf
    (by rw [hs1p, List.length_cons]; omega)
  have hsame : SameNesting { s1 with cursor := s1.cursor + r.length + 1 }
      { initial_state with cursor := initial_state.cursor + r.length + 1 } := by
    rw [← hs1]
    exact ⟨rfl, rfl, rfl, rfl, rfl, rfl, rfl, rfl⟩
  obtain ⟨s2, hs2, hoks⟩ := process_field_total
    { s1 with cursor := s1.cursor + r.length + 1 } r.length r.type r.flag r.data hs1k
  obtain ⟨t2', ht2', hsn, hfields⟩ := process_field_congr _ _ _ _ _ _ _ hsame hs2
  rw [ht2] at ht2'
  cases ht2'
  have spA := process_field_spec _ _ _ _ _ _ hs2
  simp only at spA
  have hloopA : loop (b :: r.bytes) ((b :: r.bytes).length + 1) initial_state = some s2 := by
    rw [List.length_cons, hrl, loop, if_pos (by simp [initial_state]), hit1]
    simp only
    rw [loop, if_pos (by rw [hs1p, List.length_cons]; omega), hitA, hs2]
    simp only [Option.map_some']
    rw [loop, if_pos (by rw [spA.2.1, hs1p, List.length_cons]; omega),
      iteration_at_eof _ _ (by rw [spA.1, hs1c, List.length_cons]; omega)]
  obtain ⟨u, hu⟩ := print_structure_summary_total s2.component_stack hoks
  have hu' : print_structure_summary t2.component_stack = some u := by rw [← hsn.1]; exact hu
  refine ⟨_, _, s1, validate_of_loop _ s2 hloopA u hu, validate_of_loop _ t2 hloopB u hu', hit1,
    hs1c, hs1p, hs1o, ?_, ?_, ?_, ?_, ?_, ?_, ?_, hsn, rfl⟩
  · show s2.error_count = 1
    rw [spA.2.2.1, hs1e]
  · show s2.is_valid = false
    rcases spA.2.2.2.2 with ⟨-, h⟩ | ⟨p, e, -, h⟩
    · rw [h, hs1v]
    · exact h
  · show s2.field_count = 1
    rw [spA.2.2.2.1, hs1f]
  · show count_errors ErrorKind.desync s2.output = 1
    rcases spA.2.2.2.2 with ⟨h, -⟩ | ⟨p, e, h, -⟩
    · rw [h, hs1o]; rfl
    · rw [h, hs1o]; rfl
  · show t2.error_count = 0
    rw [spB.2.2.1]; rfl
  · show t2.field_count = 1
    rw [spB.2.2.2.1]; rfl
  · show s2.fields = _
    rw [hfields, ← hs1]; rfl

/-- Witness for C6: the byte `00` followed by a Begin-Document record. -/
theorem stray_byte_before_record_witness :
    (0 : Nat) ≠ SF_INTRODUCER ∧
    ∃ rep rep0 s1,
      validate_afp_file (0 :: Record.bytes ⟨(0xD3, 0xA8, 0xA8), 0, [1, 2, 3]⟩) = some rep ∧
      validate_afp_file (Record.bytes ⟨(0xD3, 0xA8, 0xA8), 0, [1, 2, 3]⟩) = some rep0 ∧
      iteration (0 :: Record.bytes ⟨(0xD3, 0xA8, 0xA8), 0, [1, 2, 3]⟩) initial_state =
        some (Flow.cont s1) ∧
      s1.cursor = 1 ∧ s1.position = 1 ∧ s1.output = [Message.invalid_introducer 0 0] ∧
      rep.state.error_count = 1 ∧ rep.result = false ∧ rep.state.field_count = 1 ∧
      count_errors ErrorKind.desync rep.state.output = 1 ∧
      rep0.state.error_count = 0 ∧ rep0.state.field_count = 1 ∧
      rep.state.fields = [identify_field_type
        { length := Record.length ⟨(0xD3, 0xA8, 0xA8), 0, [1, 2, 3]⟩,
          type := (0xD3, 0xA8, 0xA8), flags := 0,
          data := Record.data ⟨(0xD3, 0xA8, 0xA8), 0, [1, 2, 3]⟩,
          component := COMPONENT_UNKNOWN, obj_type := OBJ_UNKNOWN,
          name := List.replicate 9 (some 0) }] ∧
      SameNesting rep.state rep0.state ∧ rep.unclosed = rep0.unclosed :=
  ⟨by decide,
   stray_byte_before_record 0 ⟨(0xD3, 0xA8, 0xA8), 0, [1, 2, 3]⟩ (by decide) (by decide)⟩

/-- C7, the run at the failing input: Begin-Document, one stray byte `00`,
End-Document.  The stray byte stands at offset 7 while `position` is 6, so the
seek after the first desync error goes back to offset 7 and the same byte is
read and reported a second time: two desync errors for one stray byte. -/
theorem stray_byte_after_field_reported_twice :
    ∃ rep, validate_afp_file
        (Record.bytes ⟨(0xD3, 0xA8, 0xA8), 0, []⟩ ++ [0] ++
          Record.bytes ⟨(0xD3, 0xA9, 0xA8), 0, []⟩) = some rep ∧
      rep.state.error_count = 2 ∧ rep.state.field_count = 2 ∧
      rep.state.output =
        [Message.invalid_introducer 0 6, Message.invalid_introducer 0 7] := by
  refine ⟨_, rfl, ?_⟩
  decide

/-- C8: a file that starts with the introducer and two length bytes that give
a length below 5 or above the file length: the first pass reports exactly one
framing error (`error_count` goes from 0 to 1, `is_valid` is cleared), counts
no field, and the loop goes on from offset 3. -/
theorem bad_length_at_start (b1 b2 : Nat) (rest : List Nat) (h1 : b1 < 256) (h2 : b2 < 256)
    (hbad : 256 * b1 + b2 < 5 ∨
      (SF_INTRODUCER :: b1 :: b2 :: rest).length < 256 * b1 + b2) :
    ∃ s', iteration (SF_INTRODUCER :: b1 :: b2 :: rest) initial_state = some (Flow.cont s') ∧
      s'.error_count = 1 ∧ s'.is_valid = false ∧ s'.field_count = 0 ∧ s'.fields = [] ∧
      s'.cursor = 3 ∧ s'.position = 3 ∧
      count_errors ErrorKind.framing s'.output = 1 ∧ s'.output.length = 1 ∧
      s'.component_stack = initial_state.component_stack ∧
      loop (SF_INTRODUCER :: b1 :: b2 :: rest)
          ((SF_INTRODUCER :: b1 :: b2 :: rest).length + 1) initial_state =
        loop (SF_INTRODUCER :: b1 :: b2 :: rest)
          (SF_INTRODUCER :: b1 :: b2 :: rest).length s' := by
  have hd : (SF_INTRODUCER :: b1 :: b2 :: rest).drop initial_state.cursor =
      [] ++ ([SF_INTRODUCER] ++ (b1 :: b2 :: rest)) := rfl
  have f1 : fread (SF_INTRODUCER :: b1 :: b2 :: rest) initial_state.cursor 1 =
      ([SF_INTRODUCER], initial_state.cursor + 1) :=
    fread_at _ [] [SF_INTRODUCER] _ initial_state.cursor _ _ hd rfl rfl
  have f2 : fread (SF_INTRODUCER :: b1 :: b2 :: rest) (initial_state.cursor + 1) 2 =
      ([b1, b2], initial_state.cursor + 1 + 2) :=
    fread_at _ [SF_INTRODUCER] [b1, b2] rest initial_state.cursor _ _ rfl rfl rfl
  have hdec := decode_length_bytes b1 b2 h1 h2
  have hit : ∃ s', iteration (SF_INTRODUCER :: b1 :: b2 :: rest) initial_state =
      some (Flow.cont s') ∧
      s'.error_count = 1 ∧ s'.is_valid = false ∧ s'.field_count = 0 ∧ s'.fields = [] ∧
      s'.cursor = 3 ∧ s'.position = 3 ∧
      count_errors ErrorKind.framing s'.output = 1 ∧ s'.output.length = 1 ∧
      s'.component_stack = initial_state.component_stack := by
    unfold iteration
    dsimp only
    rw [f1]
    dsimp only [List.length_singleton, List.getD_cons_zero]
    rw [if_neg (by simp), if_neg (by simp), f2]
    dsimp only [List.length_cons, List.length_nil, List.getD_cons_zero, List.getD_cons_succ]
    rw [if_neg (by simp), hdec]
    by_cases hshort : 256 * b1 + b2 < 5
    · rw [if_pos hshort]
      exact ⟨_, rfl, rfl, rfl, rfl, rfl, rfl, rfl, rfl, rfl, rfl⟩
    · rw [if_neg hshort, if_pos (by
        rcases hbad with h | h
        · exact absurd h hshort
        · simpa [initial_state] using h)]
      exact ⟨_, rfl, rfl, rfl, rfl, rfl, rfl, rfl, rfl, rfl, rfl⟩
  obtain ⟨s', hs', hrest⟩ := hit
  refine ⟨s', hs', hrest.1, hrest.2.1, hrest.2.2.1, hrest.2.2.2.1, hrest.2.2.2.2.1,
    hrest.2.2.2.2.2.1, hrest.2.2.2.2.2.2.1, hrest.2.2.2.2.2.2.2.1, hrest.2.2.2.2.2.2.2.2, ?_⟩
  rw [loop, if_pos (by simp [initial_state]), hs']

/-- Witness for C8: the length field of value 3, followed by more bytes. -/
theorem bad_length_at_start_witness :
    (256 * 0 + 3 < 5 ∨ (SF_INTRODUCER :: 0 :: 3 :: [0xD3, 0xA8, 0xA8]).length < 256 * 0 + 3) ∧
    ∃ s', iteration (SF_INTRODUCER :: 0 :: 3 :: [0xD3, 0xA8, 0xA8]) initial_state =
        some (Flow.cont s') ∧
      s'.error_count = 1 ∧ s'.is_valid = false ∧ s'.field_count = 0 ∧ s'.fields = [] ∧
      s'.cursor = 3 ∧ s'.position = 3 ∧
      count_errors ErrorKind.framing s'.output = 1 ∧ s'.output.length = 1 ∧
      s'.component_stack = initial_state.component_stack ∧
      loop (SF_INTRODUCER :: 0 :: 3 :: [0xD3, 0xA8, 0xA8])
          ((SF_INTRODUCER :: 0 :: 3 :: [0xD3, 0xA8, 0xA8]).length + 1) initial_state =
        loop (SF_INTRODUCER :: 0 :: 3 :: [0xD3, 0xA8, 0xA8])
          (SF_INTRODUCER :: 0 :: 3 :: [0xD3, 0xA8, 0xA8]).length s' :=
  ⟨by decide,
   bad_length_at_start 0 3 [0xD3, 0xA8, 0xA8] (by decide) (by decide) (by decide)⟩

/-- C9, counterexample: ten bad bytes followed by a well-framed Begin-Document
record.  The run is not aborted after the tenth desync error: it goes on to
frame the record (`field_count = 1`, read offset 17 at the end). -/
theorem ten_bad_bytes_do_not_abort :
    ∃ rep, validate_afp_file
        (List.replicate 10 0 ++ Record.bytes ⟨(0xD3, 0xA8, 0xA8), 0, []⟩) = some rep ∧
      rep.state.error_count = 10 ∧ rep.state.field_count = 1 ∧ rep.state.field_count ≠ 0 ∧
      rep.state.cursor = 17 ∧ Message.too_many_errors ∉ rep.state.output := by
  refine ⟨_, rfl, ?_⟩
  decide

/-- C9, amended: when the first 11 bytes of a file are all non-introducer
bytes, the run is aborted at the 11th desync error, with `error_count = 11`,
`field_count = 0` and `is_valid = false`, and the result is the same whatever
follows the 11th byte. -/
theorem eleven_bad_bytes_abort (pre : List Nat) (hlen : pre.length = 11)
    (hbad : ∀ b ∈ pre, b ≠ SF_INTRODUCER) :
    ∃ rep, (∀ rest, validate_afp_file (pre ++ rest) = some rep) ∧
      rep.state.error_count = 11 ∧ rep.state.field_count = 0 ∧ rep.result = false ∧
      rep.state.is_valid = false ∧ rep.state.cursor = 11 ∧ rep.state.position = 11 ∧
      count_errors ErrorKind.desync rep.state.output = 11 ∧
      Message.too_many_errors ∈ rep.state.output := by
  obtain ⟨bad, b, rfl⟩ : ∃ bad b, pre = bad ++ [b] := by
    rcases List.eq_nil_or_concat pre with h | h
    · rw [h] at hlen; cases hlen
    · obtain ⟨L, b, h⟩ := h
      exact ⟨L, b, by rw [h, List.concat_eq_append]⟩
  simp only [List.length_append, List.length_singleton] at hlen
  have hlen' : bad.length = 10 := by omega
  have hbad' : ∀ b' ∈ bad, b' ≠ SF_INTRODUCER := fun b' hb' => hbad b' (by simp [hb'])
  have hb : b ≠ SF_INTRODUCER := hbad b (by simp)
  let final : State := { initial_state with
    output := (desync_messages 0 bad ++ [Message.invalid_introducer b 10]) ++
      [Message.too_many_errors]
    is_valid := false
    position := 11
    cursor := 11
    error_count := 11 }
  have hloop : ∀ rest, loop (bad ++ [b] ++ rest) ((bad ++ [b] ++ rest).length + 1)
      initial_state = some final := by
    intro rest
    have hrun := loop_desync_run (bad ++ [b] ++ rest) bad initial_state ([b] ++ rest)
      (rest.length + 2) hbad' (by simp [initial_state]) rfl
      (by simp only [initial_state]; omega)
    have hfuel : (bad ++ [b] ++ rest).length + 1 = rest.length + 2 + bad.length := by
      simp only [List.length_append, List.length_singleton]; omega
    rw [hfuel, hrun, loop]
    have hd : (bad ++ [b] ++ rest).drop (initial_state.position + bad.length) = b :: rest := by
      simp [initial_state]
    have hit := iteration_desync (bad ++ [b] ++ rest) rest
      { initial_state with
        output := initial_state.output ++ desync_messages initial_state.position bad
        is_valid := initial_state.is_valid && bad.isEmpty
        position := initial_state.position + bad.length
        cursor := initial_state.position + bad.length
        error_count := initial_state.error_count + bad.length } b hd hb
    rw [if_pos (by simp only [initial_state]; omega)] at hit
    rw [if_pos (by
      simp only [initial_state, List.length_append, List.length_singleton]; omega), hit]
    simp only [Option.some.injEq, final, initial_state, hlen', State.mk.injEq, and_true,
      true_and, List.nil_append, Nat.zero_add]
  have hholds : Holds final.component_stack [] := holds_initial
  refine ⟨{ result := final.is_valid, state := final, unclosed := [],
            stack_after_summary := final.component_stack }, ?_, rfl, rfl, rfl, rfl, rfl, rfl,
    ?_, ?_⟩
  · intro rest
    exact validate_of_loop _ final (hloop rest) ([], final.component_stack)
      (print_structure_summary_empty _ hholds)
  · show count_errors ErrorKind.desync
      ((desync_messages 0 bad ++ [Message.invalid_introducer b 10]) ++
        [Message.too_many_errors]) = 11
    rw [count_errors_append, count_errors_append, count_desync_messages, hlen']
    simp [Message.kind]
  · show Message.too_many_errors ∈
      (desync_messages 0 bad ++ [Message.invalid_introducer b 10]) ++
        [Message.too_many_errors]
    simp

/-- Witness for C9, amended: eleven bytes `00`. -/
theorem eleven_bad_bytes_abort_witness :
    (∀ b ∈ List.replicate 11 0, b ≠ SF_INTRODUCER) ∧
    ∃ rep, (∀ rest, validate_afp_file (List.replicate 11 0 ++ rest) = some rep) ∧
      rep.state.error_count = 11 ∧ rep.state.field_count = 0 ∧ rep.result = false ∧
      rep.state.is_valid = false ∧ rep.state.cursor = 11 ∧ rep.state.position = 11 ∧
      count_errors ErrorKind.desync rep.state.output = 11 ∧
      Message.too_many_errors ∈ rep.state.output :=
  ⟨by decide, eleven_bad_bytes_abort (List.replicate 11 0) (by decide) (by decide)⟩

/-- C10, counterexample: ten framing errors followed by a single bad
introducer byte and a well-framed record.  No two desync errors occur in a
row (there is only one), yet the run is aborted by the error cap at read
offset 31 of 38 and the record is never framed. -/
theorem cap_counts_framing_errors :
    ∃ rep, validate_afp_file ten_framing_errors_then_stray = some rep ∧
      count_errors ErrorKind.desync rep.state.output = 1 ∧
      count_errors ErrorKind.framing rep.state.output = 10 ∧
      Message.too_many_errors ∈ rep.state.output ∧
      rep.state.cursor = 31 ∧ ten_framing_errors_then_stray.length = 38 ∧
      rep.state.field_count = 0 := by
  refine ⟨_, rfl, ?_⟩
  decide

/-- C10, amended: the run is aborted by the error cap only at a desync error
and only when `error_count`, the number of desync and framing errors so far in
the whole run, then exceeds 10; a run that is not aborted by the cap (so every
run that ends with `error_count ≤ 10`, and every run without a desync error)
scans to the end of the file: the read offset ends at or after the file
length. -/
theorem cap_is_on_total_error_count (bytes : List Nat) :
    ∃ rep, validate_afp_file bytes = some rep ∧
      (Message.too_many_errors ∈ rep.state.output →
        10 < rep.state.error_count ∧ 0 < count_errors ErrorKind.desync rep.state.output) ∧
      (Message.too_many_errors ∉ rep.state.output → bytes.length ≤ rep.state.cursor) := by
  obtain ⟨rep, h1, -, -, h4⟩ := validate_rule bytes
    (fun s => s.position ≤ s.cursor ∧ Message.too_many_errors ∉ s.output)
    (fun s => (Message.too_many_errors ∈ s.output →
        10 < s.error_count ∧ 0 < count_errors ErrorKind.desync s.output) ∧
      (Message.too_many_errors ∉ s.output → bytes.length ≤ s.cursor))
    (by simp [initial_state])
    (by
      intro s s' hI _ hp
      obtain ⟨hI1, hI2⟩ := hI
      refine ⟨pass_cursor bytes s _ hp hI1, ?_⟩
      cases hp with
      | desync b hb he => simp [hI2]
      | too_short L hL => simp [hI2]
      | exceeds L hL hx => simp [hI2]
      | field L type flag data c s' hL hfit hc hpf =>
        rcases (process_field_spec _ _ _ _ _ _ hpf).2.2.2.2 with ⟨e5, -⟩ | ⟨p, e, e5, -⟩
        · rw [e5]; exact hI2
        · rw [e5]; simp [hI2])
    (by
      intro s s' hI _ hp
      obtain ⟨hI1, hI2⟩ := hI
      cases hp with
      | eof c hc hs => exact ⟨fun h => absurd h hI2, fun _ => hc⟩
      | desync_cap b hb he =>
        refine ⟨fun _ => ⟨he, ?_⟩, fun h => absurd (by simp) h⟩
        simp only [count_errors_append, Message.kind]
        simp
      | short_length c hc hs => exact ⟨fun h => absurd h (by simp [hI2]), fun _ => hc⟩
      | short_type c hc hs => exact ⟨fun h => absurd h (by simp [hI2]), fun _ => hc⟩
      | short_flag c hc hs => exact ⟨fun h => absurd h (by simp [hI2]), fun _ => hc⟩
      | short_data c hc hs => exact ⟨fun h => absurd h (by simp [hI2]), fun _ => hc⟩)
    (by
      intro s hI hpos
      obtain ⟨hI1, hI2⟩ := hI
      exact ⟨fun h => absurd h hI2, fun _ => by omega⟩)
  exact ⟨rep, h1, h4⟩

/-- C11: a field cut short by the end of the file.  After a valid introducer,
when fewer than 2 bytes are left for the length, or when the length field has
passed its two checks and fewer bytes are left than the 3 type bytes, the flag
byte and the `length - 6` payload bytes, the pass ends in `break` with one
fatal error line and `is_valid = false`; the field is not counted, the stack,
the two flags, the counts and the statistics are unchanged, the loop returns
at once and the read offset is at the end of the file. -/
theorem short_read_stops_run (bytes tail : List Nat) (s : State)
    (hpc : s.position ≤ s.cursor)
    (hd : bytes.drop s.cursor = SF_INTRODUCER :: tail)
    (hshort : tail.length < 2 ∨
      ∃ b1 b2 rest, tail = b1 :: b2 :: rest ∧ b1 < 256 ∧ b2 < 256 ∧ 5 ≤ 256 * b1 + b2 ∧
        s.position + (256 * b1 + b2) ≤ bytes.length ∧
        rest.length < 3 + 1 + (256 * b1 + b2 - 6)) :
    ∃ s' m, iteration bytes s = some (Flow.brk s') ∧
      (∀ fuel, loop bytes (fuel + 1) s = some s') ∧
      m.kind = some ErrorKind.fatal ∧ s'.output = s.output ++ [m] ∧
      s'.is_valid = false ∧ s'.field_count = s.field_count ∧ s'.fields = s.fields ∧
      s'.error_count = s.error_count ∧ s'.component_stack = s.component_stack ∧
      s'.has_begin_document = s.has_begin_document ∧
      s'.has_end_document = s.has_end_document ∧ s'.stats = s.stats ∧
      s'.page_count = s.page_count ∧ s'.object_count = s.object_count ∧
      s'.resource_count = s.resource_count ∧ s'.cursor = bytes.length := by
  have hlt : s.position < bytes.length := by
    have := drop_nonempty_lt bytes s.cursor SF_INTRODUCER tail hd
    omega
  have key : ∃ m, m.kind = some ErrorKind.fatal ∧
      iteration bytes s = some (Flow.brk { s with
        cursor := bytes.length
        output := s.output ++ [m]
        is_valid := false }) := by
    rcases hshort with h | ⟨b1, b2, rest, rfl, h1, h2, hL, hfit, hs⟩
    · exact ⟨Message.failed_length (s.position + 1), rfl,
        iteration_short_length bytes tail s hd h⟩
    · exact iteration_short_body bytes rest s b1 b2 hd h1 h2 hL hfit hs
  obtain ⟨m, hm, hit⟩ := key
  refine ⟨_, m, hit, ?_, hm, rfl, rfl, rfl, rfl, rfl, rfl, rfl, rfl, rfl, rfl, rfl, rfl, rfl⟩
  intro fuel
  rw [loop, if_pos hlt, hit]

/-- Witness for C11: the file `5A 00 07 D3 A8 A8 00`, whose length field asks
for one payload byte that is not there. -/
theorem short_read_stops_run_witness :
    ∃ s' m, iteration [SF_INTRODUCER, 0, 7, 0xD3, 0xA8, 0xA8, 0] initial_state =
        some (Flow.brk s') ∧
      (∀ fuel, loop [SF_INTRODUCER, 0, 7, 0xD3, 0xA8, 0xA8, 0] (fuel + 1) initial_state =
        some s') ∧
      m.kind = some ErrorKind.fatal ∧ s'.output = initial_state.output ++ [m] ∧
      s'.is_valid = false ∧ s'.field_count = initial_state.field_count ∧
      s'.fields = initial_state.fields ∧
      s'.error_count = initial_state.error_count ∧
      s'.component_stack = initial_state.component_stack ∧
      s'.has_begin_document = initial_state.has_begin_document ∧
      s'.has_end_document = initial_state.has_end_document ∧
      s'.stats = initial_state.stats ∧
      s'.page_count = initial_state.page_count ∧
      s'.object_count = initial_state.object_count ∧
      s'.resource_count = initial_state.resource_count ∧
      s'.cursor = [SF_INTRODUCER, 0, 7, 0xD3, 0xA8, 0xA8, 0].length :=
  short_read_stops_run [SF_INTRODUCER, 0, 7, 0xD3, 0xA8, 0xA8, 0] [0, 7, 0xD3, 0xA8, 0xA8, 0]
    initial_state (by decide) rfl
    (Or.inr ⟨0, 7, [0xD3, 0xA8, 0xA8, 0], rfl, by decide, by decide, by decide, by decide,
      by decide⟩)

set_option maxRecDepth 100000 in
/-- C12, counterexample: a stream of 101 well-framed Begin-Page records.  The
101st push finds the stack full and is dropped, but the run is not stopped and
is not marked invalid: all 101 fields are counted, no error line is printed,
and the value returned is `true`. -/
theorem stack_overflow_is_not_fatal :
    (validate_afp_file (stream (List.replicate 101 ⟨(0xD3, 0xA8, 0xAF), 0, []⟩))).map
        (fun rep => (rep.result, rep.state.field_count, rep.state.component_stack.top,
          rep.state.output)) =
      some (true, 101, 99, []) := by
  decide

/-- C12, amended: a Begin field met while the stack holds 100 entries:
`stack_push` returns `false` and leaves the stack as it is, the result is
ignored, `is_valid` is not changed, no error line is printed, the field is
counted and the loop goes on with the bytes after the field. -/
theorem begin_field_on_full_stack (bytes post : List Nat) (s : State) (r : Record) (x : Nat)
    (hx : x ∈ bracket_codes) (hty : r.type = (0xD3, 0xA8, x))
    (hwf : r.length < 65536) (hd : bytes.drop s.cursor = r.bytes ++ post)
    (hpc : s.position ≤ s.cursor)
    (hfull : s.component_stack.top = (MAX_STACK_SIZE : Int) - 1) :
    stack_push s.component_stack (bracket_component x) = some (false, s.component_stack) ∧
    ∃ s', iteration bytes s = some (Flow.cont s') ∧
      s'.component_stack = s.component_stack ∧ s'.is_valid = s.is_valid ∧
      s'.output = s.output ∧ s'.error_count = s.error_count ∧
      s'.field_count = s.field_count + 1 ∧ bytes.drop s'.cursor = post := by
  have hrl := record_bytes_length r
  have hge := drop_length_ge bytes r.bytes post s.cursor SF_INTRODUCER _ rfl hd
  have hit := iteration_at_record bytes post s r hd hwf (by omega)
  have hpush : ∀ c, stack_push s.component_stack c = some (false, s.component_stack) := by
    intro c
    unfold stack_push
    rw [if_pos (by rw [hfull])]
  have hbegin : ∀ (t : State) (c : AFPComponent), t.component_stack = s.component_stack →
      begin_component t c = some t := by
    intro t c ht
    unfold begin_component
    rw [ht, hpush c, ← ht]
  have hcheck : ∀ t : State, t.component_stack = s.component_stack →
      ∃ s2, check_begin_end t (0xD3, 0xA8, x) = some s2 ∧
        s2.component_stack = s.component_stack ∧ s2.is_valid = t.is_valid ∧
        s2.output = t.output := by
    intro t ht
    simp only [bracket_codes, List.mem_cons, List.mem_singleton, List.not_mem_nil,
      or_false] at hx
    rcases hx with rfl | rfl | rfl | rfl | rfl | rfl
    · refine ⟨{ t with has_begin_document := true }, ?_, ht, rfl, rfl⟩
      rw [check_begin_end, if_pos rfl, if_pos rfl, if_pos rfl]
      exact hbegin _ _ ht
    · refine ⟨t, ?_, ht, rfl, rfl⟩
      rw [check_begin_end, if_pos rfl, if_pos rfl, if_neg (by decide), if_pos rfl]
      exact hbegin _ _ ht
    · refine ⟨{ t with page_count := t.page_count + 1 }, ?_, ht, rfl, rfl⟩
      rw [check_begin_end, if_pos rfl, if_pos rfl, if_neg (by decide), if_neg (by decide),
        if_pos rfl, hbegin _ _ ht]
      rfl
    · refine ⟨{ t with object_count := t.object_count + 1 }, ?_, ht, rfl, rfl⟩
      rw [check_begin_end, if_pos rfl, if_pos rfl, if_neg (by decide), if_neg (by decide),
        if_neg (by decide), if_pos rfl, hbegin _ _ ht]
      rfl
    · refine ⟨t, ?_, ht, rfl, rfl⟩
      rw [check_begin_end, if_pos rfl, if_pos rfl, if_neg (by decide), if_neg (by decide),
        if_neg (by decide), if_neg (by decide), if_pos rfl]
      exact hbegin _ _ ht
    · refine ⟨t, ?_, ht, rfl, rfl⟩
      rw [check_begin_end, if_pos rfl, if_pos rfl, if_neg (by decide), if_neg (by decide),
        if_neg (by decide), if_neg (by decide), if_neg (by decide), if_pos rfl]
      exact hbegin _ _ ht
  obtain ⟨s2, hc2, hs2, hv2, ho2⟩ := hcheck { s with cursor := s.cursor + r.length + 1 } rfl
  rw [← hty] at hc2
  obtain ⟨s3, hp3, e1, e2, e3, -⟩ :=
    process_field_of_check _ s2 r.length r.type r.flag r.data hc2
  have sp := process_field_spec _ _ _ _ _ _ hp3
  simp only at sp
  refine ⟨hpush _, s3, by rw [hit, hp3]; rfl, by rw [e1, hs2], by rw [e2, hv2],
    by rw [e3, ho2], sp.2.2.1, sp.2.2.2.1, ?_⟩
  rw [sp.1]
  rw [show s.cursor + r.length + 1 = s.cursor + r.bytes.length by omega, ← List.drop_drop, hd]
  simp

/-- Witness for C12, amended: a Begin-Page field met with 100 Pages open. -/
theorem begin_field_on_full_stack_witness :
    state_stack_full.component_stack.top = (MAX_STACK_SIZE : Int) - 1 ∧
    stack_push state_stack_full.component_stack (bracket_component 0xAF) =
      some (false, state_stack_full.component_stack) ∧
    ∃ s', iteration (Record.bytes ⟨(0xD3, 0xA8, 0xAF), 0, []⟩) state_stack_full =
        some (Flow.cont s') ∧
      s'.component_stack = state_stack_full.component_stack ∧
      s'.is_valid = state_stack_full.is_valid ∧
      s'.output = state_stack_full.output ∧ s'.error_count = state_stack_full.error_count ∧
      s'.field_count = state_stack_full.field_count + 1 ∧
      (Record.bytes ⟨(0xD3, 0xA8, 0xAF), 0, []⟩).drop s'.cursor = [] :=
  ⟨by decide,
   begin_field_on_full_stack (Record.bytes ⟨(0xD3, 0xA8, 0xAF), 0, []⟩) [] state_stack_full
    ⟨(0xD3, 0xA8, 0xAF), 0, []⟩ 0xAF (by decide) rfl (by decide) (by decide) (by decide)
    (by decide)⟩

/-- C13, counterexample: Begin-Document followed by End-Page.  The stream has
a Begin-Document and no End-Document, `has_end_document` is `false`, but the
End-Page has popped the Document: the stack is empty at the end and
`COMPONENT_DOCUMENT` is not in the unclosed list. -/
theorem document_popped_by_other_end :
    ∃ rep, validate_afp_file
        (stream [⟨(0xD3, 0xA8, 0xA8), 0, []⟩, ⟨(0xD3, 0xA9, 0xAF), 0, []⟩]) = some rep ∧
      rep.state.has_end_document = false ∧ rep.state.component_stack.top = -1 ∧
      rep.unclosed = [] ∧ COMPONENT_DOCUMENT ∉ rep.unclosed := by
  refine ⟨_, rfl, ?_⟩
  decide

/-- C13, amended: for a stream of well-framed records in which every End
record closes the component opened last and the depth stays at most 100
(`open_after` gives a result), with a Begin-Document record and no
End-Document record, the run ends with `has_end_document = false`, and
`COMPONENT_DOCUMENT` is still on the component stack and appears in the
unclosed list. -/
theorem document_stays_unclosed (rs : List Record) (final : List Nat)
    (hwf : ∀ r ∈ rs, r.length < 65536) (hn : open_after [] rs = some final)
    (hbdt : ∃ r ∈ rs, r.type = BDT) (hne : ∀ r ∈ rs, r.type ≠ EDT) :
    ∃ rep, validate_afp_file (stream rs) = some rep ∧
      rep.state.has_end_document = false ∧ rep.state.has_begin_document = true ∧
      (∃ l, Holds rep.state.component_stack l ∧ COMPONENT_DOCUMENT ∈ l) ∧
      COMPONENT_DOCUMENT ∈ rep.unclosed := by
  obtain ⟨rep, h1, -, -, -, -, -, h7, h8, -, h10, h11⟩ := validate_nested rs final hwf hn
  have hdoc : 0xA8 ∈ final := open_after_keeps_document rs [] final hn hne (Or.inr hbdt)
  have hcomp : COMPONENT_DOCUMENT ∈ final.map bracket_component :=
    List.mem_map.mpr ⟨0xA8, hdoc, by decide⟩
  refine ⟨rep, h1, ?_, ?_, ⟨_, h7, by simpa using hcomp⟩, by rw [h8]; exact hcomp⟩
  · rw [h11, List.any_eq_false]
    intro r hr
    simpa using hne r hr
  · rw [h10, List.any_eq_true]
    obtain ⟨r, hr, hty⟩ := hbdt
    exact ⟨r, hr, by simpa using hty⟩

/-- Witness for C13, amended: Begin-Document, Begin-Page, End-Page. -/
theorem document_stays_unclosed_witness :
    open_after [] [⟨(0xD3, 0xA8, 0xA8), 0, []⟩, ⟨(0xD3, 0xA8, 0xAF), 0, []⟩,
      ⟨(0xD3, 0xA9, 0xAF), 0, []⟩] = some [0xA8] ∧
    ∃ rep, validate_afp_file (stream [⟨(0xD3, 0xA8, 0xA8), 0, []⟩,
        ⟨(0xD3, 0xA8, 0xAF), 0, []⟩, ⟨(0xD3, 0xA9, 0xAF), 0, []⟩]) = some rep ∧
      rep.state.has_end_document = false ∧ rep.state.has_begin_document = true ∧
      (∃ l, Holds rep.state.component_stack l ∧ COMPONENT_DOCUMENT ∈ l) ∧
      COMPONENT_DOCUMENT ∈ rep.unclosed :=
  ⟨by decide,
   document_stays_unclosed [⟨(0xD3, 0xA8, 0xA8), 0, []⟩, ⟨(0xD3, 0xA8, 0xAF), 0, []⟩,
      ⟨(0xD3, 0xA9, 0xAF), 0, []⟩] [0xA8] (by decide) (by decide)
    ⟨⟨(0xD3, 0xA8, 0xA8), 0, []⟩, by simp, rfl⟩ (by decide)⟩

/-- C14: at the end of the run `has_begin_document` is `true` exactly when one
of the fields framed has type code `D3 A8 A8`, and `has_end_document` exactly
when one has type code `D3 A9 A8` (the fields framed are the fields counted);
both flags start `false` and no pass of the loop clears either.  On the
two-record stream Begin-Document, End-Document, each of length 9 with 3
payload bytes, the run gives `field_count = 2`, `error_count = 0`, both flags
`true`, an empty stack and `is_valid = true`. -/
theorem document_flags_iff_framed (bytes : List Nat) :
    (∃ rep, validate_afp_file bytes = some rep ∧
      rep.state.fields.length = rep.state.field_count ∧
      (rep.state.has_begin_document = true ↔ ∃ f ∈ rep.state.fields, f.type = BDT) ∧
      (rep.state.has_end_document = true ↔ ∃ f ∈ rep.state.fields, f.type = EDT)) ∧
    (initial_state.has_begin_document = false ∧ initial_state.has_end_document = false) ∧
    (∀ s out, iteration bytes s = some out →
      (s.has_begin_document = true → out.state.has_begin_document = true) ∧
      (s.has_end_document = true → out.state.has_end_document = true)) ∧
    (∃ rep, validate_afp_file
        (stream [⟨BDT, 0, [0, 0, 0]⟩, ⟨EDT, 0, [0, 0, 0]⟩]) = some rep ∧
      rep.state.field_count = 2 ∧ rep.state.error_count = 0 ∧
      rep.state.has_begin_document = true ∧ rep.state.has_end_document = true ∧
      rep.state.component_stack.top = -1 ∧ rep.unclosed = [] ∧ rep.result = true) := by
  refine ⟨?_, ⟨rfl, rfl⟩, ?_, ?_⟩
  · obtain ⟨rep, h1, -, -, h4⟩ := validate_rule bytes
      (fun s => s.fields.length = s.field_count ∧
        (s.has_begin_document = true ↔ ∃ f ∈ s.fields, f.type = BDT) ∧
        (s.has_end_document = true ↔ ∃ f ∈ s.fields, f.type = EDT))
      (fun s => s.fields.length = s.field_count ∧
        (s.has_begin_document = true ↔ ∃ f ∈ s.fields, f.type = BDT) ∧
        (s.has_end_document = true ↔ ∃ f ∈ s.fields, f.type = EDT))
      (by simp [initial_state])
      (by
        intro s s' hI _ hp
        cases hp with
        | desync b hb he => exact hI
        | too_short L hL => exact hI
        | exceeds L hL hx => exact hI
        | field L type flag data c s' hL hfit hc hpf =>
          obtain ⟨hI0, hI1, hI2⟩ := hI
          obtain ⟨fb, fe, ff⟩ := process_field_flags _ _ _ _ _ _ hpf
          have sp := process_field_spec _ _ _ _ _ _ hpf
          simp only at fb fe ff sp
          refine ⟨?_, ?_, ?_⟩
          · rw [ff, sp.2.2.2.1, List.length_append, hI0]; rfl
          · rw [fb, ff]
            simp only [Bool.or_eq_true, decide_eq_true_eq, List.mem_append,
              List.mem_singleton, hI1]
            constructor
            · rintro (⟨f, hf, hft⟩ | h)
              · exact ⟨f, Or.inl hf, hft⟩
              · exact ⟨_, Or.inr rfl, by rw [identify_field_type_type]; exact h⟩
            · rintro ⟨f, hf | rfl, hft⟩
              · exact Or.inl ⟨f, hf, hft⟩
              · exact Or.inr (by rw [identify_field_type_type] at hft; exact hft)
          · rw [fe, ff]
            simp only [Bool.or_eq_true, decide_eq_true_eq, List.mem_append,
              List.mem_singleton, hI2]
            constructor
            · rintro (⟨f, hf, hft⟩ | h)
              · exact ⟨f, Or.inl hf, hft⟩
              · exact ⟨_, Or.inr rfl, by rw [identify_field_type_type]; exact h⟩
            · rintro ⟨f, hf | rfl, hft⟩
              · exact Or.inl ⟨f, hf, hft⟩
              · exact Or.inr (by rw [identify_field_type_type] at hft; exact hft))
      (by
        intro s s' hI _ hp
        cases hp with
        | eof c hc hs => exact hI
        | desync_cap b hb he => exact hI
        | short_length c hc hs => exact hI
        | short_type c hc hs => exact hI
        | short_flag c hc hs => exact hI
        | short_data c hc hs => exact hI)
      (fun s hI _ => hI)
    exact ⟨rep, h1, h4⟩
  · intro s out hit
    have hp := iteration_spec bytes s out hit
    cases hp with
    | field L type flag data c s' hL hfit hc hpf =>
      obtain ⟨fb, fe, -⟩ := process_field_flags _ _ _ _ _ _ hpf
      simp only at fb fe
      simp only [Flow.state]
      rw [fb, fe]
      exact ⟨fun h => by simp [h], fun h => by simp [h]⟩
    | _ => exact ⟨fun h => h, fun h => h⟩
  · refine ⟨_, rfl, ?_⟩
    decide

/-- C15: a stream of `k ≤ 100` well-framed Begin records and no other record:
the run returns `true` with `error_count = 0`, the stack holds the `k`
components pushed in the order of opening, the unclosed list printed by
`print_structure_summary` is those components in reverse order of opening
(top of the stack first), and the stack is empty afterwards. -/
theorem begin_only_stream_unclosed (rs : List Record) (hwf : ∀ r ∈ rs, r.length < 65536)
    (hb : ∀ r ∈ rs, r.is_begin) (hk : rs.length ≤ 100) :
    ∃ rep, validate_afp_file (stream rs) = some rep ∧ rep.result = true ∧
      rep.state.error_count = 0 ∧ rep.state.field_count = rs.length ∧
      Holds rep.state.component_stack (rs.map (fun r => bracket_component r.type.2.2)) ∧
      rep.unclosed = (rs.map (fun r => bracket_component r.type.2.2)).reverse ∧
      rep.stack_after_summary.top = -1 ∧ stack_empty rep.stack_after_summary = true := by
  have hn := open_after_all_begin rs [] hb (by simpa using hk)
  obtain ⟨rep, h1, h2, -, h4, h5, -, h7, h8, h9, -, -⟩ := validate_nested rs _ hwf hn
  refine ⟨rep, h1, h2, h4, h5, ?_, ?_, ?_, ?_⟩
  · simpa [List.map_reverse] using h7
  · rw [h8]; simp [List.map_reverse]
  · rw [h9]
  · rw [h9]; rfl

/-- Witness for C15: Begin-Document followed by Begin-Page. -/
theorem begin_only_stream_unclosed_witness :
    (∀ r ∈ [(⟨(0xD3, 0xA8, 0xA8), 0, []⟩ : Record), ⟨(0xD3, 0xA8, 0xAF), 0, []⟩], r.is_begin) ∧
    ∃ rep, validate_afp_file
        (stream [⟨(0xD3, 0xA8, 0xA8), 0, []⟩, ⟨(0xD3, 0xA8, 0xAF), 0, []⟩]) = some rep ∧
      rep.result = true ∧ rep.state.error_count = 0 ∧
      rep.state.field_count =
        [(⟨(0xD3, 0xA8, 0xA8), 0, []⟩ : Record), ⟨(0xD3, 0xA8, 0xAF), 0, []⟩].length ∧
      Holds rep.state.component_stack
        ([(⟨(0xD3, 0xA8, 0xA8), 0, []⟩ : Record), ⟨(0xD3, 0xA8, 0xAF), 0, []⟩].map
          (fun r => bracket_component r.type.2.2)) ∧
      rep.unclosed =
        ([(⟨(0xD3, 0xA8, 0xA8), 0, []⟩ : Record), ⟨(0xD3, 0xA8, 0xAF), 0, []⟩].map
          (fun r => bracket_component r.type.2.2)).reverse ∧
      rep.stack_after_summary.top = -1 ∧ stack_empty rep.stack_after_summary = true :=
  ⟨by decide,
   begin_only_stream_unclosed [⟨(0xD3, 0xA8, 0xA8), 0, []⟩, ⟨(0xD3, 0xA8, 0xAF), 0, []⟩]
    (by decide) (by decide) (by decide)⟩

/-- C16, what the code does: `identify_field_type` never sets `obj_type`.  The
arms holding the data-object and resource-descriptor tables hang as `else if`
under `if (type[0] == 0xD3)` and test `type[0] == 0xD3` again, so they are
never reached: every field ends with `obj_type = OBJ_UNKNOWN`, and each of the
eight type codes of the tables also ends with `component = COMPONENT_UNKNOWN`.
On the file `5A 00 06 D3 EE BB 00` the field is framed with `OBJ_UNKNOWN` and
the presentation-text counter stays 0. -/
theorem object_tables_never_reached :
    (∀ field, (identify_field_type field).obj_type = OBJ_UNKNOWN) ∧
    (∀ length flag data,
      (identify_field_type (prepared_field length (0xD3, 0xEE, 0xBB) flag data)).component =
        COMPONENT_UNKNOWN ∧
      (identify_field_type (prepared_field length (0xD3, 0x87, 0x8A) flag data)).component =
        COMPONENT_UNKNOWN ∧
      (identify_field_type (prepared_field length (0xD3, 0xA7, 0xAB) flag data)).component =
        COMPONENT_UNKNOWN ∧
      (identify_field_type (prepared_field length (0xD3, 0xAF, 0xA8) flag data)).component =
        COMPONENT_UNKNOWN ∧
      (identify_field_type (prepared_field length (0xD3, 0xEB, 0xBB) flag data)).component =
        COMPONENT_UNKNOWN ∧
      (identify_field_type (prepared_field length (0xD3, 0x8A, 0x8B) flag data)).component =
        COMPONENT_UNKNOWN ∧
      (identify_field_type (prepared_field length (0xD3, 0x8C, 0x8A) flag data)).component =
        COMPONENT_UNKNOWN ∧
      (identify_field_type (prepared_field length (0xD3, 0xA6, 0xAF) flag data)).component =
        COMPONENT_UNKNOWN) ∧
    (∃ rep, validate_afp_file [0x5A, 0, 6, 0xD3, 0xEE, 0xBB, 0] = some rep ∧
      rep.state.fields.map (fun f => (f.type, f.component, f.obj_type)) =
        [((0xD3, 0xEE, 0xBB), COMPONENT_UNKNOWN, OBJ_UNKNOWN)] ∧
      rep.state.stats.presentation_text = 0) := by
  refine ⟨?_, ?_, ?_⟩
  · intro field
    obtain ⟨c, n, h⟩ := identify_field_type_eq field
    rw [h]
  · intro length flag data
    simp [identify_field_type_stages, prepared_field, bracket_stage, name_stage]
  · refine ⟨_, rfl, ?_⟩
    decide

/-- C17, what the code does: the Begin/End dispatch of `validate_afp_file` and
the table of `identify_field_type` disagree.  On `D3 A8 A8` the validator
pushes `COMPONENT_DOCUMENT` while the classifier answers `COMPONENT_OBJECT`; on
`D3 A9 A8` the validator pops and compares with `COMPONENT_DOCUMENT` (here, on
an empty stack, printing the mismatch) while the classifier answers
`COMPONENT_UNKNOWN`; `D3 A8 C8` is classified `COMPONENT_DOCUMENT` and makes
the validator neither push nor pop; and on the file `5A 00 06 D3 A8 A8 00` the
one field framed is classified `COMPONENT_OBJECT` while the component left
unclosed is the Document. -/
theorem validator_and_classifier_tables_differ :
    ((check_begin_end initial_state (0xD3, 0xA8, 0xA8)).bind
        (fun s => stack_peek s.component_stack) = some COMPONENT_DOCUMENT ∧
      (identify_field_type (prepared_field 6 (0xD3, 0xA8, 0xA8) 0 none)).component =
        COMPONENT_OBJECT) ∧
    ((check_begin_end initial_state (0xD3, 0xA9, 0xA8)).map (fun s => s.output) =
        some [Message.structure_mismatch 0 COMPONENT_UNKNOWN COMPONENT_DOCUMENT] ∧
      (identify_field_type (prepared_field 6 (0xD3, 0xA9, 0xA8) 0 none)).component =
        COMPONENT_UNKNOWN) ∧
    ((identify_field_type (prepared_field 6 (0xD3, 0xA8, 0xC8) 0 none)).component =
        COMPONENT_DOCUMENT ∧
      (check_begin_end state_document_open (0xD3, 0xA8, 0xC8)).map
          (fun s => s.component_stack) = some state_document_open.component_stack) ∧
    (∃ rep, validate_afp_file [0x5A, 0, 6, 0xD3, 0xA8, 0xA8, 0] = some rep ∧
      rep.state.fields.map (fun f => (f.type, f.component)) =
        [((0xD3, 0xA8, 0xA8), COMPONENT_OBJECT)] ∧
      rep.unclosed = [COMPONENT_DOCUMENT]) := by
  refine ⟨by decide, by decide, by decide, ?_⟩
  refine ⟨_, rfl, ?_⟩
  decide

/-- C18, what the code does: the bracket counters of `update_statistics` are
keyed on third bytes other than those of the Begin/End dispatch.  A file with
one Begin-Document field (`D3 A8 A8`) ends with `has_begin_document = true`,
the Document pushed, and `stats.documents = 0`; one Begin-Page field
(`D3 A8 AF`) ends with `page_count = 1` and `stats.pages = 0`; one
Begin-Resource-Group field (`D3 A8 C6`) ends with the Resource Group pushed,
`stats.documents = 1` and `stats.resource_groups = 0`. -/
theorem statistics_keyed_on_other_codes :
    (∃ rep, validate_afp_file [0x5A, 0, 6, 0xD3, 0xA8, 0xA8, 0] = some rep ∧
      rep.state.has_begin_document = true ∧ rep.unclosed = [COMPONENT_DOCUMENT] ∧
      rep.state.stats.documents = 0) ∧
    (∃ rep, validate_afp_file [0x5A, 0, 6, 0xD3, 0xA8, 0xAF, 0] = some rep ∧
      rep.unclosed = [COMPONENT_PAGE] ∧ rep.state.page_count = 1 ∧
      rep.state.stats.pages = 0) ∧
    (∃ rep, validate_afp_file [0x5A, 0, 6, 0xD3, 0xA8, 0xC6, 0] = some rep ∧
      rep.unclosed = [COMPONENT_RESOURCE_GROUP] ∧ rep.state.stats.documents = 1 ∧
      rep.state.stats.resource_groups = 0) := by
  refine ⟨⟨_, rfl, ?_⟩, ⟨_, rfl, ?_⟩, ⟨_, rfl, ?_⟩⟩ <;> decide

/-- C20, what the code does: on the file `5A 00 0A D3 A6 89 00 01 02 03 04`, a
naming field of length 10 with a payload of 4 bytes, the guard
`field->length > 9` passes and the copy of 8 bytes from payload offset 2 reads
offsets 4 to 9 outside the payload: six of the eight name cells come from
beyond the buffer. -/
theorem name_copy_reads_past_payload :
    ∃ rep, validate_afp_file [0x5A, 0, 10, 0xD3, 0xA6, 0x89, 0, 1, 2, 3, 4] = some rep ∧
      rep.state.fields.map (fun f => (f.length, f.data, f.name)) =
        [(10, some [1, 2, 3, 4],
          [some 3, some 4, none, none, none, none, none, none, some 0])] := by
  refine ⟨_, rfl, ?_⟩
  decide

/-- C19, counterexample: the naming field with payload
`00 00 C1 C2 C3 00 00 00 00 00`.  The name is printed with `strlen(name)`
characters, so the line stops at the first zero byte: it reads `ABC`, not
`ABC.....` (which is what the eight name bytes give through `ebcdic_to_ascii`). -/
theorem name_line_stops_at_zero_byte :
    resource_name_line (identify_field_type (prepared_field 16 (0xD3, 0xA6, 0x89) 0
        (some [0, 0, 0xC1, 0xC2, 0xC3, 0, 0, 0, 0, 0]))) = some (some ['A', 'B', 'C']) ∧
    [0xC1, 0xC2, 0xC3, 0, 0, 0, 0, 0].map ebcdic_to_ascii =
      ['A', 'B', 'C', '.', '.', '.', '.', '.'] ∧
    resource_name_line (identify_field_type (prepared_field 16 (0xD3, 0xA6, 0x89) 0
        (some [0, 0, 0xC1, 0xC2, 0xC3, 0, 0, 0, 0, 0]))) ≠
      some (some ['A', 'B', 'C', '.', '.', '.', '.', '.']) := by
  decide

/-- C19, amended: for a naming field (type `D3 A6 89`, length above 9) whose
payload has at least 10 bytes, the name attached to the field is payload bytes
2..9 followed by a terminating zero, and the name line of verbose mode is
`ebcdic_to_ascii` applied to those bytes in order up to, not including, the
first zero byte among them: all eight characters when none of the eight bytes
is zero, and no name line at all when payload byte 2 is zero. -/
theorem naming_field_name (length flag : Nat) (payload : List Nat) (hlen : length > 9)
    (hp : 10 ≤ payload.length) :
    (identify_field_type (prepared_field length (0xD3, 0xA6, 0x89) flag
        (some payload))).name = ((payload.drop 2).take 8).map some ++ [some 0] ∧
    resource_name_line (identify_field_type (prepared_field length (0xD3, 0xA6, 0x89) flag
        (some payload))) =
      some (if payload.getD 2 0 = 0 then none
        else some ((((payload.drop 2).take 8).takeWhile (fun b => decide (b ≠ 0))).map
          ebcdic_to_ascii)) ∧
    ((∀ b ∈ (payload.drop 2).take 8, b ≠ 0) →
      resource_name_line (identify_field_type (prepared_field length (0xD3, 0xA6, 0x89) flag
          (some payload))) =
        some (some (((payload.drop 2).take 8).map ebcdic_to_ascii))) := by
  have hname : (identify_field_type (prepared_field length (0xD3, 0xA6, 0x89) flag
      (some payload))).name = ((payload.drop 2).take 8).map some ++ [some 0] := by
    rw [identify_field_type_stages]
    simp only [prepared_field, name_stage, and_self, if_true, bracket_stage]
    obtain ⟨c, hc⟩ := bracket_stage_eq (0xD3, 0xA6, 0x89) (prepared_field length
      (0xD3, 0xA6, 0x89) flag (some payload))
    simp [hlen, copy_name_of_length payload hp]
  have hline : resource_name_line (identify_field_type (prepared_field length
      (0xD3, 0xA6, 0x89) flag (some payload))) =
      some (if payload.getD 2 0 = 0 then none
        else some ((((payload.drop 2).take 8).takeWhile (fun b => decide (b ≠ 0))).map
          ebcdic_to_ascii)) := by
    unfold resource_name_line
    rw [hname, strlen_map_some]
    dsimp only
    rw [print_map_some]
    rcases payload with _ | ⟨p0, _ | ⟨p1, _ | ⟨p2, rest⟩⟩⟩ <;> simp at hp
    by_cases h2 : p2 = 0
    · simp [h2]
    · simp [h2]
  refine ⟨hname, hline, ?_⟩
  intro hnz
  rw [hline]
  have htw : ((payload.drop 2).take 8).takeWhile (fun b => decide (b ≠ 0)) =
      (payload.drop 2).take 8 := by
    rw [List.takeWhile_eq_self_iff]
    intro b hb
    simpa using hnz b hb
  have h2 : payload.getD 2 0 ≠ 0 := by
    rcases payload with _ | ⟨p0, _ | ⟨p1, _ | ⟨p2, rest⟩⟩⟩ <;> simp at hp
    exact hnz p2 (by simp)
  rw [if_neg h2, htw]

/-- Witness for C19, amended: the payload `00 00 C1 C2 C3 00 00 00 00 00` in
a field of length 16. -/
theorem naming_field_name_witness :
    (identify_field_type (prepared_field 16 (0xD3, 0xA6, 0x89) 0
        (some [0, 0, 0xC1, 0xC2, 0xC3, 0, 0, 0, 0, 0]))).name =
      (([0, 0, 0xC1, 0xC2, 0xC3, 0, 0, 0, 0, 0].drop 2).take 8).map some ++ [some 0] ∧
    resource_name_line (identify_field_type (prepared_field 16 (0xD3, 0xA6, 0x89) 0
        (some [0, 0, 0xC1, 0xC2, 0xC3, 0, 0, 0, 0, 0]))) =
      some (if [0, 0, 0xC1, 0xC2, 0xC3, 0, 0, 0, 0, 0].getD 2 0 = 0 then none
        else some (((([0, 0, 0xC1, 0xC2, 0xC3, 0, 0, 0, 0, 0].drop 2).take 8).takeWhile
          (fun b => decide (b ≠ 0))).map ebcdic_to_ascii)) ∧
    ((∀ b ∈ ([0, 0, 0xC1, 0xC2, 0xC3, 0, 0, 0, 0, 0].drop 2).take 8, b ≠ 0) →
      resource_name_line (identify_field_type (prepared_field 16 (0xD3, 0xA6, 0x89) 0
          (some [0, 0, 0xC1, 0xC2, 0xC3, 0, 0, 0, 0, 0]))) =
        some (some ((([0, 0, 0xC1, 0xC2, 0xC3, 0, 0, 0, 0, 0].drop 2).take 8).map
          ebcdic_to_ascii))) :=
  naming_field_name 16 0 [0, 0, 0xC1, 0xC2, 0xC3, 0, 0, 0, 0, 0] (by decide) (by decide)

/-- C21: `identify_field_type` is a total function of the field, and a field
whose type code does not start with `0xD3` (so also one that starts with
`0x5A`) comes back with `component = COMPONENT_UNKNOWN`,
`obj_type = OBJ_UNKNOWN` and every other member, the name among them, as it
was, whatever the length and the payload; for a field as the validator
prepares it the name is still the nine zero bytes, so no name is set. -/
theorem non_d3_field_is_unclassified (field : StructuredField)
    (h : field.type.1 ≠ 0xD3) :
    identify_field_type field =
      { field with
        component := COMPONENT_UNKNOWN
        obj_type := OBJ_UNKNOWN } ∧
    (identify_field_type field).name = field.name ∧
    (∀ length flag data,
      field = prepared_field length field.type flag data →
      (identify_field_type field).name = List.replicate 9 (some 0) ∧
      strlen (identify_field_type field).name = some 0) := by
  have h1 : identify_field_type field =
      { field with
        component := COMPONENT_UNKNOWN
        obj_type := OBJ_UNKNOWN } := by
    rw [identify_field_type_stages, bracket_stage_not_d3 _ _ h, name_stage_not_d3 _ _ h]
  refine ⟨h1, by rw [h1], ?_⟩
  intro length flag data hf
  rw [h1]
  dsimp only
  rw [hf]
  refine ⟨rfl, ?_⟩
  show strlen (List.replicate 9 (some 0)) = some 0
  decide

theorem non_d3_field_is_unclassified_witness :
    identify_field_type (prepared_field 8 (0x5A, 0xA8, 0xA8) 0 (some [0xC1, 0xC2])) =
      { prepared_field 8 (0x5A, 0xA8, 0xA8) 0 (some [0xC1, 0xC2]) with
        component := COMPONENT_UNKNOWN
        obj_type := OBJ_UNKNOWN } :=
  (non_d3_field_is_unclassified
    (prepared_field 8 (0x5A, 0xA8, 0xA8) 0 (some [0xC1, 0xC2])) (by decide)).1

/-- C22, counterexample: two fields with the same type code `D3 A8 AF`, the same
length 8 and the same payload `00 00`, one with the name zeroed and one with
the name bytes `C1 C2 C3` left in it.  `identify_field_type` extracts no name
from either and leaves each name as it was, so the two results have different
names: the name of the result depends on the name the field had before. -/
theorem name_depends_on_previous_name :
    (prepared_field 8 (0xD3, 0xA8, 0xAF) 0 (some [0, 0])).type =
      ({ prepared_field 8 (0xD3, 0xA8, 0xAF) 0 (some [0, 0]) with
        name := [some 0xC1, some 0xC2, some 0xC3, some 0, some 0, some 0, some 0, some 0,
          some 0] }).type ∧
    (prepared_field 8 (0xD3, 0xA8, 0xAF) 0 (some [0, 0])).length =
      ({ prepared_field 8 (0xD3, 0xA8, 0xAF) 0 (some [0, 0]) with
        name := [some 0xC1, some 0xC2, some 0xC3, some 0, some 0, some 0, some 0, some 0,
          some 0] }).length ∧
    (prepared_field 8 (0xD3, 0xA8, 0xAF) 0 (some [0, 0])).data =
      ({ prepared_field 8 (0xD3, 0xA8, 0xAF) 0 (some [0, 0]) with
        name := [some 0xC1, some 0xC2, some 0xC3, some 0, some 0, some 0, some 0, some 0,
          some 0] }).data ∧
    (identify_field_type (prepared_field 8 (0xD3, 0xA8, 0xAF) 0 (some [0, 0]))).name =
      List.replicate 9 (some 0) ∧
    (identify_field_type
      { prepared_field 8 (0xD3, 0xA8, 0xAF) 0 (some [0, 0]) with
        name := [some 0xC1, some 0xC2, some 0xC3, some 0, some 0, some 0, some 0, some 0,
          some 0] }).name =
      [some 0xC1, some 0xC2, some 0xC3, some 0, some 0, some 0, some 0, some 0, some 0] ∧
    (identify_field_type (prepared_field 8 (0xD3, 0xA8, 0xAF) 0 (some [0, 0]))).name ≠
      (identify_field_type
        { prepared_field 8 (0xD3, 0xA8, 0xAF) 0 (some [0, 0]) with
          name := [some 0xC1, some 0xC2, some 0xC3, some 0, some 0, some 0, some 0, some 0,
            some 0] }).name := by
  decide

/-- C22, amended: the `component` and `obj_type` that `identify_field_type`
computes depend on the type code alone: two fields with the same type code get
the same two values, whatever they held before.  The name is written only for
a naming field (`D3 A6 89`) with a payload and `length > 9`; when that payload
has at least 10 bytes the name is payload bytes 2..9 followed by a zero byte;
for every other field the name is left as it was (nine zero bytes for a field
as the validator prepares it).  The members length, type, flags and data are
never changed.  When the name copy stays inside the payload, applying
`identify_field_type` to its own result changes nothing. -/
theorem classification_up_to_previous_name (f g : StructuredField)
    (htype : f.type = g.type) :
    (identify_field_type f).component = (identify_field_type g).component ∧
    (identify_field_type f).obj_type = (identify_field_type g).obj_type ∧
    (∀ d, f.type.1 = 0xD3 ∧ f.type.2.1 = 0xA6 ∧ f.type.2.2 = 0x89 ∧ f.length > 9 →
      f.data = some d → 10 ≤ d.length →
      (identify_field_type f).name = ((d.drop 2).take 8).map some ++ [some 0]) ∧
    (¬ (f.type.1 = 0xD3 ∧ f.type.2.1 = 0xA6 ∧ f.type.2.2 = 0x89 ∧ f.length > 9 ∧
        f.data ≠ none) →
      (identify_field_type f).name = f.name) ∧
    (∀ length flag data,
      ¬ (f.type.1 = 0xD3 ∧ f.type.2.1 = 0xA6 ∧ f.type.2.2 = 0x89 ∧ length > 9 ∧
        data ≠ none) →
      (identify_field_type (prepared_field length f.type flag data)).name =
        List.replicate 9 (some 0)) ∧
    ((identify_field_type f).length = f.length ∧ (identify_field_type f).type = f.type ∧
      (identify_field_type f).flags = f.flags ∧ (identify_field_type f).data = f.data) ∧
    (name_copy_in_payload f →
      identify_field_type (identify_field_type f) = identify_field_type f) := by
  have hkept : ∀ x : StructuredField,
      ¬ (x.type.1 = 0xD3 ∧ x.type.2.1 = 0xA6 ∧ x.type.2.2 = 0x89 ∧ x.length > 9 ∧
        x.data ≠ none) →
      (identify_field_type x).name = x.name := by
    intro x hx
    rw [identify_field_type_name x]
    by_cases hc : x.type.1 = 0xD3 ∧ x.type.2.1 = 0xA6 ∧ x.type.2.2 = 0x89 ∧ x.length > 9
    · rw [if_pos hc]
      cases hd : x.data with
      | none => rfl
      | some d =>
        exact absurd ⟨hc.1, hc.2.1, hc.2.2.1, hc.2.2.2, by simp [hd]⟩ hx
    · rw [if_neg hc]
  refine ⟨identify_field_type_component f g htype, ?_, ?_, hkept f, ?_,
    identify_field_type_rest f, fun _ => identify_field_type_idem f⟩
  · rw [identify_field_type_obj_type, identify_field_type_obj_type]
  · intro d hc hd hlen
    rw [identify_field_type_name f, if_pos hc, hd]
    exact copy_name_of_length d hlen
  · intro length flag data hx
    exact hkept (prepared_field length f.type flag data) hx

theorem classification_up_to_previous_name_witness :
    (identify_field_type
      { length := 16, type := (0xD3, 0xA6, 0x89), flags := 0,
        data := some [0, 0, 0xC1, 0xC2, 0xC3, 0xC4, 0xC5, 0xC6, 0xC7, 0xC8],
        component := COMPONENT_PAGE, obj_type := OBJ_FONT,
        name := List.replicate 9 (some 0) }).component =
    (identify_field_type
      (prepared_field 16 (0xD3, 0xA6, 0x89) 0
        (some [0, 0, 0xC1, 0xC2, 0xC3, 0xC4, 0xC5, 0xC6, 0xC7, 0xC8]))).component ∧
    (identify_field_type
      { length := 16, type := (0xD3, 0xA6, 0x89), flags := 0,
        data := some [0, 0, 0xC1, 0xC2, 0xC3, 0xC4, 0xC5, 0xC6, 0xC7, 0xC8],
        component := COMPONENT_PAGE, obj_type := OBJ_FONT,
        name := List.replicate 9 (some 0) }).name =
      [some 0xC1, some 0xC2, some 0xC3, some 0xC4, some 0xC5, some 0xC6, some 0xC7,
        some 0xC8, some 0] ∧
    identify_field_type (identify_field_type
      { length := 16, type := (0xD3, 0xA6, 0x89), flags := 0,
        data := some [0, 0, 0xC1, 0xC2, 0xC3, 0xC4, 0xC5, 0xC6, 0xC7, 0xC8],
        component := COMPONENT_PAGE, obj_type := OBJ_FONT,
        name := List.replicate 9 (some 0) }) =
      identify_field_type
        { length := 16, type := (0xD3, 0xA6, 0x89), flags := 0,
          data := some [0, 0, 0xC1, 0xC2, 0xC3, 0xC4, 0xC5, 0xC6, 0xC7, 0xC8],
          component := COMPONENT_PAGE, obj_type := OBJ_FONT,
          name := List.replicate 9 (some 0) } := by
  obtain ⟨h1, -, h3, -, -, -, h7⟩ := classification_up_to_previous_name
    { length := 16, type := (0xD3, 0xA6, 0x89), flags := 0,
      data := some [0, 0, 0xC1, 0xC2, 0xC3, 0xC4, 0xC5, 0xC6, 0xC7, 0xC8],
      component := COMPONENT_PAGE, obj_type := OBJ_FONT,
      name := List.replicate 9 (some 0) }
    (prepared_field 16 (0xD3, 0xA6, 0x89) 0
      (some [0, 0, 0xC1, 0xC2, 0xC3, 0xC4, 0xC5, 0xC6, 0xC7, 0xC8])) rfl
  exact ⟨h1, h3 _ (by decide) rfl (by decide), h7 (fun _ => by decide)⟩

/-- C23, counterexample: the record `5A 00 05 D3 EE 9B 00` declares the length
5.  It is framed and counted (`field_count = 1`), no framing error is reported
(`error_count = 0`, nothing printed, result `true`); its payload is absent and
7 bytes are read for it, one more than its declared length and introducer. -/
theorem field_of_length_five_is_counted :
    ∃ rep, validate_afp_file [0x5A, 0x00, 0x05, 0xD3, 0xEE, 0x9B, 0x00] = some rep ∧
      rep.state.field_count = 1 ∧ rep.state.error_count = 0 ∧ rep.state.output = [] ∧
      rep.result = true ∧
      rep.state.fields.map (fun f => (f.length, f.type, f.data)) =
        [(5, (0xD3, 0xEE, 0x9B), none)] ∧
      rep.state.cursor = 7 ∧ rep.state.position = 5 := by
  refine ⟨_, rfl, ?_⟩
  decide

/-- C23, amended: every field that is framed and counted has length at least 5
and lies inside the file.  In every run the fields logged are the fields
counted and each has `length >= 5`.  A pass that counts a field started at an
introducer byte, at offset `cursor`; the field has the length declared in the
two bytes after it, `cursor + length` and `position + length` are within the
file length, the `max (length + 1) 7` bytes read for it are all inside the
file, and its payload is absent when `length <= 6` and has `length - 6` bytes
otherwise.  A record whose declared length is below 5, or for which
`position + length` exceeds the file length, is reported as one framing error
and not counted. -/
theorem counted_field_bounds (bytes : List Nat) :
    (∃ rep, validate_afp_file bytes = some rep ∧
      rep.state.fields.length = rep.state.field_count ∧
      ∀ f ∈ rep.state.fields, 5 ≤ f.length) ∧
    (∀ s s', iteration bytes s = some (Flow.cont s') → s'.field_count ≠ s.field_count →
      ∃ f, s'.fields = s.fields ++ [f] ∧ s'.field_count = s.field_count + 1 ∧
        s'.error_count = s.error_count ∧
        bytes.getD s.cursor 0 = SF_INTRODUCER ∧
        f.length =
          ((bytes.getD (s.cursor + 1) 0 <<< 8) ||| bytes.getD (s.cursor + 2) 0) % 65536 ∧
        5 ≤ f.length ∧ s.cursor + f.length ≤ bytes.length ∧
        s.position + f.length ≤ bytes.length ∧
        s'.position = s.position + f.length ∧
        s'.cursor = s.cursor + max (f.length + 1) 7 ∧ s'.cursor ≤ bytes.length ∧
        ((f.data = none ∧ f.length ≤ 6) ∨
          ∃ d, f.data = some d ∧ d.length + 6 = f.length)) ∧
    (∀ s b1 b2 rest, bytes.drop s.cursor = SF_INTRODUCER :: b1 :: b2 :: rest →
      (((b1 <<< 8) ||| b2) % 65536 < 5 ∨
        s.position + ((b1 <<< 8) ||| b2) % 65536 > bytes.length) →
      ∃ s' m, iteration bytes s = some (Flow.cont s') ∧
        m.kind = some ErrorKind.framing ∧ s'.output = s.output ++ [m] ∧
        s'.error_count = s.error_count + 1 ∧ s'.is_valid = false ∧
        s'.field_count = s.field_count ∧ s'.fields = s.fields ∧
        s'.position = s.position + 3 ∧ s'.cursor = s.position + 3) := by
  refine ⟨?_, iteration_counted_field bytes, ?_⟩
  · obtain ⟨rep, h1, -, -, h4⟩ := validate_rule bytes
      (fun s => s.fields.length = s.field_count ∧ ∀ f ∈ s.fields, 5 ≤ f.length)
      (fun s => s.fields.length = s.field_count ∧ ∀ f ∈ s.fields, 5 ≤ f.length)
      (by simp [initial_state])
      (by
        intro s s' hI _ hp
        cases hp with
        | desync b hb he => exact hI
        | too_short L hL => exact hI
        | exceeds L hL hx => exact hI
        | field L type flag data c s' hL hfit hc hpf =>
          obtain ⟨-, -, -, p4, -⟩ := process_field_spec _ _ _ _ _ _ hpf
          obtain ⟨-, -, q3⟩ := process_field_flags _ _ _ _ _ _ hpf
          have hlen := (identify_field_type_rest
            { length := L, type := type, flags := flag, data := data,
              component := COMPONENT_UNKNOWN, obj_type := OBJ_UNKNOWN,
              name := List.replicate 9 (some 0) }).1
          simp only at p4 q3 hlen
          refine ⟨by rw [q3, p4, List.length_append, hI.1]; rfl, ?_⟩
          intro f hf
          rw [q3, List.mem_append, List.mem_singleton] at hf
          rcases hf with hf | rfl
          · exact hI.2 f hf
          · rw [hlen]; omega)
      (by
        intro s s' hI _ hp
        cases hp with
        | _ => exact hI)
      (fun s hI _ => hI)
    exact ⟨rep, h1, h4⟩
  · intro s b1 b2 rest hd hbad
    obtain ⟨m, hm, hit⟩ := iteration_bad_length bytes rest s b1 b2 hd hbad
    exact ⟨_, m, hit, hm, rfl, rfl, rfl, rfl, rfl, rfl, rfl⟩

theorem counted_field_bounds_witness :
    ∃ rep, validate_afp_file [0x5A, 0x00, 0x05, 0xD3, 0xEE, 0x9B, 0x00] = some rep ∧
      rep.state.fields.length = rep.state.field_count ∧
      ∀ f ∈ rep.state.fields, 5 ≤ f.length :=
  (counted_field_bounds [0x5A, 0x00, 0x05, 0xD3, 0xEE, 0x9B, 0x00]).1

/-- C24: `ebcdic_to_ascii` is a total function that maps the bytes `C1..C9` to
`A..I`, `D1..D9` to `J..R`, `E2..E9` to `S..Z` and `F0..F9` to `0..9`, in
order, and every other byte to the full stop; so its result is always one of
the 36 characters `A`-`Z`, `0`-`9` or the full stop, and on the 36 mapped
bytes it is one-to-one and onto those 36 characters. -/
theorem ebcdic_to_ascii_table :
    (List.range' 0xC1 9).map ebcdic_to_ascii = "ABCDEFGHI".toList ∧
    (List.range' 0xD1 9).map ebcdic_to_ascii = "JKLMNOPQR".toList ∧
    (List.range' 0xE2 8).map ebcdic_to_ascii = "STUVWXYZ".toList ∧
    (List.range' 0xF0 10).map ebcdic_to_ascii = "0123456789".toList ∧
    (∀ e, e ∈ mapped_bytes ∨ ebcdic_to_ascii e = '.') ∧
    (∀ e, ebcdic_to_ascii e ∈ letters_and_digits ∨ ebcdic_to_ascii e = '.') ∧
    (∀ c ∈ letters_and_digits, (c.isUpper = true ∨ c.isDigit = true) ∧ c ≠ '.') ∧
    mapped_bytes.length = 36 ∧ letters_and_digits.length = 36 ∧
    mapped_bytes.Nodup ∧ letters_and_digits.Nodup ∧
    Set.BijOn ebcdic_to_ascii {e | e ∈ mapped_bytes} {c | c ∈ letters_and_digits} := by
  have hmem : ∀ e, e ∈ mapped_bytes → ebcdic_to_ascii e ∈ letters_and_digits := by
    intro e he
    rw [← ebcdic_to_ascii_mapped]
    exact List.mem_map_of_mem _ he
  have hnd : letters_and_digits.Nodup := by decide
  refine ⟨by decide, by decide, by decide, by decide, ?_, ?_, by decide, rfl, rfl,
    by decide, hnd, hmem, ?_, ?_⟩
  · intro e
    by_cases he : e ∈ mapped_bytes
    · exact Or.inl he
    · exact Or.inr (ebcdic_to_ascii_unmapped e he)
  · intro e
    by_cases he : e ∈ mapped_bytes
    · exact Or.inl (hmem e he)
    · exact Or.inr (ebcdic_to_ascii_unmapped e he)
  · intro a ha b hb hab
    have hn : (mapped_bytes.map ebcdic_to_ascii).Nodup := by
      rw [ebcdic_to_ascii_mapped]
      exact hnd
    exact List.inj_on_of_nodup_map hn ha hb hab
  · intro c hc
    have hc' : c ∈ mapped_bytes.map ebcdic_to_ascii := by
      rw [ebcdic_to_ascii_mapped]
      exact hc
    obtain ⟨e, he, hec⟩ := List.mem_map.mp hc'
    exact ⟨e, he, hec⟩

/-- C25: the stack and the two document flags are changed by bracket fields
only.  From a state whose stack is within its bounds, processing a framed
field succeeds, and: if the type code is neither a Begin code `D3 A8 x` nor an
End code `D3 A9 x` with `x` one of `A8, AD, AF, C9, C6, DF`, the stack,
`has_begin_document` and `has_end_document` are as before; on a Begin code with
the stack not full the depth grows by exactly 1, the new top being the
component of `x` and the entries below unchanged (on a full stack nothing
changes); on an End code with the stack not empty the depth shrinks by exactly
1 and the array is untouched (on an empty stack nothing changes). -/
theorem only_bracket_fields_change_the_stack (s : State) (length : Nat)
    (type : Nat × Nat × Nat) (flag : Nat) (data : Option (List Nat))
    (h : StackOK s.component_stack) :
    ∃ s', process_field s length type flag data = some s' ∧
      (¬ (type.1 = 0xD3 ∧ type.2.1 = 0xA8 ∧ type.2.2 ∈ bracket_codes) →
        ¬ (type.1 = 0xD3 ∧ type.2.1 = 0xA9 ∧ type.2.2 ∈ bracket_codes) →
        s'.component_stack = s.component_stack ∧
        s'.has_begin_document = s.has_begin_document ∧
        s'.has_end_document = s.has_end_document) ∧
      (type.1 = 0xD3 ∧ type.2.1 = 0xA8 ∧ type.2.2 ∈ bracket_codes →
        (s.component_stack.top + 1 < 100 →
          s'.component_stack.top = s.component_stack.top + 1 ∧
          s'.component_stack.components =
            s.component_stack.components.set (s.component_stack.top + 1).toNat
              (bracket_component type.2.2)) ∧
        (s.component_stack.top + 1 = 100 → s'.component_stack = s.component_stack)) ∧
      (type.1 = 0xD3 ∧ type.2.1 = 0xA9 ∧ type.2.2 ∈ bracket_codes →
        (0 < s.component_stack.top + 1 →
          s'.component_stack.top = s.component_stack.top - 1 ∧
          s'.component_stack.components = s.component_stack.components) ∧
        (s.component_stack.top + 1 = 0 → s'.component_stack = s.component_stack)) := by
  obtain ⟨s1, h1, -⟩ := check_begin_end_total s type h
  obtain ⟨s', hp, hstk, -, -, hb, he, -⟩ :=
    process_field_of_check s s1 length type flag data h1
  refine ⟨s', hp, ?_, ?_, ?_⟩
  · intro nb ne
    rw [check_begin_end_other s type nb ne] at h1
    cases h1
    exact ⟨hstk, hb, he⟩
  · obtain ⟨t0, t1, x⟩ := type
    rintro ⟨r0, r1, hx⟩
    simp only at r0 r1 hx
    subst r0 r1
    dsimp only
    constructor
    · intro hd
      obtain ⟨s2, h2, h3⟩ := check_begin_end_push s x true _ hx
        (stack_push_room s.component_stack (bracket_component x) h hd)
      rw [h1] at h2
      cases h2
      rw [hstk, h3]
      exact ⟨rfl, rfl⟩
    · intro hd
      obtain ⟨s2, h2, h3⟩ := check_begin_end_push s x false _ hx
        (stack_push_full s.component_stack (bracket_component x) (by omega))
      rw [h1] at h2
      cases h2
      rw [hstk, h3]
  · obtain ⟨t0, t1, x⟩ := type
    rintro ⟨r0, r1, hx⟩
    simp only at r0 r1 hx
    subst r0 r1
    constructor
    · intro hd
      obtain ⟨p, hpop⟩ := stack_pop_some s.component_stack h (by omega)
      obtain ⟨s2, h2, h3, -⟩ := check_begin_end_end s x p _ hx hpop
      rw [h1] at h2
      cases h2
      rw [hstk, h3]
      exact ⟨rfl, rfl⟩
    · intro hd
      obtain ⟨s2, h2, h3, -⟩ := check_begin_end_end s x COMPONENT_UNKNOWN _ hx
        (stack_pop_none_open s.component_stack (by omega))
      rw [h1] at h2
      cases h2
      rw [hstk, h3]

theorem only_bracket_fields_change_the_stack_witness :
    ∃ s', process_field initial_state 8 (0xD3, 0xA8, 0xAF) 0 (some [0, 0]) = some s' ∧
      s'.component_stack.top = 0 ∧
      s'.component_stack.components =
        initial_state.component_stack.components.set 0 COMPONENT_PAGE := by
  obtain ⟨s', h1, -, h2, -⟩ := only_bracket_fields_change_the_stack initial_state 8
    (0xD3, 0xA8, 0xAF) 0 (some [0, 0]) stackOK_initial
  exact ⟨s', h1, (h2 ⟨rfl, rfl, by decide⟩).1 (by decide)⟩

/-- C26: the main loop stops on every file.  Every run returns, and at its end
`field_count + error_count <= position <= file length`.  A pass that goes on
has advanced `position` by 1 with one desync error counted, or by 3 with one
framing error counted, or by the length `L >= 5` of a field it counted; a pass
always returns; the loop body runs only while `position` is below the file
length, so from a state with `position = p` the loop is left after at most
`file length - p` passes. -/
theorem main_loop_terminates (bytes : List Nat) :
    (∃ rep, validate_afp_file bytes = some rep ∧
      rep.state.field_count + rep.state.error_count ≤ rep.state.position ∧
      rep.state.position ≤ bytes.length ∧
      rep.state.field_count + rep.state.error_count ≤ bytes.length) ∧
    (∀ s s', iteration bytes s = some (Flow.cont s') →
      (s'.position = s.position + 1 ∧ s'.error_count = s.error_count + 1 ∧
        s'.field_count = s.field_count ∧
        ∃ m, m.kind = some ErrorKind.desync ∧ s'.output = s.output ++ [m]) ∨
      (s'.position = s.position + 3 ∧ s'.error_count = s.error_count + 1 ∧
        s'.field_count = s.field_count ∧
        ∃ m, m.kind = some ErrorKind.framing ∧ s'.output = s.output ++ [m]) ∨
      (∃ L, 5 ≤ L ∧ s'.position = s.position + L ∧
        s'.field_count = s.field_count + 1 ∧ s'.error_count = s.error_count)) ∧
    (∀ s, StackOK s.component_stack → ∃ out, iteration bytes s = some out) ∧
    (∀ s fuel, StackOK s.component_stack → bytes.length - s.position < fuel →
      ∃ r, loop bytes fuel s = some r) ∧
    (∀ s fuel, ¬ s.position < bytes.length → loop bytes (fuel + 1) s = some s) := by
  refine ⟨?_, ?_, iteration_some bytes, fun s fuel => loop_total bytes fuel s, ?_⟩
  · obtain ⟨rep, h1, -, h3, -⟩ := validate_rule bytes (fun _ => True) (fun _ => True)
      trivial (fun _ _ _ _ _ => trivial) (fun _ _ _ _ _ => trivial) (fun _ _ _ => trivial)
    have hQ := loop_rule_iteration bytes
      (fun s => s.field_count + s.error_count ≤ s.position ∧ s.position ≤ s.cursor ∧
        s.position ≤ bytes.length)
      (fun s => s.field_count + s.error_count ≤ s.position ∧ s.position ≤ bytes.length)
      (by
        intro s s' hI hpos hit
        obtain ⟨i1, i2, i3⟩ := hI
        obtain ⟨-, hd | ⟨-, hc3, L, -, hs | hx | hf⟩⟩ := iteration_cont_reads bytes s s' hit
        · obtain ⟨-, rfl⟩ := hd
          dsimp only
          omega
        · obtain ⟨-, rfl⟩ := hs
          dsimp only
          omega
        · obtain ⟨-, -, rfl⟩ := hx
          dsimp only
          omega
        · obtain ⟨h5, hfit, hc, type, flag, data, -, hp⟩ := hf
          obtain ⟨p1, p2, p3, p4, -⟩ := process_field_spec _ _ _ _ _ _ hp
          simp only at p1 p2 p3 p4
          omega)
      (by
        intro s s' hI hpos hit
        obtain ⟨i1, i2, i3⟩ := hI
        have hp := iteration_spec bytes s _ hit
        cases hp with
        | desync_cap b hb he =>
          dsimp only
          omega
        | _ => exact ⟨i1, i3⟩)
      (fun s hI _ => ⟨hI.1, hI.2.2⟩) _ initial_state rep.state
      (by simp [initial_state]) h3
    exact ⟨rep, h1, hQ.1, hQ.2, by omega⟩
  · intro s s' hit
    obtain ⟨-, hd | ⟨-, -, L, -, hs | hx | hf⟩⟩ := iteration_cont_reads bytes s s' hit
    · obtain ⟨-, rfl⟩ := hd
      exact Or.inl ⟨rfl, rfl, rfl, Message.invalid_introducer _ _, rfl, rfl⟩
    · obtain ⟨-, rfl⟩ := hs
      exact Or.inr (Or.inl ⟨rfl, rfl, rfl, Message.length_too_short _ _, rfl, rfl⟩)
    · obtain ⟨-, -, rfl⟩ := hx
      exact Or.inr (Or.inl ⟨rfl, rfl, rfl, Message.length_exceeds _ _, rfl, rfl⟩)
    · obtain ⟨h5, -, -, type, flag, data, -, hp⟩ := hf
      obtain ⟨-, p2, p3, p4, -⟩ := process_field_spec _ _ _ _ _ _ hp
      exact Or.inr (Or.inr ⟨L, h5, p2, p4, p3⟩)
  · intro s fuel hpos
    rw [loop, if_neg hpos]

/-- C27: starting from `stack_init` on a stack whose array has its 100 cells,
every sequence of `stack_push`, `stack_pop`, `stack_peek` and `stack_empty`
calls runs without an access outside the array and leaves `-1 <= top <= 99`;
on the stack reached, `stack_push` returns `false` exactly when the depth
`top + 1` is 100 and then returns the stack as it was, and `stack_peek` and
`stack_empty` leave the stack as it was. -/
theorem stack_index_stays_in_bounds (stack : ComponentStack) (calls : List StackCall)
    (h : stack.components.length = MAX_STACK_SIZE) :
    ∃ stack', run_calls (stack_init stack) calls = some stack' ∧
      -1 ≤ stack'.top ∧ stack'.top ≤ 99 ∧
      stack'.components.length = MAX_STACK_SIZE ∧
      (∀ c, (∃ s1, stack_push stack' c = some (false, s1)) ↔ stack'.top + 1 = 100) ∧
      (∀ c b s1, stack_push stack' c = some (b, s1) → b = false → s1 = stack') ∧
      (∃ c, stack_push stack' c ≠ none ∧ stack_pop stack' ≠ none ∧
        stack_peek stack' ≠ none) ∧
      StackCall.peek.run stack' = some stack' ∧
      StackCall.empty.run stack' = some stack' := by
  have h0 : StackOK (stack_init stack) := by
    refine ⟨h, ?_, ?_⟩ <;> simp [stack_init, MAX_STACK_SIZE]
  obtain ⟨s1, hrun, hok⟩ := run_calls_total calls (stack_init stack) h0
  obtain ⟨k1, k2, k3⟩ := hok
  have hok : StackOK s1 := ⟨k1, k2, k3⟩
  simp only [MAX_STACK_SIZE] at k3
  refine ⟨s1, hrun, k2, by omega, k1, fun c => (stack_push_false_iff s1 c hok).1,
    fun c => (stack_push_false_iff s1 c hok).2, ?_, ?_, rfl⟩
  · obtain ⟨b, s2, hp, -⟩ := stack_push_total s1 COMPONENT_UNKNOWN hok
    obtain ⟨c, s3, hq, -⟩ := stack_pop_total s1 hok
    obtain ⟨c', hr⟩ := stack_peek_total s1 hok
    exact ⟨COMPONENT_UNKNOWN, by simp [hp], by simp [hq], by simp [hr]⟩
  · obtain ⟨c, hr⟩ := stack_peek_total s1 hok
    simp [StackCall.run, hr]

theorem stack_index_stays_in_bounds_witness :
    ∃ stack', run_calls
        (stack_init { components := List.replicate 100 COMPONENT_UNKNOWN, top := 7 })
        [StackCall.pop, StackCall.push COMPONENT_DOCUMENT, StackCall.peek,
          StackCall.push COMPONENT_PAGE, StackCall.empty, StackCall.pop] = some stack' ∧
      -1 ≤ stack'.top ∧ stack'.top ≤ 99 := by
  obtain ⟨s1, h1, h2, h3, -⟩ := stack_index_stays_in_bounds
    { components := List.replicate 100 COMPONENT_UNKNOWN, top := 7 }
    [StackCall.pop, StackCall.push COMPONENT_DOCUMENT, StackCall.peek,
      StackCall.push COMPONENT_PAGE, StackCall.empty, StackCall.pop]
    (by simp [MAX_STACK_SIZE])
  exact ⟨s1, h1, h2, h3⟩

/-- C28: on a stack of depth below 100, `stack_push` of a component `c`
returns `true`; `stack_peek` then returns `c`; `stack_pop` then returns `c`
and leaves the depth and the entries `0 .. top` of the stack before the push
(the stack before the push with the cell above its top overwritten by `c`);
and when `c` is not `COMPONENT_UNKNOWN` the value popped differs from the
value `stack_pop` returns on an empty stack. -/
theorem push_peek_pop_round_trip (s : ComponentStack) (c : AFPComponent)
    (h : StackOK s) (hd : s.top + 1 < 100) :
    ∃ s1 s2, stack_push s c = some (true, s1) ∧
      stack_peek s1 = some c ∧
      stack_empty s1 = false ∧
      stack_pop s1 = some (c, s2) ∧
      s2.top = s.top ∧
      s2.components = s.components.set (s.top + 1).toNat c ∧
      (∀ i : Nat, (i : Int) ≤ s.top → s2.components[i]? = s.components[i]?) ∧
      (∀ l, Holds s l → Holds s2 l) ∧
      stack_pop (stack_init s) = some (COMPONENT_UNKNOWN, stack_init s) ∧
      (c ≠ COMPONENT_UNKNOWN →
        (stack_pop s1).map (fun r => r.1) ≠ (stack_pop (stack_init s)).map (fun r => r.1)) := by
  obtain ⟨h1, h2, h3⟩ := h
  simp only [MAX_STACK_SIZE] at h1 h3
  have hfull : ¬ s.top ≥ ((MAX_STACK_SIZE : Nat) : Int) - 1 := by
    simp only [MAX_STACK_SIZE]
    omega
  have hr : 0 ≤ s.top + 1 ∧ (s.top + 1).toNat < s.components.length := by
    constructor <;> omega
  have hpush : stack_push s c =
      some (true, { components := s.components.set (s.top + 1).toNat c, top := s.top + 1 }) := by
    unfold stack_push array_write
    rw [if_neg hfull, if_pos hr]
  have hcell : (s.components.set (s.top + 1).toNat c).get? (s.top + 1).toNat = some c := by
    rw [List.get?_eq_getElem?, List.getElem?_set]
    simp [hr.2]
  have hpeek : stack_peek
      { components := s.components.set (s.top + 1).toNat c, top := s.top + 1 } = some c := by
    unfold stack_peek array_read
    dsimp only
    rw [if_neg (by omega), if_pos (by omega), hcell]
  have hpop : stack_pop
      { components := s.components.set (s.top + 1).toNat c, top := s.top + 1 } =
      some (c, { components := s.components.set (s.top + 1).toNat c, top := s.top }) := by
    unfold stack_pop array_read
    dsimp only
    rw [if_neg (by omega), if_pos (by omega), hcell]
    simp
  have hinit : stack_pop (stack_init s) = some (COMPONENT_UNKNOWN, stack_init s) := by
    unfold stack_pop stack_init
    dsimp only
    rw [if_pos (by omega)]
  have hcells : ∀ i : Nat, (i : Int) ≤ s.top →
      (s.components.set (s.top + 1).toNat c)[i]? = s.components[i]? := by
    intro i hi
    rw [List.getElem?_set]
    have hne : ¬ (s.top + 1).toNat = i := by omega
    rw [if_neg hne]
  refine ⟨_, _, hpush, hpeek, ?_, hpop, rfl, rfl, hcells, ?_, hinit, ?_⟩
  · unfold stack_empty
    dsimp only
    simp only [decide_eq_false_iff_not]
    omega
  · rintro l ⟨g1, g2, g3, g4⟩
    refine ⟨by simp [g1], g2, g3, ?_⟩
    intro i hi
    dsimp only
    rw [hcells i (by omega), g4 i hi]
  · intro hc
    rw [hpop, hinit]
    simpa using hc

theorem push_peek_pop_round_trip_witness :
    ∃ s1 s2, stack_push
        { components := List.replicate 100 COMPONENT_UNKNOWN, top := -1 }
        COMPONENT_PAGE = some (true, s1) ∧
      stack_peek s1 = some COMPONENT_PAGE ∧
      stack_pop s1 = some (COMPONENT_PAGE, s2) ∧ s2.top = -1 := by
  obtain ⟨s1, s2, h1, h2, -, h3, h4, -⟩ := push_peek_pop_round_trip
    { components := List.replicate 100 COMPONENT_UNKNOWN, top := -1 } COMPONENT_PAGE
    (by simp [StackOK, MAX_STACK_SIZE]) (by decide)
  exact ⟨s1, s2, h1, h2, h3, h4⟩

end AfpValidator
